import Mathlib

/-! # go-revolut: the request / status / decode contract of the endpoint methods

A shallow embedding of the endpoint methods of `business/1.0` and `merchant/1.0`.

Conventions of the embedding.

* A Go `string` and a Go `[]byte` are both a list of bytes (`Bytes`); a byte is a natural
  number below 256 and no definition depends on that bound.  `string(resp)` is the identity.
* A Go pointer `*T` is `Ptr T` (`none` is `nil`); a Go slice `[]T` is `Slice T` (`none` is the
  `nil` slice, `some []` an empty non-nil slice).
* A Go `error` is `Option GoError` (`none` is `nil`).
* The two `request` packages (the HTTP round trip) are not part of the sources at hand; the
  function `request.New` is a parameter of every method (`Env.New`), and each method records
  the configurations it hands to it (`Run.calls`).
* The standard library is modelled where the methods depend on it: `errors.New`,
  the `fmt.Sprintf` verbs in use, `url.Values`, and the validity scanner of `encoding/json`.
  How `encoding/json` fills a value of a declared type from a valid document is a parameter
  (`json.Populate`).
-/

set_option autoImplicit false
set_option linter.dupNamespace false

/-! ## Go values -/

/-- A Go `string` or `[]byte`: its bytes in order. -/
abbrev Bytes := List Nat

/-- A Go pointer: `none` is `nil`. -/
abbrev Ptr (α : Type) := Option α

/-- A Go slice: `none` is the `nil` slice. -/
abbrev Slice (α : Type) := Option (List α)

/-- The `len` of a slice; the `nil` slice has length 0. -/
def Slice.len {α : Type} : Slice α → Nat
  | none => 0
  | some xs => xs.length

/-- UTF-8 encoding of the code point `i`. -/
def utf8Bytes (i : Nat) : Bytes :=
  if i ≤ 0x7f then [i]
  else if i ≤ 0x7ff then [0xc0 + i / 64, 0x80 + i % 64]
  else if i ≤ 0xffff then [0xe0 + i / 4096, 0x80 + i / 64 % 64, 0x80 + i % 64]
  else [0xf0 + i / 262144, 0x80 + i / 4096 % 64, 0x80 + i / 64 % 64, 0x80 + i % 64]

/-- The bytes of a string literal of the source (Go source text is UTF-8). -/
def B (s : String) : Bytes := s.data.flatMap (fun c => utf8Bytes c.toNat)

/-! ## strconv / fmt: integers -/

namespace strconv

/-- Decimal digits of `n`, most significant first, in front of `acc`; `fuel` bounds the
number of digits. -/
def digits : Nat → Nat → Bytes → Bytes
  | 0, _, acc => acc
  | fuel + 1, n, acc =>
    if n < 10 then (48 + n) :: acc else digits fuel (n / 10) ((48 + n % 10) :: acc)

/-- The decimal text of a natural number. -/
def FormatNat (n : Nat) : Bytes := digits (n + 1) n []

/-- The decimal text of an integer, as `strconv.Itoa` and the verb `%d` give it. -/
def Itoa : Int → Bytes
  | Int.ofNat n => FormatNat n
  | Int.negSucc n => 45 :: FormatNat (n + 1)

end strconv

/-! ## encoding/json: the validity scanner (`scanner.go`) -/

namespace json

/-- A `*json.SyntaxError`: the message and the offset after which the error was found. -/
structure SyntaxError where
  msg : Bytes
  Offset : Nat
deriving DecidableEq, Repr

/-- The entries of the scanner's `parseState` stack. -/
inductive ParseState
  | parseObjectKey
  | parseObjectValue
  | parseArrayValue
deriving DecidableEq, Repr

/-- The op codes returned by the scanner's state functions. -/
inductive Op
  | scanContinue
  | scanBeginLiteral
  | scanBeginObject
  | scanObjectKey
  | scanObjectValue
  | scanEndObject
  | scanBeginArray
  | scanArrayValue
  | scanEndArray
  | scanSkipSpace
  | scanEnd
  | scanError
deriving DecidableEq, Repr

/-- The state functions a scanner's `step` field can hold. -/
inductive Step
  | stateBeginValueOrEmpty
  | stateBeginValue
  | stateBeginStringOrEmpty
  | stateBeginString
  | stateEndValue
  | stateEndTop
  | stateInString
  | stateInStringEsc
  | stateInStringEscU
  | stateInStringEscU1
  | stateInStringEscU12
  | stateInStringEscU123
  | stateNeg
  | state1
  | state0
  | stateDot
  | stateDot0
  | stateE
  | stateESign
  | stateE0
  | stateT
  | stateTr
  | stateTru
  | stateF
  | stateFa
  | stateFal
  | stateFals
  | stateN
  | stateNu
  | stateNul
  | stateError
deriving DecidableEq, Repr

/-- The JSON scanner.  `parseState` is kept with the innermost entry first (the Go slice
keeps it last). -/
structure scanner where
  step : Step
  endTop : Bool
  parseState : List ParseState
  err : Option SyntaxError
  bytes : Nat
deriving DecidableEq, Repr

/-- The nesting limit of the scanner. -/
def maxNestingDepth : Nat := 10000

/-- Lower-case hexadecimal digit. -/
def hexDigit (n : Nat) : Nat := if n % 16 < 10 then 48 + n % 16 else 87 + n % 16

/-- The predicate `strconv.IsPrint` on the Latin-1 range, the only one a byte can reach. -/
def isPrint (r : Nat) : Bool :=
  (0x20 ≤ r && r ≤ 0x7e) || (0xa1 ≤ r && r ≤ 0xff && r != 0xad)

/-- The text `strconv.Quote(string(c))` without its two surrounding quotes, for a byte `c`
taken as a code point. -/
def quoteBody (c : Nat) : Bytes :=
  if c = 34 ∨ c = 92 then [92, c]
  else if isPrint c then utf8Bytes c
  else if c = 7 then B "\\a"
  else if c = 8 then B "\\b"
  else if c = 12 then B "\\f"
  else if c = 10 then B "\\n"
  else if c = 13 then B "\\r"
  else if c = 9 then B "\\t"
  else if c = 11 then B "\\v"
  else if c < 32 ∨ c = 127 then B "\\x" ++ [hexDigit (c / 16), hexDigit c]
  else B "\\u" ++ [hexDigit (c / 4096), hexDigit (c / 256), hexDigit (c / 16), hexDigit c]

/-- The function `quoteChar` of the scanner: a byte formatted as a quoted character literal. -/
def quoteChar (c : Nat) : Bytes :=
  if c = 39 then B "'\\''"
  else if c = 34 then B "'\"'"
  else B "'" ++ quoteBody c ++ B "'"

/-- The method `scanner.error`: record an error and switch to the error state. -/
def scanner.error (s : scanner) (c : Nat) (context : Bytes) : scanner × Op :=
  ({ s with
      step := Step.stateError
      err := some ⟨B "invalid character " ++ quoteChar c ++ B " " ++ context, s.bytes⟩ },
    Op.scanError)

/-- The method `scanner.pushParseState`. -/
def scanner.pushParseState (s : scanner) (c : Nat) (newParseState : ParseState)
    (successState : Op) : scanner × Op :=
  let s1 := { s with parseState := newParseState :: s.parseState }
  if s1.parseState.length ≤ maxNestingDepth then (s1, successState)
  else s1.error c (B "exceeded max depth")

/-- The method `scanner.popParseState`. -/
def scanner.popParseState (s : scanner) : scanner :=
  let rest := s.parseState.tail
  if rest.length = 0 then { s with parseState := rest, step := Step.stateEndTop, endTop := true }
  else { s with parseState := rest, step := Step.stateEndValue }

/-- The function `isSpace`. -/
def isSpace (c : Nat) : Bool := c ≤ 32 && (c == 32 || c == 9 || c == 13 || c == 10)

/-- The state after the top-level value: only white space may follow. -/
def stateEndTop (s : scanner) (c : Nat) : scanner × Op :=
  if !isSpace c then ((s.error c (B "after top-level value")).1, Op.scanEnd)
  else (s, Op.scanEnd)

/-- The state after a value has been completed. -/
def stateEndValue (s : scanner) (c : Nat) : scanner × Op :=
  match s.parseState with
  | [] => stateEndTop { s with step := Step.stateEndTop, endTop := true } c
  | ps :: rest =>
    if isSpace c then ({ s with step := Step.stateEndValue }, Op.scanSkipSpace)
    else
      match ps with
      | ParseState.parseObjectKey =>
        if c = 58 then
          ({ s with parseState := ParseState.parseObjectValue :: rest,
                    step := Step.stateBeginValue }, Op.scanObjectKey)
        else s.error c (B "after object key")
      | ParseState.parseObjectValue =>
        if c = 44 then
          ({ s with parseState := ParseState.parseObjectKey :: rest,
                    step := Step.stateBeginString }, Op.scanObjectValue)
        else if c = 125 then (s.popParseState, Op.scanEndObject)
        else s.error c (B "after object key:value pair")
      | ParseState.parseArrayValue =>
        if c = 44 then ({ s with step := Step.stateBeginValue }, Op.scanArrayValue)
        else if c = 93 then (s.popParseState, Op.scanEndArray)
        else s.error c (B "after array element")

/-- The state at the beginning of the input and of every value. -/
def stateBeginValue (s : scanner) (c : Nat) : scanner × Op :=
  if isSpace c then (s, Op.scanSkipSpace)
  else if c = 123 then
    scanner.pushParseState { s with step := Step.stateBeginStringOrEmpty } c
      ParseState.parseObjectKey Op.scanBeginObject
  else if c = 91 then
    scanner.pushParseState { s with step := Step.stateBeginValueOrEmpty } c
      ParseState.parseArrayValue Op.scanBeginArray
  else if c = 34 then ({ s with step := Step.stateInString }, Op.scanBeginLiteral)
  else if c = 45 then ({ s with step := Step.stateNeg }, Op.scanBeginLiteral)
  else if c = 48 then ({ s with step := Step.state0 }, Op.scanBeginLiteral)
  else if c = 116 then ({ s with step := Step.stateT }, Op.scanBeginLiteral)
  else if c = 102 then ({ s with step := Step.stateF }, Op.scanBeginLiteral)
  else if c = 110 then ({ s with step := Step.stateN }, Op.scanBeginLiteral)
  else if 49 ≤ c ∧ c ≤ 57 then ({ s with step := Step.state1 }, Op.scanBeginLiteral)
  else s.error c (B "looking for beginning of value")

/-- The state after reading `[`. -/
def stateBeginValueOrEmpty (s : scanner) (c : Nat) : scanner × Op :=
  if isSpace c then (s, Op.scanSkipSpace)
  else if c = 93 then stateEndValue s c
  else stateBeginValue s c

/-- The state after reading `{"key": value,`. -/
def stateBeginString (s : scanner) (c : Nat) : scanner × Op :=
  if isSpace c then (s, Op.scanSkipSpace)
  else if c = 34 then ({ s with step := Step.stateInString }, Op.scanBeginLiteral)
  else s.error c (B "looking for beginning of object key string")

/-- The state after reading `{`. -/
def stateBeginStringOrEmpty (s : scanner) (c : Nat) : scanner × Op :=
  if isSpace c then (s, Op.scanSkipSpace)
  else if c = 125 then
    stateEndValue { s with parseState := ParseState.parseObjectValue :: s.parseState.tail } c
  else stateBeginString s c

/-- The state inside a string literal. -/
def stateInString (s : scanner) (c : Nat) : scanner × Op :=
  if c = 34 then ({ s with step := Step.stateEndValue }, Op.scanContinue)
  else if c = 92 then ({ s with step := Step.stateInStringEsc }, Op.scanContinue)
  else if c < 32 then s.error c (B "in string literal")
  else (s, Op.scanContinue)

/-- The state after a backslash inside a string literal. -/
def stateInStringEsc (s : scanner) (c : Nat) : scanner × Op :=
  if c = 98 ∨ c = 102 ∨ c = 110 ∨ c = 114 ∨ c = 116 ∨ c = 92 ∨ c = 47 ∨ c = 34 then
    ({ s with step := Step.stateInString }, Op.scanContinue)
  else if c = 117 then ({ s with step := Step.stateInStringEscU }, Op.scanContinue)
  else s.error c (B "in string escape code")

/-- A hexadecimal digit byte. -/
def isHex (c : Nat) : Bool :=
  (48 ≤ c && c ≤ 57) || (97 ≤ c && c ≤ 102) || (65 ≤ c && c ≤ 70)

/-- The four states that read the hexadecimal digits of a `\u` escape; `next` is the state
after the digit. -/
def stateInStringEscUn (next : Step) (s : scanner) (c : Nat) : scanner × Op :=
  if isHex c then ({ s with step := next }, Op.scanContinue)
  else s.error c (B "in \\u hexadecimal character escape")

/-- The state after a value ended in a number `0`, or in the integer part of a number. -/
def state0 (s : scanner) (c : Nat) : scanner × Op :=
  if c = 46 then ({ s with step := Step.stateDot }, Op.scanContinue)
  else if c = 101 ∨ c = 69 then ({ s with step := Step.stateE }, Op.scanContinue)
  else stateEndValue s c

/-- The state after reading `-` at the beginning of a number. -/
def stateNeg (s : scanner) (c : Nat) : scanner × Op :=
  if c = 48 then ({ s with step := Step.state0 }, Op.scanContinue)
  else if 49 ≤ c ∧ c ≤ 57 then ({ s with step := Step.state1 }, Op.scanContinue)
  else s.error c (B "in numeric literal")

/-- The state after reading a non-zero integer part. -/
def state1 (s : scanner) (c : Nat) : scanner × Op :=
  if 48 ≤ c ∧ c ≤ 57 then ({ s with step := Step.state1 }, Op.scanContinue)
  else state0 s c

/-- The state after reading the decimal point. -/
def stateDot (s : scanner) (c : Nat) : scanner × Op :=
  if 48 ≤ c ∧ c ≤ 57 then ({ s with step := Step.stateDot0 }, Op.scanContinue)
  else s.error c (B "after decimal point in numeric literal")

/-- The state after reading a digit behind the decimal point. -/
def stateDot0 (s : scanner) (c : Nat) : scanner × Op :=
  if 48 ≤ c ∧ c ≤ 57 then (s, Op.scanContinue)
  else if c = 101 ∨ c = 69 then ({ s with step := Step.stateE }, Op.scanContinue)
  else stateEndValue s c

/-- The state after reading the sign of an exponent. -/
def stateESign (s : scanner) (c : Nat) : scanner × Op :=
  if 48 ≤ c ∧ c ≤ 57 then ({ s with step := Step.stateE0 }, Op.scanContinue)
  else s.error c (B "in exponent of numeric literal")

/-- The state after reading `e` or `E` in a number. -/
def stateE (s : scanner) (c : Nat) : scanner × Op :=
  if c = 43 ∨ c = 45 then ({ s with step := Step.stateESign }, Op.scanContinue)
  else stateESign s c

/-- The state after reading a digit of an exponent. -/
def stateE0 (s : scanner) (c : Nat) : scanner × Op :=
  if 48 ≤ c ∧ c ≤ 57 then (s, Op.scanContinue)
  else stateEndValue s c

/-- The states inside the literals `true`, `false` and `null`: the byte `want` leads to
`next`, every other byte is an error with the given context. -/
def stateLit (want : Nat) (next : Step) (context : Bytes) (s : scanner) (c : Nat) :
    scanner × Op :=
  if c = want then ({ s with step := next }, Op.scanContinue)
  else s.error c context

/-- Calling the state function held in `step` (`s.step(s, c)`). -/
def Step.run : Step → scanner → Nat → scanner × Op
  | Step.stateBeginValueOrEmpty => json.stateBeginValueOrEmpty
  | Step.stateBeginValue => json.stateBeginValue
  | Step.stateBeginStringOrEmpty => json.stateBeginStringOrEmpty
  | Step.stateBeginString => json.stateBeginString
  | Step.stateEndValue => json.stateEndValue
  | Step.stateEndTop => json.stateEndTop
  | Step.stateInString => json.stateInString
  | Step.stateInStringEsc => json.stateInStringEsc
  | Step.stateInStringEscU => json.stateInStringEscUn Step.stateInStringEscU1
  | Step.stateInStringEscU1 => json.stateInStringEscUn Step.stateInStringEscU12
  | Step.stateInStringEscU12 => json.stateInStringEscUn Step.stateInStringEscU123
  | Step.stateInStringEscU123 => json.stateInStringEscUn Step.stateInString
  | Step.stateNeg => json.stateNeg
  | Step.state1 => json.state1
  | Step.state0 => json.state0
  | Step.stateDot => json.stateDot
  | Step.stateDot0 => json.stateDot0
  | Step.stateE => json.stateE
  | Step.stateESign => json.stateESign
  | Step.stateE0 => json.stateE0
  | Step.stateT => json.stateLit 114 Step.stateTr (B "in literal true (expecting 'r')")
  | Step.stateTr => json.stateLit 117 Step.stateTru (B "in literal true (expecting 'u')")
  | Step.stateTru => json.stateLit 101 Step.stateEndValue (B "in literal true (expecting 'e')")
  | Step.stateF => json.stateLit 97 Step.stateFa (B "in literal false (expecting 'a')")
  | Step.stateFa => json.stateLit 108 Step.stateFal (B "in literal false (expecting 'l')")
  | Step.stateFal => json.stateLit 115 Step.stateFals (B "in literal false (expecting 's')")
  | Step.stateFals => json.stateLit 101 Step.stateEndValue (B "in literal false (expecting 'e')")
  | Step.stateN => json.stateLit 117 Step.stateNu (B "in literal null (expecting 'u')")
  | Step.stateNu => json.stateLit 108 Step.stateNul (B "in literal null (expecting 'l')")
  | Step.stateNul => json.stateLit 108 Step.stateEndValue (B "in literal null (expecting 'l')")
  | Step.stateError => fun s _ => (s, Op.scanError)

/-- The method `scanner.reset`, on a fresh scanner. -/
def scanner.reset : scanner :=
  { step := Step.stateBeginValue, endTop := false, parseState := [], err := none, bytes := 0 }

/-- The method `scanner.eof`: the input has ended. -/
def scanner.eof (s : scanner) : scanner × Op :=
  if s.err.isSome then (s, Op.scanError)
  else if s.endTop then (s, Op.scanEnd)
  else
    let s1 := (s.step.run s 32).1
    if s1.endTop then (s1, Op.scanEnd)
    else if s1.err.isNone then
      ({ s1 with err := some ⟨B "unexpected end of JSON input", s1.bytes⟩ }, Op.scanError)
    else (s1, Op.scanError)

/-- The loop of `checkValid` over the remaining bytes. -/
def checkValidFrom : Bytes → scanner → Option SyntaxError
  | [], s =>
    let r := s.eof
    if r.2 = Op.scanError then r.1.err else none
  | c :: cs, s =>
    let s1 := { s with bytes := s.bytes + 1 }
    let r := s1.step.run s1 c
    if r.2 = Op.scanError then r.1.err else checkValidFrom cs r.1

/-- The function `checkValid` (`scanner.go`): `none` when `data` is one well-formed JSON
document, the syntax error otherwise.  The texts of the errors are those of `scanner.go`;
another release of the library can word the error of a malformed document differently, and
agrees on which documents are well-formed. -/
def checkValid (data : Bytes) : Option SyntaxError := checkValidFrom data scanner.reset

end json

/-! ## Errors -/

/-- The error values the methods can return. -/
inductive GoError
  /-- The value built by `errors.New(text)`. -/
  | errorString (text : Bytes)
  /-- A `*json.SyntaxError`. -/
  | jsonSyntax (e : json.SyntaxError)
  /-- A `*json.InvalidUnmarshalError` for a target of type `typ`. -/
  | jsonInvalidUnmarshal (typ : Bytes)
  /-- Any other error value: the errors of the transport, the stored configuration errors and
  the remaining errors of the JSON decoder, told apart by `tag`. -/
  | other (tag : Nat) (text : Bytes)
deriving DecidableEq, Repr

/-- The method `Error()` of an error value: its text. -/
def GoError.Error : GoError → Bytes
  | GoError.errorString text => text
  | GoError.jsonSyntax e => e.msg
  | GoError.jsonInvalidUnmarshal typ => B "json: Unmarshal(nil " ++ typ ++ B ")"
  | GoError.other _ text => text

namespace errors

/-- The function `errors.New`. -/
def New (text : Bytes) : GoError := GoError.errorString text

end errors

/-! ## encoding/json: `Unmarshal` -/

namespace json

/-- How `decodeState.unmarshal` fills a Go value of type `α`, given its current value and a
document that `checkValid` has accepted.  The decoding of the declared response types is not
traced further; it is a parameter of the methods. -/
abbrev Populate (α : Type) := α → Bytes → Except GoError α

/-- The function `json.Unmarshal(data, &v)` for a non-nil pointer to `v`: the document is
checked for well-formedness first, then the value is filled. -/
def Unmarshal {α : Type} (populate : Populate α) (data : Bytes) (v : α) : Except GoError α :=
  match checkValid data with
  | some e => Except.error (GoError.jsonSyntax e)
  | none => populate v data

/-- The function `json.Unmarshal(data, p)` for a `nil` pointer `p` of type `typ`: the target
is rejected with `*json.InvalidUnmarshalError`, whatever the document is.  Nothing is filled;
the returned error is never `nil`.  (A release of the library that looks at the document
before the target gives its syntax error for a malformed document; on a well-formed document
every release gives this error.) -/
def UnmarshalNil (typ : Bytes) (_data : Bytes) : Option GoError :=
  some (GoError.jsonInvalidUnmarshal typ)

/-- Whether the document is an array without elements: white space, `[`, white space, `]`. -/
def isEmptyArray (data : Bytes) : Bool :=
  match data.dropWhile isSpace with
  | [] => false
  | c :: rest =>
    c == 91 &&
      (match rest.dropWhile isSpace with
       | [] => false
       | d :: _ => d == 93)

/-- Filling a slice from a document that `checkValid` has accepted (`decodeState.array`).  On
an array without elements the loop over the elements meets `]` in its first round and ends
with the count `i = 0`, and the closing statement
`if i == 0 && v.Kind() == reflect.Slice { v.Set(reflect.MakeSlice(v.Type(), 0, 0)) }` sets
the target, `nil` or not, to a fresh slice of length 0.  The decoding of every other document
is not traced: it is left to `populate`. -/
def populateSlice {α : Type} (populate : Populate (Slice α)) : Populate (Slice α) :=
  fun v data => if isEmptyArray data then Except.ok (some []) else populate v data

end json

/-! ## float64 and the verb `%0.2f` -/

/-- A Go `float64`: a finite value `(-1)^neg * mant * 2^exp`, an infinity or a NaN.  The IEEE
doubles are the finite values with `mant < 2^53` and `-1074 ≤ exp ≤ 971`; no definition
depends on these bounds. -/
inductive float64
  | finite (neg : Bool) (mant : Nat) (exp : Int)
  | inf (neg : Bool)
  | nan
deriving DecidableEq, Repr

instance : Inhabited float64 := ⟨float64.finite false 0 0⟩

namespace strconv

/-- The integer nearest to `mant * 2^exp * 100`, ties to even: the decimal that
`FormatFloat(x, 'f', 2, 64)` prints, which rounds the exact decimal expansion of `x`. -/
def roundCents (mant : Nat) (exp : Int) : Nat :=
  match exp with
  | Int.ofNat e => mant * 2 ^ e * 100
  | Int.negSucc e =>
    let den := 2 ^ (e + 1)
    let q := mant * 100 / den
    let r := mant * 100 % den
    if den < 2 * r ∨ (2 * r = den ∧ q % 2 = 1) then q + 1 else q

end strconv

namespace fmt

/-- The text of `fmt.Sprintf("%0.2f", x)`.  Without a width the flag `0` has no effect. -/
def Sprintf_0_2f : float64 → Bytes
  | float64.nan => B "NaN"
  | float64.inf false => B "+Inf"
  | float64.inf true => B "-Inf"
  | float64.finite neg mant exp =>
    let q := strconv.roundCents mant exp
    (if neg then [45] else []) ++ strconv.FormatNat (q / 100)
      ++ [46, 48 + q % 100 / 10, 48 + q % 10]

end fmt

/-! ## net/url -/

namespace url

/-- The type `url.Values`, a `map[string][]string`: the keys in use with their values, each
key once. -/
structure Values where
  entries : List (Bytes × List Bytes)
deriving DecidableEq, Repr

/-- Append `value` to the values of `key` in a list of entries. -/
def addEntry : List (Bytes × List Bytes) → Bytes → Bytes → List (Bytes × List Bytes)
  | [], key, value => [(key, [value])]
  | (k, vs) :: rest, key, value =>
    if k = key then (k, vs ++ [value]) :: rest else (k, vs) :: addEntry rest key value

/-- The method `Values.Add`: append `value` to the values of `key`. -/
def Values.Add (v : Values) (key value : Bytes) : Values := ⟨addEntry v.entries key value⟩

/-- The function `shouldEscape(c, encodeQueryComponent)`. -/
def shouldEscape (c : Nat) : Bool :=
  if (97 ≤ c ∧ c ≤ 122) ∨ (65 ≤ c ∧ c ≤ 90) ∨ (48 ≤ c ∧ c ≤ 57) then false
  else if c = 45 ∨ c = 95 ∨ c = 46 ∨ c = 126 then false
  else true

/-- Upper-case hexadecimal digit (`upperhex`). -/
def upperhex (n : Nat) : Nat := if n % 16 < 10 then 48 + n % 16 else 55 + n % 16

/-- The function `url.QueryEscape`. -/
def QueryEscape : Bytes → Bytes
  | [] => []
  | c :: cs =>
    if c = 32 then 43 :: QueryEscape cs
    else if shouldEscape c then 37 :: upperhex (c / 16) :: upperhex c :: QueryEscape cs
    else c :: QueryEscape cs

/-- Byte-wise order of Go strings: `a < b`. -/
def bytesLt : Bytes → Bytes → Bool
  | _, [] => false
  | [], _ :: _ => true
  | a :: as, b :: bs => if a < b then true else if b < a then false else bytesLt as bs

/-- Insert an entry into a list of entries sorted by key. -/
def insertByKey (e : Bytes × List Bytes) :
    List (Bytes × List Bytes) → List (Bytes × List Bytes)
  | [] => [e]
  | f :: rest => if bytesLt e.1 f.1 then e :: f :: rest else f :: insertByKey e rest

/-- The entries sorted by key (`slices.Sort(keys)`). -/
def sortByKey : List (Bytes × List Bytes) → List (Bytes × List Bytes)
  | [] => []
  | e :: rest => insertByKey e (sortByKey rest)

/-- The `key=value` pairs of one key, each preceded by `&`. -/
def encodeKey (keyEscaped : Bytes) : List Bytes → Bytes
  | [] => []
  | v :: vs => 38 :: (keyEscaped ++ 61 :: QueryEscape v) ++ encodeKey keyEscaped vs

/-- The pairs of all entries in order, each preceded by `&`. -/
def encodeAll : List (Bytes × List Bytes) → Bytes
  | [] => []
  | (k, vs) :: rest => encodeKey (QueryEscape k) vs ++ encodeAll rest

/-- The method `Values.Encode`: the pairs sorted by key and joined by `&`. -/
def Values.Encode (v : Values) : Bytes := (encodeAll (sortByKey v.entries)).tail

end url

/-! ## net/http constants -/

namespace http

def MethodGet : Bytes := B "GET"
def MethodPost : Bytes := B "POST"
def MethodDelete : Bytes := B "DELETE"
def StatusOK : Int := 200
def StatusCreated : Int := 201
def StatusNoContent : Int := 204

end http

/-! ## The transport reply and the record of a call -/

/-- What `request.New` returns: the response body, the status code and the transport
error. -/
structure Reply where
  resp : Bytes
  statusCode : Int
  err : Option GoError
deriving DecidableEq, Repr

/-- The run of a method: the configurations handed to `request.New`, in order, and what the
method returns. -/
structure Run (κ ρ : Type) where
  calls : List κ
  ret : ρ

/-- How a call ends: it returns, or it stops in a run-time panic (a `nil` pointer is
dereferenced). -/
inductive Outcome (ρ : Type)
  | returned (r : ρ)
  | panic

namespace time

/-- A `time.Time`: seconds and nanoseconds since the zero time. -/
structure Time where
  sec : Int
  nsec : Nat
deriving Inhabited

end time

/-! ## Package business: data model -/

namespace business

abbrev AccountState := Bytes
abbrev AccountSchema := Bytes
abbrev AccountUnit := Bytes
abbrev CounterpartyProfileType := Bytes
abbrev CounterpartyType := Bytes
abbrev CounterpartyState := Bytes
abbrev CounterpartyRecipientCharges := Bytes
abbrev PaymentDraftState := Bytes

structure AccountService where
  accessToken : Bytes
  sandbox : Bool
  err : Option GoError

structure AccountResp where
  Id : Bytes
  Name : Bytes
  Balance : float64
  Currency : Bytes
  State : AccountState
  Public : Bool
  UpdatedAt : time.Time
  CreatedAt : time.Time
deriving Inhabited

structure EstimatedTime where
  Unit : AccountUnit
  Min : Int
  Max : Int
deriving Inhabited

structure BeneficiaryAddress where
  StreetLine1 : Bytes
  StreetLine2 : Bytes
  Region : Bytes
  City : Bytes
  Country : Bytes
  Postcode : Bytes
deriving Inhabited

structure AccountDetailResp where
  Iban : Bytes
  Bic : Bytes
  AccountNo : Bytes
  SortCode : Bytes
  RoutingNumber : Bytes
  Beneficiary : Bytes
  BeneficiaryAddress : BeneficiaryAddress
  BankCountry : Bytes
  Pooled : Bool
  UniqueReference : Bytes
  Schemes : Slice AccountSchema
  EstimatedTime : EstimatedTime
deriving Inhabited

structure CounterpartyService where
  accessToken : Bytes
  sandbox : Bool
  err : Option GoError

structure RevolutCounterpartyReq where
  ProfileType : CounterpartyProfileType
  Name : Bytes
  Phone : Bytes
  Email : Bytes
deriving Inhabited

structure NonRevolutCounterpartyReqInvidualName where
  FirstName : Bytes
  LastName : Bytes
deriving Inhabited

structure NonRevolutCounterpartyReqAddress where
  StreetLine1 : Bytes
  StreetLine2 : Bytes
  Region : Bytes
  Postcode : Bytes
  City : Bytes
  Country : Bytes
deriving Inhabited

structure NonRevolutCounterpartyReq where
  CompanyName : Bytes
  InvidualName : NonRevolutCounterpartyReqInvidualName
  BankCountry : Bytes
  Currency : Bytes
  AccountNo : Bytes
  SortCode : Bytes
  RoutingNumber : Bytes
  Email : Bytes
  Phone : Bytes
  Address : NonRevolutCounterpartyReqAddress
deriving Inhabited

structure CounterpartyRespAccount where
  Id : Bytes
  Currency : Bytes
  Type_ : Bytes
  AccountNo : Bytes
  Iban : Bytes
  SortCode : Bytes
  Email : Bytes
  Name : Bytes
  BankCountry : Bytes
  RoutingNumber : Bytes
  Bic : Bytes
  RecipientCharges : CounterpartyRecipientCharges
deriving Inhabited

structure CounterpartyResp where
  Id : Bytes
  Name : Bytes
  Phone : Bytes
  ProfileType : CounterpartyProfileType
  Country : Bytes
  State : CounterpartyState
  CreatedAt : time.Time
  UpdatedAt : time.Time
  Accounts : Slice CounterpartyRespAccount
deriving Inhabited

structure ExchangeService where
  accessToken : Bytes
  sandbox : Bool
  err : Option GoError

structure ExchangeRateReq where
  From : Bytes
  To : Bytes
  Amount : float64
deriving Inhabited

structure Amount where
  Amount : float64
  Currency : Bytes
deriving Inhabited

structure ExchangeRateResp where
  From : Amount
  To : Amount
  Rate : float64
  Fee : Amount
  RateDate : time.Time
deriving Inhabited

structure ExchangeAmount where
  AccountId : Bytes
  Amount : float64
  Currency : Bytes
deriving Inhabited

structure ExchangeReq where
  From : ExchangeAmount
  To : ExchangeAmount
  Reference : Bytes
  RequestId : Bytes
deriving Inhabited

structure ExchangeResp where
  Id : Bytes
  State : Bytes
  ReasonCode : Bytes
  CreatedAt : time.Time
  CompletedAt : time.Time
deriving Inhabited

structure PaymentDraftService where
  accessToken : Bytes
  sandbox : Bool
  err : Option GoError

structure PaymentDraftPaymentReceiver where
  CounterpartyId : Bytes
  AccountId : Bytes
deriving Inhabited

structure PaymentDraftPayment where
  Currency : Bytes
  Amount : Int
  AccountId : Bytes
  Receiver : PaymentDraftPaymentReceiver
  Reference : Bytes
deriving Inhabited

structure PaymentDraftReq where
  Title : Bytes
  ScheduleFor : Bytes
  Payments : Slice PaymentDraftPayment
deriving Inhabited

structure PaymentDraftResp where
  Id : Bytes
deriving Inhabited

structure PaymentOrder where
  Id : Bytes
  ScheduledFor : Bytes
  Title : Bytes
  PaymentsCount : Int
deriving Inhabited

structure PaymentDrafts where
  PaymentOrders : Slice PaymentOrder
deriving Inhabited

structure PaymentDraftDetailPayment where
  Id : Bytes
  Amount : ExchangeRateResp
  AccountId : Bytes
  Reference : Bytes
  Receiver : PaymentDraftPaymentReceiver
  State : PaymentDraftState
  Reason : Bytes
  ErrorMessage : Bytes
  CurrentChargeOptions : ExchangeRateResp
deriving Inhabited

structure PaymentDraftDetail where
  ScheduledFor : Bytes
  Title : Bytes
  Payments : Slice PaymentDraftDetailPayment
deriving Inhabited

structure WebhookService where
  accessToken : Bytes
  sandbox : Bool
  err : Option GoError

namespace request

/-- The value of the field `Body` of a request configuration (an `interface{}`): nothing, a
pointer to a request record, or the record with the field `Url` that `WebhookService.Set`
builds. -/
inductive Body
  | nil
  | RevolutCounterpartyReq (p : Ptr business.RevolutCounterpartyReq)
  | NonRevolutCounterpartyReq (p : Ptr business.NonRevolutCounterpartyReq)
  | ExchangeReq (p : Ptr business.ExchangeReq)
  | PaymentDraftReq (p : Ptr business.PaymentDraftReq)
  | WebhookUrl (Url : Bytes)

/-- The type `request.Config` as the methods fill it; a field a method leaves out holds its
zero value. -/
structure Config where
  Method : Bytes
  Url : Bytes
  AccessToken : Bytes
  Sandbox : Bool
  Body : Body
  ContentType : Bytes

end request

/-- What the methods of the package take from outside the sources at hand: the function
`request.New`, the constant `request.ContentType_APPLICATION_JSON`, and how `encoding/json`
fills each declared response type. -/
structure Env where
  New : request.Config → Reply
  ContentType_APPLICATION_JSON : Bytes
  populateAccountRespSlice : json.Populate (Slice (Ptr AccountResp))
  populateAccountResp : json.Populate AccountResp
  populateAccountDetailRespSlice : json.Populate (Slice (Ptr AccountDetailResp))
  populateCounterpartyResp : json.Populate CounterpartyResp
  populateCounterpartyRespSlice : json.Populate (Slice (Ptr CounterpartyResp))
  populateExchangeRateResp : json.Populate ExchangeRateResp
  populateExchangeResp : json.Populate ExchangeResp
  populatePaymentDraftResp : json.Populate PaymentDraftResp
  populatePaymentDrafts : json.Populate PaymentDrafts
  populatePaymentDraftDetailPayment : json.Populate PaymentDraftDetailPayment

/-! ## Package business: the endpoint methods -/

/-- The method `AccountService.List` (account.go). -/
def AccountService.List (env : Env) (a : AccountService) :
    Run request.Config (Slice (Ptr AccountResp) × Option GoError) :=
  match a.err with
  | some e => ⟨[], (none, some e)⟩
  | none =>
    let cfg : request.Config :=
      { Method := http.MethodGet
        Url := B "https://b2b.revolut.com/api/1.0/accounts"
        AccessToken := a.accessToken
        Sandbox := a.sandbox
        Body := request.Body.nil
        ContentType := [] }
    let reply := env.New cfg
    ⟨[cfg],
      match reply.err with
      | some err => (none, some err)
      | none =>
        if reply.statusCode ≠ http.StatusOK then (none, some (errors.New reply.resp))
        else
          match json.Unmarshal (json.populateSlice env.populateAccountRespSlice) reply.resp none with
          | Except.error err => (none, some err)
          | Except.ok r => (r, none)⟩

/-- The method `AccountService.WithId` (account.go). -/
def AccountService.WithId (env : Env) (a : AccountService) (id : Bytes) :
    Run request.Config (Ptr AccountResp × Option GoError) :=
  match a.err with
  | some e => ⟨[], (none, some e)⟩
  | none =>
    let cfg : request.Config :=
      { Method := http.MethodGet
        Url := B "https://b2b.revolut.com/api/1.0/accounts/" ++ id
        AccessToken := a.accessToken
        Sandbox := a.sandbox
        Body := request.Body.nil
        ContentType := [] }
    let reply := env.New cfg
    ⟨[cfg],
      match reply.err with
      | some err => (none, some err)
      | none =>
        if reply.statusCode ≠ http.StatusOK then (none, some (errors.New reply.resp))
        else
          match json.Unmarshal env.populateAccountResp reply.resp default with
          | Except.error err => (none, some err)
          | Except.ok r => (some r, none)⟩

/-- The method `AccountService.DetailWithId` (account.go).  On a transport error it returns
an empty, non-nil slice with the error. -/
def AccountService.DetailWithId (env : Env) (a : AccountService) (id : Bytes) :
    Run request.Config (Slice (Ptr AccountDetailResp) × Option GoError) :=
  match a.err with
  | some e => ⟨[], (none, some e)⟩
  | none =>
    let cfg : request.Config :=
      { Method := http.MethodGet
        Url := B "https://b2b.revolut.com/api/1.0/accounts/" ++ id ++ B "/bank-details"
        AccessToken := a.accessToken
        Sandbox := a.sandbox
        Body := request.Body.nil
        ContentType := [] }
    let reply := env.New cfg
    ⟨[cfg],
      match reply.err with
      | some err => (some [], some err)
      | none =>
        if reply.statusCode ≠ http.StatusOK then (none, some (errors.New reply.resp))
        else
          match json.Unmarshal (json.populateSlice env.populateAccountDetailRespSlice)
              reply.resp (some []) with
          | Except.error err => (none, some err)
          | Except.ok r => (r, none)⟩

/-- The method `CounterpartyService.AddRevolut` (counterparty.go). -/
def CounterpartyService.AddRevolut (env : Env) (c : CounterpartyService)
    (revolutCounterparty : Ptr RevolutCounterpartyReq) :
    Run request.Config (Ptr CounterpartyResp × Option GoError) :=
  match c.err with
  | some e => ⟨[], (none, some e)⟩
  | none =>
    let cfg : request.Config :=
      { Method := http.MethodPost
        Url := B "https://b2b.revolut.com/api/1.0/counterparty"
        AccessToken := c.accessToken
        Sandbox := c.sandbox
        Body := request.Body.RevolutCounterpartyReq revolutCounterparty
        ContentType := env.ContentType_APPLICATION_JSON }
    let reply := env.New cfg
    ⟨[cfg],
      match reply.err with
      | some err => (none, some err)
      | none =>
        if reply.statusCode ≠ http.StatusOK then (none, some (errors.New reply.resp))
        else
          match json.Unmarshal env.populateCounterpartyResp reply.resp default with
          | Except.error err => (none, some err)
          | Except.ok r => (some r, none)⟩

/-- The method `CounterpartyService.AddNonRevolut` (counterparty.go). -/
def CounterpartyService.AddNonRevolut (env : Env) (c : CounterpartyService)
    (nonRevolutCounterparty : Ptr NonRevolutCounterpartyReq) :
    Run request.Config (Ptr CounterpartyResp × Option GoError) :=
  match c.err with
  | some e => ⟨[], (none, some e)⟩
  | none =>
    let cfg : request.Config :=
      { Method := http.MethodPost
        Url := B "https://b2b.revolut.com/api/1.0/counterparty"
        AccessToken := c.accessToken
        Sandbox := c.sandbox
        Body := request.Body.NonRevolutCounterpartyReq nonRevolutCounterparty
        ContentType := env.ContentType_APPLICATION_JSON }
    let reply := env.New cfg
    ⟨[cfg],
      match reply.err with
      | some err => (none, some err)
      | none =>
        if reply.statusCode ≠ http.StatusOK then (none, some (errors.New reply.resp))
        else
          match json.Unmarshal env.populateCounterpartyResp reply.resp default with
          | Except.error err => (none, some err)
          | Except.ok r => (some r, none)⟩

/-- The method `CounterpartyService.Delete` (counterparty.go).  The status code is compared
before the transport error is looked at. -/
def CounterpartyService.Delete (env : Env) (c : CounterpartyService) (id : Bytes) :
    Run request.Config (Option GoError) :=
  match c.err with
  | some e => ⟨[], some e⟩
  | none =>
    let cfg : request.Config :=
      { Method := http.MethodDelete
        Url := B "https://b2b.revolut.com/api/1.0/counterparty/" ++ id
        AccessToken := c.accessToken
        Sandbox := c.sandbox
        Body := request.Body.nil
        ContentType := [] }
    let reply := env.New cfg
    ⟨[cfg],
      if reply.statusCode ≠ http.StatusNoContent then some (errors.New reply.resp)
      else
        match reply.err with
        | some err => some err
        | none => none⟩

/-- The method `CounterpartyService.WithId` (counterparty.go). -/
def CounterpartyService.WithId (env : Env) (c : CounterpartyService) (id : Bytes) :
    Run request.Config (Ptr CounterpartyResp × Option GoError) :=
  match c.err with
  | some e => ⟨[], (none, some e)⟩
  | none =>
    let cfg : request.Config :=
      { Method := http.MethodGet
        Url := B "https://b2b.revolut.com/api/1.0/counterparty/" ++ id
        AccessToken := c.accessToken
        Sandbox := c.sandbox
        Body := request.Body.nil
        ContentType := [] }
    let reply := env.New cfg
    ⟨[cfg],
      match reply.err with
      | some err => (none, some err)
      | none =>
        if reply.statusCode ≠ http.StatusOK then (none, some (errors.New reply.resp))
        else
          match json.Unmarshal env.populateCounterpartyResp reply.resp default with
          | Except.error err => (none, some err)
          | Except.ok r => (some r, none)⟩

/-- The method `CounterpartyService.List` (counterparty.go). -/
def CounterpartyService.List (env : Env) (c : CounterpartyService) :
    Run request.Config (Slice (Ptr CounterpartyResp) × Option GoError) :=
  match c.err with
  | some e => ⟨[], (none, some e)⟩
  | none =>
    let cfg : request.Config :=
      { Method := http.MethodGet
        Url := B "https://b2b.revolut.com/api/1.0/counterparties"
        AccessToken := c.accessToken
        Sandbox := c.sandbox
        Body := request.Body.nil
        ContentType := [] }
    let reply := env.New cfg
    ⟨[cfg],
      match reply.err with
      | some err => (none, some err)
      | none =>
        if reply.statusCode ≠ http.StatusOK then (none, some (errors.New reply.resp))
        else
          match json.Unmarshal (json.populateSlice env.populateCounterpartyRespSlice)
              reply.resp (some []) with
          | Except.error err => (none, some err)
          | Except.ok r => (r, none)⟩

/-- The method `ExchangeService.Rate` (exchange.go).  The request is read through the
pointer after the check of the stored error; a `nil` pointer stops the call there. -/
def ExchangeService.Rate (env : Env) (e : ExchangeService)
    (exchangeRateReq : Ptr ExchangeRateReq) :
    Run request.Config (Outcome (Ptr ExchangeRateResp × Option GoError)) :=
  match e.err with
  | some err => ⟨[], Outcome.returned (none, some err)⟩
  | none =>
    match exchangeRateReq with
    | none => ⟨[], Outcome.panic⟩
    | some req =>
      let params : url.Values := ⟨[]⟩
      let params := params.Add (B "from") req.From
      let params := params.Add (B "to") req.To
      let params := params.Add (B "amount") (fmt.Sprintf_0_2f req.Amount)
      let cfg : request.Config :=
        { Method := http.MethodGet
          Url := B "https://b2b.revolut.com/api/1.0/rate?" ++ params.Encode
          AccessToken := e.accessToken
          Sandbox := e.sandbox
          Body := request.Body.nil
          ContentType := [] }
      let reply := env.New cfg
      ⟨[cfg],
        Outcome.returned
          (match reply.err with
           | some err => (none, some err)
           | none =>
             if reply.statusCode ≠ http.StatusOK then (none, some (errors.New reply.resp))
             else
               match json.Unmarshal env.populateExchangeRateResp reply.resp default with
               | Except.error err => (none, some err)
               | Except.ok r => (some r, none))⟩

/-- The method `ExchangeService.Exchange` (exchange.go). -/
def ExchangeService.Exchange (env : Env) (e : ExchangeService) (exchangeReq : Ptr ExchangeReq) :
    Run request.Config (Ptr ExchangeResp × Option GoError) :=
  match e.err with
  | some err => ⟨[], (none, some err)⟩
  | none =>
    let cfg : request.Config :=
      { Method := http.MethodPost
        Url := B "https://b2b.revolut.com/api/1.0/exchange"
        AccessToken := e.accessToken
        Sandbox := e.sandbox
        Body := request.Body.ExchangeReq exchangeReq
        ContentType := env.ContentType_APPLICATION_JSON }
    let reply := env.New cfg
    ⟨[cfg],
      match reply.err with
      | some err => (none, some err)
      | none =>
        if reply.statusCode ≠ http.StatusOK then (none, some (errors.New reply.resp))
        else
          match json.Unmarshal env.populateExchangeResp reply.resp default with
          | Except.error err => (none, some err)
          | Except.ok r => (some r, none)⟩

/-- The method `PaymentDraftService.Create` (payment_draft.go). -/
def PaymentDraftService.Create (env : Env) (e : PaymentDraftService) (paymentDraftReq : Ptr PaymentDraftReq) :
    Run request.Config (Ptr PaymentDraftResp × Option GoError) :=
  match e.err with
  | some err => ⟨[], (none, some err)⟩
  | none =>
    let cfg : request.Config :=
      { Method := http.MethodPost
        Url := B "https://b2b.revolut.com/api/1.0/payment-drafts"
        AccessToken := e.accessToken
        Sandbox := e.sandbox
        Body := request.Body.PaymentDraftReq paymentDraftReq
        ContentType := env.ContentType_APPLICATION_JSON }
    let reply := env.New cfg
    ⟨[cfg],
      match reply.err with
      | some err => (none, some err)
      | none =>
        if reply.statusCode ≠ http.StatusOK then (none, some (errors.New reply.resp))
        else
          match json.Unmarshal env.populatePaymentDraftResp reply.resp default with
          | Except.error err => (none, some err)
          | Except.ok r => (some r, none)⟩

/-- The method `PaymentDraftService.List` (payment_draft.go). -/
def PaymentDraftService.List (env : Env) (e : PaymentDraftService) :
    Run request.Config (Ptr PaymentDrafts × Option GoError) :=
  match e.err with
  | some err => ⟨[], (none, some err)⟩
  | none =>
    let cfg : request.Config :=
      { Method := http.MethodGet
        Url := B "https://b2b.revolut.com/api/1.0/payment-drafts"
        AccessToken := e.accessToken
        Sandbox := e.sandbox
        Body := request.Body.nil
        ContentType := [] }
    let reply := env.New cfg
    ⟨[cfg],
      match reply.err with
      | some err => (none, some err)
      | none =>
        if reply.statusCode ≠ http.StatusOK then (none, some (errors.New reply.resp))
        else
          match json.Unmarshal env.populatePaymentDrafts reply.resp default with
          | Except.error err => (none, some err)
          | Except.ok r => (some r, none)⟩

/-- The method `PaymentDraftService.WithId` (payment_draft.go). -/
def PaymentDraftService.WithId (env : Env) (e : PaymentDraftService) (id : Bytes) :
    Run request.Config (Ptr PaymentDraftDetailPayment × Option GoError) :=
  match e.err with
  | some err => ⟨[], (none, some err)⟩
  | none =>
    let cfg : request.Config :=
      { Method := http.MethodGet
        Url := B "https://b2b.revolut.com/api/1.0/payment-drafts/" ++ id
        AccessToken := e.accessToken
        Sandbox := e.sandbox
        Body := request.Body.nil
        ContentType := [] }
    let reply := env.New cfg
    ⟨[cfg],
      match reply.err with
      | some err => (none, some err)
      | none =>
        if reply.statusCode ≠ http.StatusOK then (none, some (errors.New reply.resp))
        else
          match json.Unmarshal env.populatePaymentDraftDetailPayment reply.resp default with
          | Except.error err => (none, some err)
          | Except.ok r => (some r, none)⟩

/-- The method `PaymentDraftService.Delete` (payment_draft.go). -/
def PaymentDraftService.Delete (env : Env) (e : PaymentDraftService) (id : Bytes) :
    Run request.Config (Option GoError) :=
  match e.err with
  | some err => ⟨[], some err⟩
  | none =>
    let cfg : request.Config :=
      { Method := http.MethodDelete
        Url := B "https://b2b.revolut.com/api/1.0/payment-drafts/" ++ id
        AccessToken := e.accessToken
        Sandbox := e.sandbox
        Body := request.Body.nil
        ContentType := [] }
    let reply := env.New cfg
    ⟨[cfg],
      match reply.err with
      | some err => some err
      | none =>
        if reply.statusCode ≠ http.StatusNoContent then some (errors.New reply.resp)
        else none⟩

/-- The method `WebhookService.Set` (webhook.go). -/
def WebhookService.Set (env : Env) (p : WebhookService) (url : Bytes) :
    Run request.Config (Option GoError) :=
  match p.err with
  | some err => ⟨[], some err⟩
  | none =>
    let cfg : request.Config :=
      { Method := http.MethodPost
        Url := B "https://b2b.revolut.com/api/1.0/webhook"
        AccessToken := p.accessToken
        Sandbox := p.sandbox
        Body := request.Body.WebhookUrl url
        ContentType := env.ContentType_APPLICATION_JSON }
    let reply := env.New cfg
    ⟨[cfg],
      match reply.err with
      | some err => some err
      | none =>
        if reply.statusCode ≠ http.StatusNoContent then some (errors.New reply.resp)
        else none⟩

/-- The method `WebhookService.Delete` (webhook.go). -/
def WebhookService.Delete (env : Env) (p : WebhookService) :
    Run request.Config (Option GoError) :=
  match p.err with
  | some err => ⟨[], some err⟩
  | none =>
    let cfg : request.Config :=
      { Method := http.MethodDelete
        Url := B "https://b2b.revolut.com/api/1.0/webhook"
        AccessToken := p.accessToken
        Sandbox := p.sandbox
        Body := request.Body.nil
        ContentType := [] }
    let reply := env.New cfg
    ⟨[cfg],
      match reply.err with
      | some err => some err
      | none =>
        if reply.statusCode ≠ http.StatusNoContent then some (errors.New reply.resp)
        else none⟩

end business

/-! ## Package merchant: data model -/

namespace merchant

abbrev OrderType := Bytes
abbrev Funding := Bytes
abbrev TreeDsState := Bytes
abbrev CardType := Bytes
abbrev RiskLevel := Bytes
abbrev CvvVerification := Bytes
abbrev CheckResult := Bytes
abbrev OrderState := Bytes
abbrev FeeType := Bytes
abbrev CaptureMode := Bytes

structure OrderService where
  apiKey : Bytes
  domain : Bytes

structure Amount where
  Value : Int
  Currency : Bytes
deriving Inhabited

structure Fee where
  Value : Int
  Currency : Bytes
  Type_ : FeeType
deriving Inhabited

structure ThreeDs where
  State : TreeDsState
  Version : Int
deriving Inhabited

structure Check where
  Proxy : Bool
  Vpn : Bool
  CountryByIp : Bytes
  ThreeDs : ThreeDs
  AuthorizationCode : Bytes
  CvvVerification : CvvVerification
  Address : CheckResult
  PostalCode : CheckResult
  CardHolder : CheckResult
deriving Inhabited

structure BillingAddress where
  StreetLine1 : Bytes
  StreetLine2 : Bytes
  Region : Bytes
  City : Bytes
  CountryCode : Bytes
  Postcode : Bytes
deriving Inhabited

structure Card where
  CardType : CardType
  Funding : Funding
  CardBin : Bytes
  CardLastFour : Bytes
  CardExpiry : Bytes
  CardholderName : Bytes
  Checks : Check
  RiskLevel : RiskLevel
  BillingAddress : BillingAddress
deriving Inhabited

structure Payment where
  Type_ : Bytes
  Amount : Amount
  State : Bytes
  CreatedDate : Int
  UpdatedDate : Int
  CompletedDate : Int
  Card : Card
deriving Inhabited

structure AttemptRelated where
  Id : Bytes
  Type_ : OrderType
  Amount : Amount
deriving Inhabited

structure ShippingAddress where
  StreetLine1 : Bytes
  StreetLine2 : Bytes
  Region : Bytes
  City : Bytes
  CountryCode : Bytes
  Postcode : Bytes
deriving Inhabited

structure OrderResp where
  Id : Bytes
  PublicId : Bytes
  Type_ : OrderType
  State : OrderState
  CreatedDate : Int
  UpdatedDate : Int
  CompletedDate : Int
  OrderAmount : Amount
  MerchantOrderExtRef : Bytes
  MerchantCustomerExtRef : Bytes
  Email : Bytes
  SettledAmount : Amount
  RefundedAmount : Amount
  Fees : Slice Fee
  Payments : Slice Payment
  Attempts : Slice AttemptRelated
  Related : Slice AttemptRelated
  ShippingAddress : ShippingAddress
  Phone : Bytes
  CustomerID : Bytes
deriving Inhabited

structure OrderReq where
  Amount : Int
  CaptureMode : CaptureMode
  MerchantOrderID : Bytes
  CustomerEmail : Bytes
  Description : Bytes
  Currency : Bytes
  SettlementCurrency : Bytes
  MerchantCustomerID : Bytes
deriving Inhabited

structure RefundReq where
  Amount : Int
  MerchantOrderID : Bytes
  Description : Bytes
  Currency : Bytes
deriving Inhabited

structure RefundResp where
  Id : Bytes
  Type_ : OrderType
  State : OrderState
  CreatedDate : Int
  UpdatedDate : Int
  CompletedDate : Int
  OrderAmount : Amount
  MerchantCustomerExtRef : Bytes
  Email : Bytes
  Related : Slice AttemptRelated
deriving Inhabited

structure CustomerService where
  apiKey : Bytes
  domain : Bytes

structure CreateCustomerReq where
  FullName : Bytes
  BusinessName : Bytes
  Email : Bytes
  Phone : Bytes
deriving Inhabited

structure CreateCustomerResp where
  ID : Bytes
  Email : Bytes
deriving Inhabited

namespace request

/-- The value of the field `Body` of a request configuration (an `interface{}`): nothing or
a pointer to a request record. -/
inductive Body
  | nil
  | OrderReq (p : Ptr merchant.OrderReq)
  | RefundReq (p : Ptr merchant.RefundReq)
  | CreateCustomerReq (p : Ptr merchant.CreateCustomerReq)

/-- The type `request.Config` as the methods fill it; a field a method leaves out holds its
zero value. -/
structure Config where
  Method : Bytes
  Url : Bytes
  ApiKey : Bytes
  Body : Body
  ContentType : Bytes

end request

/-- What the methods of the package take from outside the sources at hand: the function
`request.New`, the constant `request.ContentType_APPLICATION_JSON`, and how `encoding/json`
fills each declared response type. -/
structure Env where
  New : request.Config → Reply
  ContentType_APPLICATION_JSON : Bytes
  populateOrderResp : json.Populate OrderResp
  populateRefundResp : json.Populate RefundResp

/-! ## Package merchant: the endpoint methods -/

/-- The method `OrderService.Create` (order.go). -/
def OrderService.Create (env : Env) (a : OrderService) (orderReq : Ptr OrderReq) :
    Run request.Config (Ptr OrderResp × Option GoError) :=
  let cfg : request.Config :=
    { Method := http.MethodPost
      Url := a.domain ++ B "/api/1.0/orders"
      ApiKey := a.apiKey
      Body := request.Body.OrderReq orderReq
      ContentType := env.ContentType_APPLICATION_JSON }
  let reply := env.New cfg
  ⟨[cfg],
    match reply.err with
    | some err => (none, some err)
    | none =>
      if reply.statusCode ≠ http.StatusOK ∧ reply.statusCode ≠ http.StatusCreated then
        (none, some (errors.New
          (reply.resp ++ B " [status: " ++ strconv.Itoa reply.statusCode ++ B "]")))
      else
        match json.Unmarshal env.populateOrderResp reply.resp default with
        | Except.error err => (none, some err)
        | Except.ok r => (some r, none)⟩

/-- The method `OrderService.WithId` (order.go). -/
def OrderService.WithId (env : Env) (a : OrderService) (id : Bytes) :
    Run request.Config (Ptr OrderResp × Option GoError) :=
  let cfg : request.Config :=
    { Method := http.MethodGet
      Url := a.domain ++ B "/api/1.0/orders/" ++ id
      ApiKey := a.apiKey
      Body := request.Body.nil
      ContentType := [] }
  let reply := env.New cfg
  ⟨[cfg],
    match reply.err with
    | some err => (none, some err)
    | none =>
      if reply.statusCode ≠ http.StatusOK then
        (none, some (errors.New
          (B "Status: " ++ strconv.Itoa reply.statusCode ++ B "\n\nResponse: " ++ reply.resp)))
      else
        match json.Unmarshal env.populateOrderResp reply.resp default with
        | Except.error err => (none, some err)
        | Except.ok r => (some r, none)⟩

/-- The method `OrderService.Capture` (order.go). -/
def OrderService.Capture (env : Env) (a : OrderService) (id : Bytes) :
    Run request.Config (Ptr OrderResp × Option GoError) :=
  let cfg : request.Config :=
    { Method := http.MethodPost
      Url := a.domain ++ B "/api/1.0/orders/" ++ id ++ B "/capture"
      ApiKey := a.apiKey
      Body := request.Body.nil
      ContentType := [] }
  let reply := env.New cfg
  ⟨[cfg],
    match reply.err with
    | some err => (none, some err)
    | none =>
      if reply.statusCode ≠ http.StatusOK then
        (none, some (errors.New
          (B "Status: " ++ strconv.Itoa reply.statusCode ++ B "\n\nResponse: " ++ reply.resp)))
      else
        match json.Unmarshal env.populateOrderResp reply.resp default with
        | Except.error err => (none, some err)
        | Except.ok r => (some r, none)⟩

/-- The method `OrderService.Cancel` (order.go). -/
def OrderService.Cancel (env : Env) (a : OrderService) (id : Bytes) :
    Run request.Config (Ptr OrderResp × Option GoError) :=
  let cfg : request.Config :=
    { Method := http.MethodPost
      Url := a.domain ++ B "/api/1.0/orders/" ++ id ++ B "/cancel"
      ApiKey := a.apiKey
      Body := request.Body.nil
      ContentType := [] }
  let reply := env.New cfg
  ⟨[cfg],
    match reply.err with
    | some err => (none, some err)
    | none =>
      if reply.statusCode ≠ http.StatusOK then
        (none, some (errors.New
          (B "Status: " ++ strconv.Itoa reply.statusCode ++ B "\n\nResponse: " ++ reply.resp)))
      else
        match json.Unmarshal env.populateOrderResp reply.resp default with
        | Except.error err => (none, some err)
        | Except.ok r => (some r, none)⟩

/-- The method `OrderService.Refund` (order.go). -/
def OrderService.Refund (env : Env) (a : OrderService) (id : Bytes) (refundReq : Ptr RefundReq) :
    Run request.Config (Ptr RefundResp × Option GoError) :=
  let cfg : request.Config :=
    { Method := http.MethodPost
      Url := a.domain ++ B "/api/1.0/orders/" ++ id ++ B "/refund"
      ApiKey := a.apiKey
      Body := request.Body.RefundReq refundReq
      ContentType := env.ContentType_APPLICATION_JSON }
  let reply := env.New cfg
  ⟨[cfg],
    match reply.err with
    | some err => (none, some err)
    | none =>
      if reply.statusCode ≠ http.StatusOK then
        (none, some (errors.New
          (B "Status: " ++ strconv.Itoa reply.statusCode ++ B "\n\nResponse: " ++ reply.resp)))
      else
        match json.Unmarshal env.populateRefundResp reply.resp default with
        | Except.error err => (none, some err)
        | Except.ok r => (some r, none)⟩

/-- The method `CustomerService.Create` (customer.go).  The decode target `r` is declared
as a pointer and never set, so `json.Unmarshal` receives a `nil` pointer. -/
def CustomerService.Create (env : Env) (a : CustomerService) (req : Ptr CreateCustomerReq) :
    Run request.Config (Ptr CreateCustomerResp × Option GoError) :=
  let cfg : request.Config :=
    { Method := http.MethodPost
      Url := a.domain ++ B "/api/1.0/customers"
      ApiKey := a.apiKey
      Body := request.Body.CreateCustomerReq req
      ContentType := env.ContentType_APPLICATION_JSON }
  let reply := env.New cfg
  ⟨[cfg],
    match reply.err with
    | some err => (none, some err)
    | none =>
      if reply.statusCode ≠ http.StatusOK then (none, some (errors.New reply.resp))
      else
        let r : Ptr CreateCustomerResp := none
        match json.UnmarshalNil (B "*merchant.CreateCustomerResp") reply.resp with
        | some err => (none, some err)
        | none => (r, none)⟩

end merchant

/-! ## Every endpoint method as one call -/

/-- The two environments of a program that uses both packages. -/
structure World where
  business : business.Env
  merchant : merchant.Env

/-- A request configuration handed to one of the two `request.New` functions. -/
inductive Sent
  | business (cfg : business.request.Config)
  | merchant (cfg : merchant.request.Config)

/-- The reply of the transport to a request. -/
def World.reply (w : World) : Sent → Reply
  | Sent.business cfg => w.business.New cfg
  | Sent.merchant cfg => w.merchant.New cfg

/-- The first result of a method, by its declared type; `unit` for the methods that return
only an error. -/
inductive Value
  | AccountRespSlice (r : Slice (Ptr business.AccountResp))
  | AccountResp (r : Ptr business.AccountResp)
  | AccountDetailRespSlice (r : Slice (Ptr business.AccountDetailResp))
  | CounterpartyResp (r : Ptr business.CounterpartyResp)
  | CounterpartyRespSlice (r : Slice (Ptr business.CounterpartyResp))
  | ExchangeRateResp (r : Ptr business.ExchangeRateResp)
  | ExchangeResp (r : Ptr business.ExchangeResp)
  | PaymentDraftResp (r : Ptr business.PaymentDraftResp)
  | PaymentDrafts (r : Ptr business.PaymentDrafts)
  | PaymentDraftDetailPayment (r : Ptr business.PaymentDraftDetailPayment)
  | OrderResp (r : Ptr merchant.OrderResp)
  | RefundResp (r : Ptr merchant.RefundResp)
  | CreateCustomerResp (r : Ptr merchant.CreateCustomerResp)
  | unit

/-- A call of an endpoint method on a receiver that is not `nil`: the record behind the
receiver pointer, and the arguments.  A call through a `nil` receiver is an
`Invocation.nilReceiver`. -/
inductive Call
  | AccountService_List (a : business.AccountService)
  | AccountService_WithId (a : business.AccountService) (id : Bytes)
  | AccountService_DetailWithId (a : business.AccountService) (id : Bytes)
  | CounterpartyService_AddRevolut (c : business.CounterpartyService)
      (req : Ptr business.RevolutCounterpartyReq)
  | CounterpartyService_AddNonRevolut (c : business.CounterpartyService)
      (req : Ptr business.NonRevolutCounterpartyReq)
  | CounterpartyService_Delete (c : business.CounterpartyService) (id : Bytes)
  | CounterpartyService_WithId (c : business.CounterpartyService) (id : Bytes)
  | CounterpartyService_List (c : business.CounterpartyService)
  | ExchangeService_Rate (e : business.ExchangeService) (req : Ptr business.ExchangeRateReq)
  | ExchangeService_Exchange (e : business.ExchangeService) (req : Ptr business.ExchangeReq)
  | PaymentDraftService_Create (e : business.PaymentDraftService)
      (req : Ptr business.PaymentDraftReq)
  | PaymentDraftService_List (e : business.PaymentDraftService)
  | PaymentDraftService_WithId (e : business.PaymentDraftService) (id : Bytes)
  | PaymentDraftService_Delete (e : business.PaymentDraftService) (id : Bytes)
  | WebhookService_Set (p : business.WebhookService) (url : Bytes)
  | WebhookService_Delete (p : business.WebhookService)
  | OrderService_Create (a : merchant.OrderService) (req : Ptr merchant.OrderReq)
  | OrderService_WithId (a : merchant.OrderService) (id : Bytes)
  | OrderService_Capture (a : merchant.OrderService) (id : Bytes)
  | OrderService_Cancel (a : merchant.OrderService) (id : Bytes)
  | OrderService_Refund (a : merchant.OrderService) (id : Bytes) (req : Ptr merchant.RefundReq)
  | CustomerService_Create (a : merchant.CustomerService) (req : Ptr merchant.CreateCustomerReq)

/-- What a call gives back: the first result and the error, or a panic. -/
abbrev Result := Outcome (Value × Option GoError)

/-- The run of a business method that returns a result and an error. -/
def Run.ofBusiness {ρ : Type} (wrap : ρ → Value)
    (r : Run business.request.Config (ρ × Option GoError)) : Run Sent Result :=
  ⟨r.calls.map Sent.business, Outcome.returned (wrap r.ret.1, r.ret.2)⟩

/-- The run of a business method that returns only an error. -/
def Run.ofBusinessErr (r : Run business.request.Config (Option GoError)) : Run Sent Result :=
  ⟨r.calls.map Sent.business, Outcome.returned (Value.unit, r.ret)⟩

/-- The run of a merchant method that returns a result and an error. -/
def Run.ofMerchant {ρ : Type} (wrap : ρ → Value)
    (r : Run merchant.request.Config (ρ × Option GoError)) : Run Sent Result :=
  ⟨r.calls.map Sent.merchant, Outcome.returned (wrap r.ret.1, r.ret.2)⟩

/-- Running a call. -/
def Call.invoke (w : World) : Call → Run Sent Result
  | Call.AccountService_List a =>
    Run.ofBusiness Value.AccountRespSlice (business.AccountService.List w.business a)
  | Call.AccountService_WithId a id =>
    Run.ofBusiness Value.AccountResp (business.AccountService.WithId w.business a id)
  | Call.AccountService_DetailWithId a id =>
    Run.ofBusiness Value.AccountDetailRespSlice
      (business.AccountService.DetailWithId w.business a id)
  | Call.CounterpartyService_AddRevolut c req =>
    Run.ofBusiness Value.CounterpartyResp
      (business.CounterpartyService.AddRevolut w.business c req)
  | Call.CounterpartyService_AddNonRevolut c req =>
    Run.ofBusiness Value.CounterpartyResp
      (business.CounterpartyService.AddNonRevolut w.business c req)
  | Call.CounterpartyService_Delete c id =>
    Run.ofBusinessErr (business.CounterpartyService.Delete w.business c id)
  | Call.CounterpartyService_WithId c id =>
    Run.ofBusiness Value.CounterpartyResp (business.CounterpartyService.WithId w.business c id)
  | Call.CounterpartyService_List c =>
    Run.ofBusiness Value.CounterpartyRespSlice (business.CounterpartyService.List w.business c)
  | Call.ExchangeService_Rate e req =>
    let r := business.ExchangeService.Rate w.business e req
    ⟨r.calls.map Sent.business,
      match r.ret with
      | Outcome.returned x => Outcome.returned (Value.ExchangeRateResp x.1, x.2)
      | Outcome.panic => Outcome.panic⟩
  | Call.ExchangeService_Exchange e req =>
    Run.ofBusiness Value.ExchangeResp (business.ExchangeService.Exchange w.business e req)
  | Call.PaymentDraftService_Create e req =>
    Run.ofBusiness Value.PaymentDraftResp (business.PaymentDraftService.Create w.business e req)
  | Call.PaymentDraftService_List e =>
    Run.ofBusiness Value.PaymentDrafts (business.PaymentDraftService.List w.business e)
  | Call.PaymentDraftService_WithId e id =>
    Run.ofBusiness Value.PaymentDraftDetailPayment
      (business.PaymentDraftService.WithId w.business e id)
  | Call.PaymentDraftService_Delete e id =>
    Run.ofBusinessErr (business.PaymentDraftService.Delete w.business e id)
  | Call.WebhookService_Set p url =>
    Run.ofBusinessErr (business.WebhookService.Set w.business p url)
  | Call.WebhookService_Delete p =>
    Run.ofBusinessErr (business.WebhookService.Delete w.business p)
  | Call.OrderService_Create a req =>
    Run.ofMerchant Value.OrderResp (merchant.OrderService.Create w.merchant a req)
  | Call.OrderService_WithId a id =>
    Run.ofMerchant Value.OrderResp (merchant.OrderService.WithId w.merchant a id)
  | Call.OrderService_Capture a id =>
    Run.ofMerchant Value.OrderResp (merchant.OrderService.Capture w.merchant a id)
  | Call.OrderService_Cancel a id =>
    Run.ofMerchant Value.OrderResp (merchant.OrderService.Cancel w.merchant a id)
  | Call.OrderService_Refund a id req =>
    Run.ofMerchant Value.RefundResp (merchant.OrderService.Refund w.merchant a id req)
  | Call.CustomerService_Create a req =>
    Run.ofMerchant Value.CreateCustomerResp (merchant.CustomerService.Create w.merchant a req)

/-- The `nil` result of the method's declared type (`unit` when it has no result). -/
def Call.nilValue : Call → Value
  | Call.AccountService_List _ => Value.AccountRespSlice none
  | Call.AccountService_WithId _ _ => Value.AccountResp none
  | Call.AccountService_DetailWithId _ _ => Value.AccountDetailRespSlice none
  | Call.CounterpartyService_AddRevolut _ _ => Value.CounterpartyResp none
  | Call.CounterpartyService_AddNonRevolut _ _ => Value.CounterpartyResp none
  | Call.CounterpartyService_Delete _ _ => Value.unit
  | Call.CounterpartyService_WithId _ _ => Value.CounterpartyResp none
  | Call.CounterpartyService_List _ => Value.CounterpartyRespSlice none
  | Call.ExchangeService_Rate _ _ => Value.ExchangeRateResp none
  | Call.ExchangeService_Exchange _ _ => Value.ExchangeResp none
  | Call.PaymentDraftService_Create _ _ => Value.PaymentDraftResp none
  | Call.PaymentDraftService_List _ => Value.PaymentDrafts none
  | Call.PaymentDraftService_WithId _ _ => Value.PaymentDraftDetailPayment none
  | Call.PaymentDraftService_Delete _ _ => Value.unit
  | Call.WebhookService_Set _ _ => Value.unit
  | Call.WebhookService_Delete _ => Value.unit
  | Call.OrderService_Create _ _ => Value.OrderResp none
  | Call.OrderService_WithId _ _ => Value.OrderResp none
  | Call.OrderService_Capture _ _ => Value.OrderResp none
  | Call.OrderService_Cancel _ _ => Value.OrderResp none
  | Call.OrderService_Refund _ _ _ => Value.RefundResp none
  | Call.CustomerService_Create _ _ => Value.CreateCustomerResp none

/-- The stored configuration error of the receiver; the merchant services have none. -/
def Call.storedErr : Call → Option GoError
  | Call.AccountService_List a => a.err
  | Call.AccountService_WithId a _ => a.err
  | Call.AccountService_DetailWithId a _ => a.err
  | Call.CounterpartyService_AddRevolut c _ => c.err
  | Call.CounterpartyService_AddNonRevolut c _ => c.err
  | Call.CounterpartyService_Delete c _ => c.err
  | Call.CounterpartyService_WithId c _ => c.err
  | Call.CounterpartyService_List c => c.err
  | Call.ExchangeService_Rate e _ => e.err
  | Call.ExchangeService_Exchange e _ => e.err
  | Call.PaymentDraftService_Create e _ => e.err
  | Call.PaymentDraftService_List e => e.err
  | Call.PaymentDraftService_WithId e _ => e.err
  | Call.PaymentDraftService_Delete e _ => e.err
  | Call.WebhookService_Set p _ => p.err
  | Call.WebhookService_Delete p => p.err
  | _ => none

/-- Whether the call is on a service of package business. -/
def Call.isBusiness : Call → Bool
  | Call.OrderService_Create _ _ => false
  | Call.OrderService_WithId _ _ => false
  | Call.OrderService_Capture _ _ => false
  | Call.OrderService_Cancel _ _ => false
  | Call.OrderService_Refund _ _ _ => false
  | Call.CustomerService_Create _ _ => false
  | _ => true

/-- Whether the call is on `OrderService`. -/
def Call.isOrder : Call → Bool
  | Call.OrderService_Create _ _ => true
  | Call.OrderService_WithId _ _ => true
  | Call.OrderService_Capture _ _ => true
  | Call.OrderService_Cancel _ _ => true
  | Call.OrderService_Refund _ _ _ => true
  | _ => false

/-- Whether the call is one of the three deletions. -/
def Call.isDelete : Call → Bool
  | Call.CounterpartyService_Delete _ _ => true
  | Call.PaymentDraftService_Delete _ _ => true
  | Call.WebhookService_Delete _ => true
  | _ => false

/-- Whether the method decodes the response body into a result. -/
def Call.decodes : Call → Bool
  | Call.CounterpartyService_Delete _ _ => false
  | Call.PaymentDraftService_Delete _ _ => false
  | Call.WebhookService_Set _ _ => false
  | Call.WebhookService_Delete _ => false
  | _ => true

/-- The documented success status codes of the endpoint (section 6 of the specification). -/
def Call.successCodes : Call → List Int
  | Call.CounterpartyService_Delete _ _ => [204]
  | Call.PaymentDraftService_Delete _ _ => [204]
  | Call.WebhookService_Set _ _ => [204]
  | Call.WebhookService_Delete _ => [204]
  | Call.OrderService_Create _ _ => [200, 201]
  | _ => [200]

/-- An environment of package business whose transport answers every request with `reply`
and whose decoder leaves every target as it is. -/
def business.Env.const (reply : Reply) : business.Env :=
  { New := fun _ => reply
    ContentType_APPLICATION_JSON := B "application/json"
    populateAccountRespSlice := fun v _ => Except.ok v
    populateAccountResp := fun v _ => Except.ok v
    populateAccountDetailRespSlice := fun v _ => Except.ok v
    populateCounterpartyResp := fun v _ => Except.ok v
    populateCounterpartyRespSlice := fun v _ => Except.ok v
    populateExchangeRateResp := fun v _ => Except.ok v
    populateExchangeResp := fun v _ => Except.ok v
    populatePaymentDraftResp := fun v _ => Except.ok v
    populatePaymentDrafts := fun v _ => Except.ok v
    populatePaymentDraftDetailPayment := fun v _ => Except.ok v }

/-- An environment of package merchant whose transport answers every request with `reply`
and whose decoder leaves every target as it is. -/
def merchant.Env.const (reply : Reply) : merchant.Env :=
  { New := fun _ => reply
    ContentType_APPLICATION_JSON := B "application/json"
    populateOrderResp := fun v _ => Except.ok v
    populateRefundResp := fun v _ => Except.ok v }

/-- The world in which every request is answered with `reply`. -/
def World.const (reply : Reply) : World :=
  { business := business.Env.const reply, merchant := merchant.Env.const reply }

/-- The result and error a method returns from the outcome of `json.Unmarshal` into a
pointer target: `nil` and the error, or the filled record and no error. -/
def decodedPtr {α : Type} (wrap : Ptr α → Value) : Except GoError α → Value × Option GoError
  | Except.error err => (wrap none, some err)
  | Except.ok r => (wrap (some r), none)

/-- The result and error a method returns from the outcome of `json.Unmarshal` into a slice
target. -/
def decodedSlice {α : Type} (wrap : Slice α → Value) :
    Except GoError (Slice α) → Value × Option GoError
  | Except.error err => (wrap none, some err)
  | Except.ok r => (wrap r, none)

/-- What a method returns once the status check has let the reply through: the outcome of
decoding `body` into the declared response type, as the method's source does it.  The four
methods without a response type return no error. -/
def Call.decoded (w : World) : Call → Bytes → Value × Option GoError
  | Call.AccountService_List _, body =>
    decodedSlice Value.AccountRespSlice
      (json.Unmarshal (json.populateSlice w.business.populateAccountRespSlice) body none)
  | Call.AccountService_WithId _ _, body =>
    decodedPtr Value.AccountResp (json.Unmarshal w.business.populateAccountResp body default)
  | Call.AccountService_DetailWithId _ _, body =>
    decodedSlice Value.AccountDetailRespSlice
      (json.Unmarshal (json.populateSlice w.business.populateAccountDetailRespSlice) body
        (some []))
  | Call.CounterpartyService_AddRevolut _ _, body =>
    decodedPtr Value.CounterpartyResp
      (json.Unmarshal w.business.populateCounterpartyResp body default)
  | Call.CounterpartyService_AddNonRevolut _ _, body =>
    decodedPtr Value.CounterpartyResp
      (json.Unmarshal w.business.populateCounterpartyResp body default)
  | Call.CounterpartyService_Delete _ _, _ => (Value.unit, none)
  | Call.CounterpartyService_WithId _ _, body =>
    decodedPtr Value.CounterpartyResp
      (json.Unmarshal w.business.populateCounterpartyResp body default)
  | Call.CounterpartyService_List _, body =>
    decodedSlice Value.CounterpartyRespSlice
      (json.Unmarshal (json.populateSlice w.business.populateCounterpartyRespSlice) body
        (some []))
  | Call.ExchangeService_Rate _ _, body =>
    decodedPtr Value.ExchangeRateResp
      (json.Unmarshal w.business.populateExchangeRateResp body default)
  | Call.ExchangeService_Exchange _ _, body =>
    decodedPtr Value.ExchangeResp (json.Unmarshal w.business.populateExchangeResp body default)
  | Call.PaymentDraftService_Create _ _, body =>
    decodedPtr Value.PaymentDraftResp
      (json.Unmarshal w.business.populatePaymentDraftResp body default)
  | Call.PaymentDraftService_List _, body =>
    decodedPtr Value.PaymentDrafts (json.Unmarshal w.business.populatePaymentDrafts body default)
  | Call.PaymentDraftService_WithId _ _, body =>
    decodedPtr Value.PaymentDraftDetailPayment
      (json.Unmarshal w.business.populatePaymentDraftDetailPayment body default)
  | Call.PaymentDraftService_Delete _ _, _ => (Value.unit, none)
  | Call.WebhookService_Set _ _, _ => (Value.unit, none)
  | Call.WebhookService_Delete _, _ => (Value.unit, none)
  | Call.OrderService_Create _ _, body =>
    decodedPtr Value.OrderResp (json.Unmarshal w.merchant.populateOrderResp body default)
  | Call.OrderService_WithId _ _, body =>
    decodedPtr Value.OrderResp (json.Unmarshal w.merchant.populateOrderResp body default)
  | Call.OrderService_Capture _ _, body =>
    decodedPtr Value.OrderResp (json.Unmarshal w.merchant.populateOrderResp body default)
  | Call.OrderService_Cancel _ _, body =>
    decodedPtr Value.OrderResp (json.Unmarshal w.merchant.populateOrderResp body default)
  | Call.OrderService_Refund _ _ _, body =>
    decodedPtr Value.RefundResp (json.Unmarshal w.merchant.populateRefundResp body default)
  | Call.CustomerService_Create _ _, body =>
    (Value.CreateCustomerResp none, json.UnmarshalNil (B "*merchant.CreateCustomerResp") body)

/-- The text of the error a method builds from a reply whose status code it rejects. -/
def Call.statusErrorText : Call → Int → Bytes → Bytes
  | Call.OrderService_Create _ _, s, b => b ++ B " [status: " ++ strconv.Itoa s ++ B "]"
  | Call.OrderService_WithId _ _, s, b => B "Status: " ++ strconv.Itoa s ++ B "\n\nResponse: " ++ b
  | Call.OrderService_Capture _ _, s, b =>
    B "Status: " ++ strconv.Itoa s ++ B "\n\nResponse: " ++ b
  | Call.OrderService_Cancel _ _, s, b => B "Status: " ++ strconv.Itoa s ++ B "\n\nResponse: " ++ b
  | Call.OrderService_Refund _ _ _, s, b =>
    B "Status: " ++ strconv.Itoa s ++ B "\n\nResponse: " ++ b
  | _, _, b => b

/-! ## Predicates used in the statements -/

namespace strconv

/-- A decimal digit byte. -/
def isDigit (c : Nat) : Bool := 48 ≤ c && c ≤ 57

/-- Whether a text is a decimal number with exactly two digits after the decimal point: an
optional `-`, at least one digit, `.`, and two digits. -/
def isTwoDecimals (v : Bytes) : Bool :=
  match v.reverse with
  | d2 :: d1 :: 46 :: rest =>
    isDigit d2 && isDigit d1 &&
      (match rest.reverse with
       | [] => false
       | 45 :: ds => !ds.isEmpty && ds.all isDigit
       | d :: ds => (d :: ds).all isDigit)
  | _ => false

end strconv

namespace json

/-- The shape shared by the messages of the scanner: the first byte is `i` or `u`, the last
byte is not `]`. -/
def goodMsg (m : Bytes) : Bool :=
  (m.head? == some 105 || m.head? == some 117) && m.getLast? != some 93

/-- A context text that does not end in `]`. -/
def goodContext (context : Bytes) : Bool :=
  match context.getLast? with
  | some x => x != 93
  | none => false

/-- The recorded error of the scanner, if any, has a message of the shared shape. -/
def scanner.Inv (s : scanner) : Prop := ∀ e, s.err = some e → goodMsg e.msg = true

end json

/-! ## Package merchant: the client (client.go) -/

namespace merchant

/-- Modelled from the spec: the declaration of the type `WebhookService` of package
merchant, whose file is not among the sources.  The two fields are the ones that `newClient`
fills. -/
structure WebhookService where
  apiKey : Bytes
  domain : Bytes

/-- The type `Client` (client.go), each pointer field with the record behind it. -/
structure Client where
  apiKey : Bytes
  domain : Bytes
  orderService : Ptr OrderService
  webhookService : Ptr WebhookService
  customerService : Ptr CustomerService

/-- The function `newClient` (client.go); the result is the record behind the pointer it
returns.  The composite literal fills the field `domain` of the client with `apiKey`. -/
def newClient (apiKey : Bytes) (domain : Bytes) : Client :=
  { apiKey := apiKey
    domain := apiKey
    orderService := some { apiKey := apiKey, domain := domain }
    webhookService := some { apiKey := apiKey, domain := domain }
    customerService := some { apiKey := apiKey, domain := domain } }

/-- The function `NewProductionClient` (client.go). -/
def NewProductionClient (apiKey : Bytes) : Client :=
  newClient apiKey (B "https://merchant.revolut.com")

/-- The function `NewSandboxClient` (client.go). -/
def NewSandboxClient (apiKey : Bytes) : Client :=
  newClient apiKey (B "https://sandbox-merchant.revolut.com")

namespace heap

/-- The service records of package merchant that a program has allocated.  The address of a
record is its position in the list of its type; an allocation appends a record and changes
no other. -/
structure Heap where
  orderServices : List OrderService
  webhookServices : List WebhookService
  customerServices : List CustomerService

/-- A pointer to an allocated record: `nil`, or an address.  Two pointers to records of one
type point to the same record exactly when they are equal. -/
abbrev Ref := Option Nat

/-- The record behind a pointer to an `OrderService`. -/
def Heap.order (h : Heap) : Ref → Ptr OrderService
  | none => none
  | some n => h.orderServices.get? n

/-- The record behind a pointer to a `WebhookService`. -/
def Heap.webhook (h : Heap) : Ref → Ptr WebhookService
  | none => none
  | some n => h.webhookServices.get? n

/-- The record behind a pointer to a `CustomerService`. -/
def Heap.customer (h : Heap) : Ref → Ptr CustomerService
  | none => none
  | some n => h.customerServices.get? n

/-- The type `Client` (client.go) with its three pointers as pointers into the heap. -/
structure Client where
  apiKey : Bytes
  domain : Bytes
  orderService : Ref
  webhookService : Ref
  customerService : Ref

/-- The function `newClient` (client.go) on the heap: each of the three literals
`&OrderService{...}`, `&WebhookService{...}` and `&CustomerService{...}` allocates a record
with `apiKey` and `domain`, and the record of the client holds the three addresses.  The
literal fills the field `domain` of the client with `apiKey`.  The result is the record
behind the returned pointer and the heap after the call. -/
def newClient (h : Heap) (apiKey : Bytes) (domain : Bytes) : Client × Heap :=
  ({ apiKey := apiKey
     domain := apiKey
     orderService := some h.orderServices.length
     webhookService := some h.webhookServices.length
     customerService := some h.customerServices.length },
   { orderServices := h.orderServices ++ [{ apiKey := apiKey, domain := domain }]
     webhookServices := h.webhookServices ++ [{ apiKey := apiKey, domain := domain }]
     customerServices := h.customerServices ++ [{ apiKey := apiKey, domain := domain }] })

/-- The function `NewProductionClient` (client.go) on the heap. -/
def NewProductionClient (h : Heap) (apiKey : Bytes) : Client × Heap :=
  newClient h apiKey (B "https://merchant.revolut.com")

/-- The function `NewSandboxClient` (client.go) on the heap. -/
def NewSandboxClient (h : Heap) (apiKey : Bytes) : Client × Heap :=
  newClient h apiKey (B "https://sandbox-merchant.revolut.com")

/-- The method `Client.Order` (client.go): the stored pointer; a `nil` receiver panics. -/
def Client.Order : Ptr Client → Outcome Ref
  | none => Outcome.panic
  | some m => Outcome.returned m.orderService

/-- The method `Client.Webhook` (client.go): the stored pointer; a `nil` receiver panics. -/
def Client.Webhook : Ptr Client → Outcome Ref
  | none => Outcome.panic
  | some m => Outcome.returned m.webhookService

/-- The method `Client.Customer` (client.go): the stored pointer; a `nil` receiver
panics. -/
def Client.Customer : Ptr Client → Outcome Ref
  | none => Outcome.panic
  | some m => Outcome.returned m.customerService

/-- The three accessors of the client. -/
inductive Accessor
  | Order
  | Webhook
  | Customer

/-- A call of an accessor on the client, as a step on the record of the client and the
heap: what the call gives back, and the record and the heap after it.  The accessors read
one field of the client; they assign nothing and allocate nothing. -/
def access (st : Client × Heap) : Accessor → Outcome Ref × (Client × Heap)
  | Accessor.Order => (Client.Order (some st.1), st)
  | Accessor.Webhook => (Client.Webhook (some st.1), st)
  | Accessor.Customer => (Client.Customer (some st.1), st)

/-- A sequence of accessor calls on one client: what each call gives back, in order, and the
record and the heap after the last call. -/
def accessAll : Client × Heap → List Accessor → List (Outcome Ref) × (Client × Heap)
  | st, [] => ([], st)
  | st, a :: rest =>
    let r := access st a
    let rs := accessAll r.2 rest
    (r.1 :: rs.1, rs.2)

/-- The record of the client with the records behind its three pointers. -/
def view (st : Client × Heap) : merchant.Client :=
  { apiKey := st.1.apiKey
    domain := st.1.domain
    orderService := st.2.order st.1.orderService
    webhookService := st.2.webhook st.1.webhookService
    customerService := st.2.customer st.1.customerService }

end heap

end merchant

/-! ## The receiver and the request of a call -/

/-- The record of the service a method is called on. -/
inductive Receiver
  | AccountService (a : business.AccountService)
  | CounterpartyService (c : business.CounterpartyService)
  | ExchangeService (e : business.ExchangeService)
  | PaymentDraftService (e : business.PaymentDraftService)
  | WebhookService (p : business.WebhookService)
  | OrderService (a : merchant.OrderService)
  | CustomerService (a : merchant.CustomerService)

/-- The receiver of a call. -/
def Call.receiver : Call → Receiver
  | Call.AccountService_List a => Receiver.AccountService a
  | Call.AccountService_WithId a _ => Receiver.AccountService a
  | Call.AccountService_DetailWithId a _ => Receiver.AccountService a
  | Call.CounterpartyService_AddRevolut c _ => Receiver.CounterpartyService c
  | Call.CounterpartyService_AddNonRevolut c _ => Receiver.CounterpartyService c
  | Call.CounterpartyService_Delete c _ => Receiver.CounterpartyService c
  | Call.CounterpartyService_WithId c _ => Receiver.CounterpartyService c
  | Call.CounterpartyService_List c => Receiver.CounterpartyService c
  | Call.ExchangeService_Rate e _ => Receiver.ExchangeService e
  | Call.ExchangeService_Exchange e _ => Receiver.ExchangeService e
  | Call.PaymentDraftService_Create e _ => Receiver.PaymentDraftService e
  | Call.PaymentDraftService_List e => Receiver.PaymentDraftService e
  | Call.PaymentDraftService_WithId e _ => Receiver.PaymentDraftService e
  | Call.PaymentDraftService_Delete e _ => Receiver.PaymentDraftService e
  | Call.WebhookService_Set p _ => Receiver.WebhookService p
  | Call.WebhookService_Delete p => Receiver.WebhookService p
  | Call.OrderService_Create a _ => Receiver.OrderService a
  | Call.OrderService_WithId a _ => Receiver.OrderService a
  | Call.OrderService_Capture a _ => Receiver.OrderService a
  | Call.OrderService_Cancel a _ => Receiver.OrderService a
  | Call.OrderService_Refund a _ _ => Receiver.OrderService a
  | Call.CustomerService_Create a _ => Receiver.CustomerService a

/-- The credential of a service: `accessToken` or `apiKey`. -/
def Receiver.credential : Receiver → Bytes
  | Receiver.AccountService a => a.accessToken
  | Receiver.CounterpartyService c => c.accessToken
  | Receiver.ExchangeService e => e.accessToken
  | Receiver.PaymentDraftService e => e.accessToken
  | Receiver.WebhookService p => p.accessToken
  | Receiver.OrderService a => a.apiKey
  | Receiver.CustomerService a => a.apiKey

/-- The field `sandbox` of a business service. -/
def Receiver.sandbox : Receiver → Option Bool
  | Receiver.AccountService a => some a.sandbox
  | Receiver.CounterpartyService c => some c.sandbox
  | Receiver.ExchangeService e => some e.sandbox
  | Receiver.PaymentDraftService e => some e.sandbox
  | Receiver.WebhookService p => some p.sandbox
  | _ => none

/-- The field `domain` of a merchant service. -/
def Receiver.domain : Receiver → Option Bytes
  | Receiver.OrderService a => some a.domain
  | Receiver.CustomerService a => some a.domain
  | _ => none

/-- The stored error of a business service. -/
def Receiver.err : Receiver → Option GoError
  | Receiver.AccountService a => a.err
  | Receiver.CounterpartyService c => c.err
  | Receiver.ExchangeService e => e.err
  | Receiver.PaymentDraftService e => e.err
  | Receiver.WebhookService p => p.err
  | _ => none

/-- The body value of a request of either package. -/
inductive SentBody
  | business (b : business.request.Body)
  | merchant (b : merchant.request.Body)

/-- The field `Method` of a request. -/
def Sent.Method : Sent → Bytes
  | Sent.business cfg => cfg.Method
  | Sent.merchant cfg => cfg.Method

/-- The field `Url` of a request. -/
def Sent.Url : Sent → Bytes
  | Sent.business cfg => cfg.Url
  | Sent.merchant cfg => cfg.Url

/-- The field `Body` of a request. -/
def Sent.Body : Sent → SentBody
  | Sent.business cfg => SentBody.business cfg.Body
  | Sent.merchant cfg => SentBody.merchant cfg.Body

/-- The field `ContentType` of a request. -/
def Sent.ContentType : Sent → Bytes
  | Sent.business cfg => cfg.ContentType
  | Sent.merchant cfg => cfg.ContentType

/-- Whether the body of a request is `nil`. -/
def SentBody.isNil : SentBody → Bool
  | SentBody.business business.request.Body.nil => true
  | SentBody.merchant merchant.request.Body.nil => true
  | _ => false

/-- The request record (DTO) the caller passes to the method, as the pointer it passes; `none`
for the methods that take no request record. -/
def Call.requestDTO : Call → Option SentBody
  | Call.CounterpartyService_AddRevolut _ req =>
    some (SentBody.business (business.request.Body.RevolutCounterpartyReq req))
  | Call.CounterpartyService_AddNonRevolut _ req =>
    some (SentBody.business (business.request.Body.NonRevolutCounterpartyReq req))
  | Call.ExchangeService_Exchange _ req =>
    some (SentBody.business (business.request.Body.ExchangeReq req))
  | Call.PaymentDraftService_Create _ req =>
    some (SentBody.business (business.request.Body.PaymentDraftReq req))
  | Call.OrderService_Create _ req =>
    some (SentBody.merchant (merchant.request.Body.OrderReq req))
  | Call.OrderService_Refund _ _ req =>
    some (SentBody.merchant (merchant.request.Body.RefundReq req))
  | Call.CustomerService_Create _ req =>
    some (SentBody.merchant (merchant.request.Body.CreateCustomerReq req))
  | _ => none

/-- The constant `request.ContentType_APPLICATION_JSON` of the package the request goes
to. -/
def World.jsonContentType (w : World) : Sent → Bytes
  | Sent.business _ => w.business.ContentType_APPLICATION_JSON
  | Sent.merchant _ => w.merchant.ContentType_APPLICATION_JSON

/-! ## strings -/

namespace strings

/-- The function `strings.Cut(s, sep)` for a separator of one byte: the text before the first
separator, the text after it, and whether the separator was found. -/
def Cut (sep : Nat) : Bytes → Bytes × Bytes × Bool
  | [] => ([], [], false)
  | c :: cs =>
    if c = sep then ([], cs, true)
    else ((c :: (Cut sep cs).1), (Cut sep cs).2.1, (Cut sep cs).2.2)

end strings

/-! ## net/url: decoding a query string -/

namespace url

/-- The function `ishex`. -/
def ishex (c : Nat) : Bool :=
  (48 ≤ c && c ≤ 57) || (97 ≤ c && c ≤ 102) || (65 ≤ c && c ≤ 70)

/-- The function `unhex`. -/
def unhex (c : Nat) : Nat :=
  if 48 ≤ c ∧ c ≤ 57 then c - 48
  else if 97 ≤ c ∧ c ≤ 102 then c - 97 + 10
  else if 65 ≤ c ∧ c ≤ 70 then c - 65 + 10
  else 0

/-- The function `url.QueryUnescape`: the decoded text, or the fragment of at most three
bytes that an `EscapeError` reports for the first `%` that two hexadecimal digits do not
follow. -/
def QueryUnescape : Bytes → Except Bytes Bytes
  | [] => Except.ok []
  | c :: rest =>
    if c = 37 then
      match rest with
      | h1 :: h2 :: rest2 =>
        if ishex h1 && ishex h2 then
          match QueryUnescape rest2 with
          | Except.ok t => Except.ok ((unhex h1 * 16 + unhex h2) :: t)
          | Except.error e => Except.error e
        else Except.error [37, h1, h2]
      | _ => Except.error (37 :: rest)
    else
      match QueryUnescape rest with
      | Except.ok t => Except.ok ((if c = 43 then 32 else c) :: t)
      | Except.error e => Except.error e

/-- The errors of `url.ParseQuery`. -/
inductive ParseError
  | semicolon
  | escape (fragment : Bytes)
deriving DecidableEq, Repr

/-- The loop of `parseQuery`: `fuel` bounds the number of rounds, each of which takes at
least one byte off a non-empty query. -/
def parseQuery : Nat → Values → Option ParseError → Bytes → Values × Option ParseError
  | 0, m, err, _ => (m, err)
  | fuel + 1, m, err, query =>
    if query = [] then (m, err)
    else
      let key := (strings.Cut 38 query).1
      let rest := (strings.Cut 38 query).2.1
      if 59 ∈ key then parseQuery fuel m (some ParseError.semicolon) rest
      else if key = [] then parseQuery fuel m err rest
      else
        match QueryUnescape (strings.Cut 61 key).1 with
        | Except.error e =>
          parseQuery fuel m (if err.isNone then some (ParseError.escape e) else err) rest
        | Except.ok k =>
          match QueryUnescape (strings.Cut 61 key).2.1 with
          | Except.error e =>
            parseQuery fuel m (if err.isNone then some (ParseError.escape e) else err) rest
          | Except.ok v => parseQuery fuel (m.Add k v) err rest

/-- The function `url.ParseQuery`: the values of the query string with the first error. -/
def ParseQuery (query : Bytes) : Values × Option ParseError :=
  parseQuery (query.length + 1) ⟨[]⟩ none query

end url

/-! ## encoding/json: encoding a struct (`encode.go`) -/

/-- Whether a `float64` is a zero (`x == 0`): a finite value with the mantissa 0, of either
sign. -/
def float64.isZero : float64 → Bool
  | float64.finite _ 0 _ => true
  | _ => false

namespace json

/-- A JSON value as the encoder writes it; the rendering of the values as text is not
traced. -/
inductive Value
  | null
  | string (s : Bytes)
  | int (i : Int)
  | float (f : float64)
  | array (xs : List Value)
  | object (members : List (Bytes × Value))

/-- The kind of the Go type of a struct field. -/
inductive Kind
  | string
  | int
  | float
  | struct
  | slice
deriving DecidableEq, Repr

/-- A field of a struct value as the struct encoder meets it: the name of the field in the
Go declaration, the text of its `json` tag, the kind of its type, whether `isEmptyValue`
holds of its value, and what the encoder of its type writes for the value. -/
structure Field where
  Name : Bytes
  tag : Bytes
  kind : Kind
  isEmpty : Bool
  encoded : Except GoError Value

/-- The function `parseTag`: the name and the options of a tag. -/
def parseTag (tag : Bytes) : Bytes × Bytes := ((strings.Cut 44 tag).1, (strings.Cut 44 tag).2.1)

/-- The loop of `tagOptions.Contains` over the options that are left. -/
def containsLoop : Nat → Bytes → Bytes → Bool
  | 0, _, _ => false
  | fuel + 1, s, optionName =>
    if s = [] then false
    else if (strings.Cut 44 s).1 = optionName then true
    else containsLoop fuel (strings.Cut 44 s).2.1 optionName

/-- The method `tagOptions.Contains`. -/
def tagContains (o : Bytes) (optionName : Bytes) : Bool :=
  if o.length = 0 then false else containsLoop (o.length + 1) o optionName

/-- The function `isValidTag` on a name of ASCII bytes: not empty, and made of letters,
digits and the listed punctuation.  (A byte above 127 is taken as invalid; the tags of the
sources are ASCII.) -/
def isValidTag (s : Bytes) : Bool :=
  !s.isEmpty &&
    s.all (fun c =>
      (B "!#$%&()*+-./:;<=>?@[]^_\x7b|\x7d~ ").contains c ||
        (97 ≤ c && c ≤ 122) || (65 ≤ c && c ≤ 90) || (48 ≤ c && c ≤ 57))

/-- The key under which the struct encoder writes a field: the name of the tag when it is
valid, the Go name of the field otherwise. -/
def Field.jsonName (f : Field) : Bytes :=
  if isValidTag (parseTag f.tag).1 then (parseTag f.tag).1 else f.Name

/-- Whether the tag of the field carries the option `omitempty`. -/
def Field.omitEmpty (f : Field) : Bool := tagContains (parseTag f.tag).2 (B "omitempty")

/-- The struct encoder: the fields in order; a field with `omitempty` whose value is empty
is skipped; the first error of a field encoder ends the encoding. -/
def encodeFields : List Field → Except GoError (List (Bytes × Value))
  | [] => Except.ok []
  | f :: rest =>
    if f.omitEmpty && f.isEmpty then encodeFields rest
    else
      match f.encoded with
      | Except.error e => Except.error e
      | Except.ok v =>
        match encodeFields rest with
        | Except.error e => Except.error e
        | Except.ok ms => Except.ok ((f.jsonName, v) :: ms)

/-- The encoding of a struct value: a JSON object of its fields. -/
def encodeStruct (fields : List Field) : Except GoError Value :=
  match encodeFields fields with
  | Except.error e => Except.error e
  | Except.ok ms => Except.ok (Value.object ms)

/-- The encoder of `float64`: NaN and the infinities are an `UnsupportedValueError`. -/
def floatEncoder : float64 → Except GoError Value
  | float64.nan => Except.error (GoError.other 3 (B "json: unsupported value: NaN"))
  | float64.inf false => Except.error (GoError.other 3 (B "json: unsupported value: +Inf"))
  | float64.inf true => Except.error (GoError.other 3 (B "json: unsupported value: -Inf"))
  | float64.finite neg mant exp => Except.ok (Value.float (float64.finite neg mant exp))

/-- The encodings of the elements of a slice, in order. -/
def encodeElems : List (Except GoError Value) → Except GoError (List Value)
  | [] => Except.ok []
  | x :: rest =>
    match x with
    | Except.error e => Except.error e
    | Except.ok v =>
      match encodeElems rest with
      | Except.error e => Except.error e
      | Except.ok vs => Except.ok (v :: vs)

/-- A field of a string type: empty when its length is 0. -/
def Field.ofString (Name tag : Bytes) (s : Bytes) : Field :=
  { Name := Name, tag := tag, kind := Kind.string, isEmpty := s.isEmpty,
    encoded := Except.ok (Value.string s) }

/-- A field of type `int` or `int64`: empty when it is 0. -/
def Field.ofInt (Name tag : Bytes) (i : Int) : Field :=
  { Name := Name, tag := tag, kind := Kind.int, isEmpty := decide (i = 0),
    encoded := Except.ok (Value.int i) }

/-- A field of type `float64`: empty when it compares equal to 0. -/
def Field.ofFloat (Name tag : Bytes) (f : float64) : Field :=
  { Name := Name, tag := tag, kind := Kind.float,
    isEmpty := f.isZero,
    encoded := floatEncoder f }

/-- A field of a struct type, with the fields of its value: `isEmptyValue` holds of no
struct. -/
def Field.ofStruct (Name tag : Bytes) (fields : List Field) : Field :=
  { Name := Name, tag := tag, kind := Kind.struct, isEmpty := false,
    encoded := encodeStruct fields }

/-- A field of a type slice of structs, with the fields of each element: empty when its
length is 0; the `nil` slice is written as `null`. -/
def Field.ofStructSlice (Name tag : Bytes) (elems : Slice (List Field)) : Field :=
  { Name := Name, tag := tag, kind := Kind.slice, isEmpty := decide (Slice.len elems = 0),
    encoded :=
      match elems with
      | none => Except.ok Value.null
      | some xs =>
        match encodeElems (xs.map encodeStruct) with
        | Except.error e => Except.error e
        | Except.ok vs => Except.ok (Value.array vs) }

end json

/-! ## The request records as the encoder sees them -/

namespace business

/-- The fields of `RevolutCounterpartyReq` with their tags (counterparty.go). -/
def RevolutCounterpartyReq.jsonFields (r : RevolutCounterpartyReq) : List json.Field :=
  [json.Field.ofString (B "ProfileType") (B "profile_type,omitempty") r.ProfileType,
   json.Field.ofString (B "Name") (B "name,omitempty,omitempty") r.Name,
   json.Field.ofString (B "Phone") (B "phone,omitempty,omitempty") r.Phone,
   json.Field.ofString (B "Email") (B "email,omitempty,omitempty") r.Email]

/-- The fields of `NonRevolutCounterpartyReqInvidualName` with their tags
(counterparty.go). -/
def NonRevolutCounterpartyReqInvidualName.jsonFields
    (r : NonRevolutCounterpartyReqInvidualName) : List json.Field :=
  [json.Field.ofString (B "FirstName") (B "first_name,omitempty,omitempty") r.FirstName,
   json.Field.ofString (B "LastName") (B "last_name,omitempty,omitempty") r.LastName]

/-- The fields of `NonRevolutCounterpartyReqAddress` with their tags (counterparty.go). -/
def NonRevolutCounterpartyReqAddress.jsonFields (r : NonRevolutCounterpartyReqAddress) :
    List json.Field :=
  [json.Field.ofString (B "StreetLine1") (B "street_line1,omitempty,omitempty") r.StreetLine1,
   json.Field.ofString (B "StreetLine2") (B "street_line2,omitempty,omitempty") r.StreetLine2,
   json.Field.ofString (B "Region") (B "region,omitempty,omitempty") r.Region,
   json.Field.ofString (B "Postcode") (B "postcode,omitempty,omitempty") r.Postcode,
   json.Field.ofString (B "City") (B "city,omitempty,omitempty") r.City,
   json.Field.ofString (B "Country") (B "country,omitempty,omitempty") r.Country]

/-- The fields of `NonRevolutCounterpartyReq` with their tags (counterparty.go). -/
def NonRevolutCounterpartyReq.jsonFields (r : NonRevolutCounterpartyReq) : List json.Field :=
  [json.Field.ofString (B "CompanyName") (B "company_name,omitempty,omitempty") r.CompanyName,
   json.Field.ofStruct (B "InvidualName") (B "invidual_name,omitempty,omitempty")
     r.InvidualName.jsonFields,
   json.Field.ofString (B "BankCountry") (B "bank_country,omitempty") r.BankCountry,
   json.Field.ofString (B "Currency") (B "currency,omitempty") r.Currency,
   json.Field.ofString (B "AccountNo") (B "account_no,omitempty") r.AccountNo,
   json.Field.ofString (B "SortCode") (B "sort_code,omitempty") r.SortCode,
   json.Field.ofString (B "RoutingNumber") (B "routing_number,omitempty") r.RoutingNumber,
   json.Field.ofString (B "Email") (B "email,omitempty,omitempty") r.Email,
   json.Field.ofString (B "Phone") (B "phone,omitempty,omitempty") r.Phone,
   json.Field.ofStruct (B "Address") (B "address,omitempty") r.Address.jsonFields]

/-- The fields of `ExchangeAmount` with their tags (exchange.go). -/
def ExchangeAmount.jsonFields (r : ExchangeAmount) : List json.Field :=
  [json.Field.ofString (B "AccountId") (B "account_id,omitempty") r.AccountId,
   json.Field.ofFloat (B "Amount") (B "amount,omitempty,omitempty") r.Amount,
   json.Field.ofString (B "Currency") (B "currency,omitempty") r.Currency]

/-- The fields of `ExchangeReq` with their tags (exchange.go). -/
def ExchangeReq.jsonFields (r : ExchangeReq) : List json.Field :=
  [json.Field.ofStruct (B "From") (B "from,omitempty") r.From.jsonFields,
   json.Field.ofStruct (B "To") (B "to,omitempty") r.To.jsonFields,
   json.Field.ofString (B "Reference") (B "reference,omitempty") r.Reference,
   json.Field.ofString (B "RequestId") (B "request_id,omitempty") r.RequestId]

/-- The fields of `PaymentDraftPaymentReceiver` with their tags (payment_draft.go). -/
def PaymentDraftPaymentReceiver.jsonFields (r : PaymentDraftPaymentReceiver) :
    List json.Field :=
  [json.Field.ofString (B "CounterpartyId") (B "counterparty_id,omitempty") r.CounterpartyId,
   json.Field.ofString (B "AccountId") (B "account_id,optional,omitempty") r.AccountId]

/-- The fields of `PaymentDraftPayment` with their tags (payment_draft.go). -/
def PaymentDraftPayment.jsonFields (r : PaymentDraftPayment) : List json.Field :=
  [json.Field.ofString (B "Currency") (B "currency,omitempty") r.Currency,
   json.Field.ofInt (B "Amount") (B "amount,omitempty") r.Amount,
   json.Field.ofString (B "AccountId") (B "account_id,omitempty") r.AccountId,
   json.Field.ofStruct (B "Receiver") (B "receiver,omitempty,omitempty") r.Receiver.jsonFields,
   json.Field.ofString (B "Reference") (B "reference,omitempty") r.Reference]

/-- The fields of `PaymentDraftReq` with their tags (payment_draft.go). -/
def PaymentDraftReq.jsonFields (r : PaymentDraftReq) : List json.Field :=
  [json.Field.ofString (B "Title") (B "title,omitempty") r.Title,
   json.Field.ofString (B "ScheduleFor") (B "schedule_for,omitempty") r.ScheduleFor,
   json.Field.ofStructSlice (B "Payments") (B "payments,omitempty")
     (r.Payments.map (fun ps => ps.map PaymentDraftPayment.jsonFields))]

end business

namespace merchant

/-- The fields of `OrderReq` with their tags (order.go). -/
def OrderReq.jsonFields (r : OrderReq) : List json.Field :=
  [json.Field.ofInt (B "Amount") (B "amount") r.Amount,
   json.Field.ofString (B "CaptureMode") (B "capture_mode,omitempty") r.CaptureMode,
   json.Field.ofString (B "MerchantOrderID") (B "merchant_order_id,omitempty") r.MerchantOrderID,
   json.Field.ofString (B "CustomerEmail") (B "customer_email,omitempty") r.CustomerEmail,
   json.Field.ofString (B "Description") (B "description,omitempty") r.Description,
   json.Field.ofString (B "Currency") (B "currency,omitempty") r.Currency,
   json.Field.ofString (B "SettlementCurrency") (B "settlement_currency,omitempty")
     r.SettlementCurrency,
   json.Field.ofString (B "MerchantCustomerID") (B "merchant_customer_id,omitempty")
     r.MerchantCustomerID]

/-- The fields of `RefundReq` with their tags (order.go). -/
def RefundReq.jsonFields (r : RefundReq) : List json.Field :=
  [json.Field.ofInt (B "Amount") (B "amount,omitempty") r.Amount,
   json.Field.ofString (B "MerchantOrderID") (B "merchant_order_id,omitempty") r.MerchantOrderID,
   json.Field.ofString (B "Description") (B "description,omitempty") r.Description,
   json.Field.ofString (B "Currency") (B "currency,omitempty") r.Currency]

/-- The fields of `CreateCustomerReq` with their tags (customer.go). -/
def CreateCustomerReq.jsonFields (r : CreateCustomerReq) : List json.Field :=
  [json.Field.ofString (B "FullName") (B "full_name") r.FullName,
   json.Field.ofString (B "BusinessName") (B "business_name") r.BusinessName,
   json.Field.ofString (B "Email") (B "email") r.Email,
   json.Field.ofString (B "Phone") (B "phone") r.Phone]

end merchant

/-- A value of a request record type, or of a record type nested in one. -/
inductive RequestDTO
  | OrderReq (r : merchant.OrderReq)
  | RefundReq (r : merchant.RefundReq)
  | CreateCustomerReq (r : merchant.CreateCustomerReq)
  | RevolutCounterpartyReq (r : business.RevolutCounterpartyReq)
  | NonRevolutCounterpartyReq (r : business.NonRevolutCounterpartyReq)
  | ExchangeReq (r : business.ExchangeReq)
  | PaymentDraftReq (r : business.PaymentDraftReq)
  | NonRevolutCounterpartyReqInvidualName (r : business.NonRevolutCounterpartyReqInvidualName)
  | NonRevolutCounterpartyReqAddress (r : business.NonRevolutCounterpartyReqAddress)
  | ExchangeAmount (r : business.ExchangeAmount)
  | PaymentDraftPayment (r : business.PaymentDraftPayment)
  | PaymentDraftPaymentReceiver (r : business.PaymentDraftPaymentReceiver)

/-- The fields of the record. -/
def RequestDTO.fields : RequestDTO → List json.Field
  | RequestDTO.OrderReq r => r.jsonFields
  | RequestDTO.RefundReq r => r.jsonFields
  | RequestDTO.CreateCustomerReq r => r.jsonFields
  | RequestDTO.RevolutCounterpartyReq r => r.jsonFields
  | RequestDTO.NonRevolutCounterpartyReq r => r.jsonFields
  | RequestDTO.ExchangeReq r => r.jsonFields
  | RequestDTO.PaymentDraftReq r => r.jsonFields
  | RequestDTO.NonRevolutCounterpartyReqInvidualName r => r.jsonFields
  | RequestDTO.NonRevolutCounterpartyReqAddress r => r.jsonFields
  | RequestDTO.ExchangeAmount r => r.jsonFields
  | RequestDTO.PaymentDraftPayment r => r.jsonFields
  | RequestDTO.PaymentDraftPaymentReceiver r => r.jsonFields

/-- What `json.Marshal` writes for the record: a JSON object, or the error of a field. -/
def RequestDTO.Marshal (d : RequestDTO) : Except GoError json.Value :=
  json.encodeStruct d.fields

/-- Whether a `float64` is a finite number. -/
def float64.isFinite : float64 → Bool
  | float64.finite _ _ _ => true
  | _ => false

/-- Whether every `float64` in the record is a finite number. -/
def RequestDTO.floatsFinite : RequestDTO → Bool
  | RequestDTO.ExchangeReq r => r.From.Amount.isFinite && r.To.Amount.isFinite
  | RequestDTO.ExchangeAmount r => r.Amount.isFinite
  | _ => true

/-- Written from the amended claim, not from the encoder: for each field of the record that
has a string, number or list type, the key of the field and whether the field is present in
the serialized object.  The four fields of `CreateCustomerReq` and the field `Amount` of
`OrderReq` are always present; every other such field is present exactly when its value is
not empty: not the empty string, not the number zero, not a list of length 0.  The fields
that hold a nested record are not listed: nothing is said of them. -/
def RequestDTO.specPresent : RequestDTO → List (Bytes × Bool)
  | RequestDTO.OrderReq r =>
    [(B "amount", true),
     (B "capture_mode", !r.CaptureMode.isEmpty),
     (B "merchant_order_id", !r.MerchantOrderID.isEmpty),
     (B "customer_email", !r.CustomerEmail.isEmpty),
     (B "description", !r.Description.isEmpty),
     (B "currency", !r.Currency.isEmpty),
     (B "settlement_currency", !r.SettlementCurrency.isEmpty),
     (B "merchant_customer_id", !r.MerchantCustomerID.isEmpty)]
  | RequestDTO.RefundReq r =>
    [(B "amount", !decide (r.Amount = 0)),
     (B "merchant_order_id", !r.MerchantOrderID.isEmpty),
     (B "description", !r.Description.isEmpty),
     (B "currency", !r.Currency.isEmpty)]
  | RequestDTO.CreateCustomerReq _ =>
    [(B "full_name", true), (B "business_name", true), (B "email", true), (B "phone", true)]
  | RequestDTO.RevolutCounterpartyReq r =>
    [(B "profile_type", !r.ProfileType.isEmpty),
     (B "name", !r.Name.isEmpty),
     (B "phone", !r.Phone.isEmpty),
     (B "email", !r.Email.isEmpty)]
  | RequestDTO.NonRevolutCounterpartyReq r =>
    [(B "company_name", !r.CompanyName.isEmpty),
     (B "bank_country", !r.BankCountry.isEmpty),
     (B "currency", !r.Currency.isEmpty),
     (B "account_no", !r.AccountNo.isEmpty),
     (B "sort_code", !r.SortCode.isEmpty),
     (B "routing_number", !r.RoutingNumber.isEmpty),
     (B "email", !r.Email.isEmpty),
     (B "phone", !r.Phone.isEmpty)]
  | RequestDTO.ExchangeReq r =>
    [(B "reference", !r.Reference.isEmpty), (B "request_id", !r.RequestId.isEmpty)]
  | RequestDTO.PaymentDraftReq r =>
    [(B "title", !r.Title.isEmpty),
     (B "schedule_for", !r.ScheduleFor.isEmpty),
     (B "payments", !decide (Slice.len r.Payments = 0))]
  | RequestDTO.NonRevolutCounterpartyReqInvidualName r =>
    [(B "first_name", !r.FirstName.isEmpty), (B "last_name", !r.LastName.isEmpty)]
  | RequestDTO.NonRevolutCounterpartyReqAddress r =>
    [(B "street_line1", !r.StreetLine1.isEmpty),
     (B "street_line2", !r.StreetLine2.isEmpty),
     (B "region", !r.Region.isEmpty),
     (B "postcode", !r.Postcode.isEmpty),
     (B "city", !r.City.isEmpty),
     (B "country", !r.Country.isEmpty)]
  | RequestDTO.ExchangeAmount r =>
    [(B "account_id", !r.AccountId.isEmpty),
     (B "amount", !r.Amount.isZero),
     (B "currency", !r.Currency.isEmpty)]
  | RequestDTO.PaymentDraftPayment r =>
    [(B "currency", !r.Currency.isEmpty),
     (B "amount", !decide (r.Amount = 0)),
     (B "account_id", !r.AccountId.isEmpty),
     (B "reference", !r.Reference.isEmpty)]
  | RequestDTO.PaymentDraftPaymentReceiver r =>
    [(B "counterparty_id", !r.CounterpartyId.isEmpty), (B "account_id", !r.AccountId.isEmpty)]

/-! ## The sandbox flag of a call -/

/-- The call on the service whose field `sandbox` is `b` and whose other fields are those of
the receiver of the given call; a call on a merchant service, which has no such field, is
left as it is. -/
def Call.withSandbox (b : Bool) : Call → Call
  | Call.AccountService_List a => Call.AccountService_List { a with sandbox := b }
  | Call.AccountService_WithId a id => Call.AccountService_WithId { a with sandbox := b } id
  | Call.AccountService_DetailWithId a id =>
    Call.AccountService_DetailWithId { a with sandbox := b } id
  | Call.CounterpartyService_AddRevolut c req =>
    Call.CounterpartyService_AddRevolut { c with sandbox := b } req
  | Call.CounterpartyService_AddNonRevolut c req =>
    Call.CounterpartyService_AddNonRevolut { c with sandbox := b } req
  | Call.CounterpartyService_Delete c id =>
    Call.CounterpartyService_Delete { c with sandbox := b } id
  | Call.CounterpartyService_WithId c id =>
    Call.CounterpartyService_WithId { c with sandbox := b } id
  | Call.CounterpartyService_List c => Call.CounterpartyService_List { c with sandbox := b }
  | Call.ExchangeService_Rate e req => Call.ExchangeService_Rate { e with sandbox := b } req
  | Call.ExchangeService_Exchange e req =>
    Call.ExchangeService_Exchange { e with sandbox := b } req
  | Call.PaymentDraftService_Create e req =>
    Call.PaymentDraftService_Create { e with sandbox := b } req
  | Call.PaymentDraftService_List e => Call.PaymentDraftService_List { e with sandbox := b }
  | Call.PaymentDraftService_WithId e id =>
    Call.PaymentDraftService_WithId { e with sandbox := b } id
  | Call.PaymentDraftService_Delete e id =>
    Call.PaymentDraftService_Delete { e with sandbox := b } id
  | Call.WebhookService_Set p url => Call.WebhookService_Set { p with sandbox := b } url
  | Call.WebhookService_Delete p => Call.WebhookService_Delete { p with sandbox := b }
  | call => call

/-- The request whose field `Sandbox` is `b` and whose other fields are those of the given
request; a request of package merchant has no such field. -/
def Sent.withSandbox (b : Bool) : Sent → Sent
  | Sent.business cfg => Sent.business { cfg with Sandbox := b }
  | Sent.merchant cfg => Sent.merchant cfg

/-! ## The endpoint methods as steps on the record of the receiver -/

namespace business

/-- The method `AccountService.List` as a step on the record behind its receiver:
the run of the call and the record after it.  The body reads fields of the receiver and has
no assignment to one, so every `return` is reached with the record as it was. -/
def AccountService.List_step (env : Env) (a : AccountService) :
    Run request.Config (Slice (Ptr AccountResp) × Option GoError) × AccountService :=
  match a.err with
  | some e => (⟨[], (none, some e)⟩, a)
  | none =>
    let cfg : request.Config :=
      { Method := http.MethodGet
        Url := B "https://b2b.revolut.com/api/1.0/accounts"
        AccessToken := a.accessToken
        Sandbox := a.sandbox
        Body := request.Body.nil
        ContentType := [] }
    let reply := env.New cfg
    (⟨[cfg],
      match reply.err with
      | some err => (none, some err)
      | none =>
        if reply.statusCode ≠ http.StatusOK then (none, some (errors.New reply.resp))
        else
          match json.Unmarshal (json.populateSlice env.populateAccountRespSlice) reply.resp none with
          | Except.error err => (none, some err)
          | Except.ok r => (r, none)⟩, a)

/-- The method `AccountService.WithId` as a step on the record behind its receiver:
the run of the call and the record after it.  The body reads fields of the receiver and has
no assignment to one, so every `return` is reached with the record as it was. -/
def AccountService.WithId_step (env : Env) (a : AccountService) (id : Bytes) :
    Run request.Config (Ptr AccountResp × Option GoError) × AccountService :=
  match a.err with
  | some e => (⟨[], (none, some e)⟩, a)
  | none =>
    let cfg : request.Config :=
      { Method := http.MethodGet
        Url := B "https://b2b.revolut.com/api/1.0/accounts/" ++ id
        AccessToken := a.accessToken
        Sandbox := a.sandbox
        Body := request.Body.nil
        ContentType := [] }
    let reply := env.New cfg
    (⟨[cfg],
      match reply.err with
      | some err => (none, some err)
      | none =>
        if reply.statusCode ≠ http.StatusOK then (none, some (errors.New reply.resp))
        else
          match json.Unmarshal env.populateAccountResp reply.resp default with
          | Except.error err => (none, some err)
          | Except.ok r => (some r, none)⟩, a)

/-- The method `AccountService.DetailWithId` as a step on the record behind its receiver:
the run of the call and the record after it.  The body reads fields of the receiver and has
no assignment to one, so every `return` is reached with the record as it was. -/
def AccountService.DetailWithId_step (env : Env) (a : AccountService) (id : Bytes) :
    Run request.Config (Slice (Ptr AccountDetailResp) × Option GoError) × AccountService :=
  match a.err with
  | some e => (⟨[], (none, some e)⟩, a)
  | none =>
    let cfg : request.Config :=
      { Method := http.MethodGet
        Url := B "https://b2b.revolut.com/api/1.0/accounts/" ++ id ++ B "/bank-details"
        AccessToken := a.accessToken
        Sandbox := a.sandbox
        Body := request.Body.nil
        ContentType := [] }
    let reply := env.New cfg
    (⟨[cfg],
      match reply.err with
      | some err => (some [], some err)
      | none =>
        if reply.statusCode ≠ http.StatusOK then (none, some (errors.New reply.resp))
        else
          match json.Unmarshal (json.populateSlice env.populateAccountDetailRespSlice)
              reply.resp (some []) with
          | Except.error err => (none, some err)
          | Except.ok r => (r, none)⟩, a)

/-- The method `CounterpartyService.AddRevolut` as a step on the record behind its receiver:
the run of the call and the record after it.  The body reads fields of the receiver and has
no assignment to one, so every `return` is reached with the record as it was. -/
def CounterpartyService.AddRevolut_step (env : Env) (c : CounterpartyService)
    (revolutCounterparty : Ptr RevolutCounterpartyReq) :
    Run request.Config (Ptr CounterpartyResp × Option GoError) × CounterpartyService :=
  match c.err with
  | some e => (⟨[], (none, some e)⟩, c)
  | none =>
    let cfg : request.Config :=
      { Method := http.MethodPost
        Url := B "https://b2b.revolut.com/api/1.0/counterparty"
        AccessToken := c.accessToken
        Sandbox := c.sandbox
        Body := request.Body.RevolutCounterpartyReq revolutCounterparty
        ContentType := env.ContentType_APPLICATION_JSON }
    let reply := env.New cfg
    (⟨[cfg],
      match reply.err with
      | some err => (none, some err)
      | none =>
        if reply.statusCode ≠ http.StatusOK then (none, some (errors.New reply.resp))
        else
          match json.Unmarshal env.populateCounterpartyResp reply.resp default with
          | Except.error err => (none, some err)
          | Except.ok r => (some r, none)⟩, c)

/-- The method `CounterpartyService.AddNonRevolut` as a step on the record behind its receiver:
the run of the call and the record after it.  The body reads fields of the receiver and has
no assignment to one, so every `return` is reached with the record as it was. -/
def CounterpartyService.AddNonRevolut_step (env : Env) (c : CounterpartyService)
    (nonRevolutCounterparty : Ptr NonRevolutCounterpartyReq) :
    Run request.Config (Ptr CounterpartyResp × Option GoError) × CounterpartyService :=
  match c.err with
  | some e => (⟨[], (none, some e)⟩, c)
  | none =>
    let cfg : request.Config :=
      { Method := http.MethodPost
        Url := B "https://b2b.revolut.com/api/1.0/counterparty"
        AccessToken := c.accessToken
        Sandbox := c.sandbox
        Body := request.Body.NonRevolutCounterpartyReq nonRevolutCounterparty
        ContentType := env.ContentType_APPLICATION_JSON }
    let reply := env.New cfg
    (⟨[cfg],
      match reply.err with
      | some err => (none, some err)
      | none =>
        if reply.statusCode ≠ http.StatusOK then (none, some (errors.New reply.resp))
        else
          match json.Unmarshal env.populateCounterpartyResp reply.resp default with
          | Except.error err => (none, some err)
          | Except.ok r => (some r, none)⟩, c)

/-- The method `CounterpartyService.Delete` as a step on the record behind its receiver:
the run of the call and the record after it.  The body reads fields of the receiver and has
no assignment to one, so every `return` is reached with the record as it was. -/
def CounterpartyService.Delete_step (env : Env) (c : CounterpartyService) (id : Bytes) :
    Run request.Config (Option GoError) × CounterpartyService :=
  match c.err with
  | some e => (⟨[], some e⟩, c)
  | none =>
    let cfg : request.Config :=
      { Method := http.MethodDelete
        Url := B "https://b2b.revolut.com/api/1.0/counterparty/" ++ id
        AccessToken := c.accessToken
        Sandbox := c.sandbox
        Body := request.Body.nil
        ContentType := [] }
    let reply := env.New cfg
    (⟨[cfg],
      if reply.statusCode ≠ http.StatusNoContent then some (errors.New reply.resp)
      else
        match reply.err with
        | some err => some err
        | none => none⟩, c)

/-- The method `CounterpartyService.WithId` as a step on the record behind its receiver:
the run of the call and the record after it.  The body reads fields of the receiver and has
no assignment to one, so every `return` is reached with the record as it was. -/
def CounterpartyService.WithId_step (env : Env) (c : CounterpartyService) (id : Bytes) :
    Run request.Config (Ptr CounterpartyResp × Option GoError) × CounterpartyService :=
  match c.err with
  | some e => (⟨[], (none, some e)⟩, c)
  | none =>
    let cfg : request.Config :=
      { Method := http.MethodGet
        Url := B "https://b2b.revolut.com/api/1.0/counterparty/" ++ id
        AccessToken := c.accessToken
        Sandbox := c.sandbox
        Body := request.Body.nil
        ContentType := [] }
    let reply := env.New cfg
    (⟨[cfg],
      match reply.err with
      | some err => (none, some err)
      | none =>
        if reply.statusCode ≠ http.StatusOK then (none, some (errors.New reply.resp))
        else
          match json.Unmarshal env.populateCounterpartyResp reply.resp default with
          | Except.error err => (none, some err)
          | Except.ok r => (some r, none)⟩, c)

/-- The method `CounterpartyService.List` as a step on the record behind its receiver:
the run of the call and the record after it.  The body reads fields of the receiver and has
no assignment to one, so every `return` is reached with the record as it was. -/
def CounterpartyService.List_step (env : Env) (c : CounterpartyService) :
    Run request.Config (Slice (Ptr CounterpartyResp) × Option GoError) × CounterpartyService :=
  match c.err with
  | some e => (⟨[], (none, some e)⟩, c)
  | none =>
    let cfg : request.Config :=
      { Method := http.MethodGet
        Url := B "https://b2b.revolut.com/api/1.0/counterparties"
        AccessToken := c.accessToken
        Sandbox := c.sandbox
        Body := request.Body.nil
        ContentType := [] }
    let reply := env.New cfg
    (⟨[cfg],
      match reply.err with
      | some err => (none, some err)
      | none =>
        if reply.statusCode ≠ http.StatusOK then (none, some (errors.New reply.resp))
        else
          match json.Unmarshal (json.populateSlice env.populateCounterpartyRespSlice)
              reply.resp (some []) with
          | Except.error err => (none, some err)
          | Except.ok r => (r, none)⟩, c)

/-- The method `ExchangeService.Rate` as a step on the record behind its receiver:
the run of the call and the record after it.  The body reads fields of the receiver and has
no assignment to one, so every `return` is reached with the record as it was. -/
def ExchangeService.Rate_step (env : Env) (e : ExchangeService)
    (exchangeRateReq : Ptr ExchangeRateReq) :
    Run request.Config (Outcome (Ptr ExchangeRateResp × Option GoError)) × ExchangeService :=
  match e.err with
  | some err => (⟨[], Outcome.returned (none, some err)⟩, e)
  | none =>
    match exchangeRateReq with
    | none => (⟨[], Outcome.panic⟩, e)
    | some req =>
      let params : url.Values := ⟨[]⟩
      let params := params.Add (B "from") req.From
      let params := params.Add (B "to") req.To
      let params := params.Add (B "amount") (fmt.Sprintf_0_2f req.Amount)
      let cfg : request.Config :=
        { Method := http.MethodGet
          Url := B "https://b2b.revolut.com/api/1.0/rate?" ++ params.Encode
          AccessToken := e.accessToken
          Sandbox := e.sandbox
          Body := request.Body.nil
          ContentType := [] }
      let reply := env.New cfg
      (⟨[cfg],
        Outcome.returned
          (match reply.err with
           | some err => (none, some err)
           | none =>
             if reply.statusCode ≠ http.StatusOK then (none, some (errors.New reply.resp))
             else
               match json.Unmarshal env.populateExchangeRateResp reply.resp default with
               | Except.error err => (none, some err)
               | Except.ok r => (some r, none))⟩, e)

/-- The method `ExchangeService.Exchange` as a step on the record behind its receiver:
the run of the call and the record after it.  The body reads fields of the receiver and has
no assignment to one, so every `return` is reached with the record as it was. -/
def ExchangeService.Exchange_step (env : Env) (e : ExchangeService) (exchangeReq : Ptr ExchangeReq) :
    Run request.Config (Ptr ExchangeResp × Option GoError) × ExchangeService :=
  match e.err with
  | some err => (⟨[], (none, some err)⟩, e)
  | none =>
    let cfg : request.Config :=
      { Method := http.MethodPost
        Url := B "https://b2b.revolut.com/api/1.0/exchange"
        AccessToken := e.accessToken
        Sandbox := e.sandbox
        Body := request.Body.ExchangeReq exchangeReq
        ContentType := env.ContentType_APPLICATION_JSON }
    let reply := env.New cfg
    (⟨[cfg],
      match reply.err with
      | some err => (none, some err)
      | none =>
        if reply.statusCode ≠ http.StatusOK then (none, some (errors.New reply.resp))
        else
          match json.Unmarshal env.populateExchangeResp reply.resp default with
          | Except.error err => (none, some err)
          | Except.ok r => (some r, none)⟩, e)

/-- The method `PaymentDraftService.Create` as a step on the record behind its receiver:
the run of the call and the record after it.  The body reads fields of the receiver and has
no assignment to one, so every `return` is reached with the record as it was. -/
def PaymentDraftService.Create_step (env : Env) (e : PaymentDraftService) (paymentDraftReq : Ptr PaymentDraftReq) :
    Run request.Config (Ptr PaymentDraftResp × Option GoError) × PaymentDraftService :=
  match e.err with
  | some err => (⟨[], (none, some err)⟩, e)
  | none =>
    let cfg : request.Config :=
      { Method := http.MethodPost
        Url := B "https://b2b.revolut.com/api/1.0/payment-drafts"
        AccessToken := e.accessToken
        Sandbox := e.sandbox
        Body := request.Body.PaymentDraftReq paymentDraftReq
        ContentType := env.ContentType_APPLICATION_JSON }
    let reply := env.New cfg
    (⟨[cfg],
      match reply.err with
      | some err => (none, some err)
      | none =>
        if reply.statusCode ≠ http.StatusOK then (none, some (errors.New reply.resp))
        else
          match json.Unmarshal env.populatePaymentDraftResp reply.resp default with
          | Except.error err => (none, some err)
          | Except.ok r => (some r, none)⟩, e)

/-- The method `PaymentDraftService.List` as a step on the record behind its receiver:
the run of the call and the record after it.  The body reads fields of the receiver and has
no assignment to one, so every `return` is reached with the record as it was. -/
def PaymentDraftService.List_step (env : Env) (e : PaymentDraftService) :
    Run request.Config (Ptr PaymentDrafts × Option GoError) × PaymentDraftService :=
  match e.err with
  | some err => (⟨[], (none, some err)⟩, e)
  | none =>
    let cfg : request.Config :=
      { Method := http.MethodGet
        Url := B "https://b2b.revolut.com/api/1.0/payment-drafts"
        AccessToken := e.accessToken
        Sandbox := e.sandbox
        Body := request.Body.nil
        ContentType := [] }
    let reply := env.New cfg
    (⟨[cfg],
      match reply.err with
      | some err => (none, some err)
      | none =>
        if reply.statusCode ≠ http.StatusOK then (none, some (errors.New reply.resp))
        else
          match json.Unmarshal env.populatePaymentDrafts reply.resp default with
          | Except.error err => (none, some err)
          | Except.ok r => (some r, none)⟩, e)

/-- The method `PaymentDraftService.WithId` as a step on the record behind its receiver:
the run of the call and the record after it.  The body reads fields of the receiver and has
no assignment to one, so every `return` is reached with the record as it was. -/
def PaymentDraftService.WithId_step (env : Env) (e : PaymentDraftService) (id : Bytes) :
    Run request.Config (Ptr PaymentDraftDetailPayment × Option GoError) × PaymentDraftService :=
  match e.err with
  | some err => (⟨[], (none, some err)⟩, e)
  | none =>
    let cfg : request.Config :=
      { Method := http.MethodGet
        Url := B "https://b2b.revolut.com/api/1.0/payment-drafts/" ++ id
        AccessToken := e.accessToken
        Sandbox := e.sandbox
        Body := request.Body.nil
        ContentType := [] }
    let reply := env.New cfg
    (⟨[cfg],
      match reply.err with
      | some err => (none, some err)
      | none =>
        if reply.statusCode ≠ http.StatusOK then (none, some (errors.New reply.resp))
        else
          match json.Unmarshal env.populatePaymentDraftDetailPayment reply.resp default with
          | Except.error err => (none, some err)
          | Except.ok r => (some r, none)⟩, e)

/-- The method `PaymentDraftService.Delete` as a step on the record behind its receiver:
the run of the call and the record after it.  The body reads fields of the receiver and has
no assignment to one, so every `return` is reached with the record as it was. -/
def PaymentDraftService.Delete_step (env : Env) (e : PaymentDraftService) (id : Bytes) :
    Run request.Config (Option GoError) × PaymentDraftService :=
  match e.err with
  | some err => (⟨[], some err⟩, e)
  | none =>
    let cfg : request.Config :=
      { Method := http.MethodDelete
        Url := B "https://b2b.revolut.com/api/1.0/payment-drafts/" ++ id
        AccessToken := e.accessToken
        Sandbox := e.sandbox
        Body := request.Body.nil
        ContentType := [] }
    let reply := env.New cfg
    (⟨[cfg],
      match reply.err with
      | some err => some err
      | none =>
        if reply.statusCode ≠ http.StatusNoContent then some (errors.New reply.resp)
        else none⟩, e)

/-- The method `WebhookService.Set` as a step on the record behind its receiver:
the run of the call and the record after it.  The body reads fields of the receiver and has
no assignment to one, so every `return` is reached with the record as it was. -/
def WebhookService.Set_step (env : Env) (p : WebhookService) (url : Bytes) :
    Run request.Config (Option GoError) × WebhookService :=
  match p.err with
  | some err => (⟨[], some err⟩, p)
  | none =>
    let cfg : request.Config :=
      { Method := http.MethodPost
        Url := B "https://b2b.revolut.com/api/1.0/webhook"
        AccessToken := p.accessToken
        Sandbox := p.sandbox
        Body := request.Body.WebhookUrl url
        ContentType := env.ContentType_APPLICATION_JSON }
    let reply := env.New cfg
    (⟨[cfg],
      match reply.err with
      | some err => some err
      | none =>
        if reply.statusCode ≠ http.StatusNoContent then some (errors.New reply.resp)
        else none⟩, p)

/-- The method `WebhookService.Delete` as a step on the record behind its receiver:
the run of the call and the record after it.  The body reads fields of the receiver and has
no assignment to one, so every `return` is reached with the record as it was. -/
def WebhookService.Delete_step (env : Env) (p : WebhookService) :
    Run request.Config (Option GoError) × WebhookService :=
  match p.err with
  | some err => (⟨[], some err⟩, p)
  | none =>
    let cfg : request.Config :=
      { Method := http.MethodDelete
        Url := B "https://b2b.revolut.com/api/1.0/webhook"
        AccessToken := p.accessToken
        Sandbox := p.sandbox
        Body := request.Body.nil
        ContentType := [] }
    let reply := env.New cfg
    (⟨[cfg],
      match reply.err with
      | some err => some err
      | none =>
        if reply.statusCode ≠ http.StatusNoContent then some (errors.New reply.resp)
        else none⟩, p)

end business

namespace merchant

/-- The method `OrderService.Create` as a step on the record behind its receiver:
the run of the call and the record after it.  The body reads fields of the receiver and has
no assignment to one, so every `return` is reached with the record as it was. -/
def OrderService.Create_step (env : Env) (a : OrderService) (orderReq : Ptr OrderReq) :
    Run request.Config (Ptr OrderResp × Option GoError) × OrderService :=
  let cfg : request.Config :=
    { Method := http.MethodPost
      Url := a.domain ++ B "/api/1.0/orders"
      ApiKey := a.apiKey
      Body := request.Body.OrderReq orderReq
      ContentType := env.ContentType_APPLICATION_JSON }
  let reply := env.New cfg
  (⟨[cfg],
    match reply.err with
    | some err => (none, some err)
    | none =>
      if reply.statusCode ≠ http.StatusOK ∧ reply.statusCode ≠ http.StatusCreated then
        (none, some (errors.New
          (reply.resp ++ B " [status: " ++ strconv.Itoa reply.statusCode ++ B "]")))
      else
        match json.Unmarshal env.populateOrderResp reply.resp default with
        | Except.error err => (none, some err)
        | Except.ok r => (some r, none)⟩, a)

/-- The method `OrderService.WithId` as a step on the record behind its receiver:
the run of the call and the record after it.  The body reads fields of the receiver and has
no assignment to one, so every `return` is reached with the record as it was. -/
def OrderService.WithId_step (env : Env) (a : OrderService) (id : Bytes) :
    Run request.Config (Ptr OrderResp × Option GoError) × OrderService :=
  let cfg : request.Config :=
    { Method := http.MethodGet
      Url := a.domain ++ B "/api/1.0/orders/" ++ id
      ApiKey := a.apiKey
      Body := request.Body.nil
      ContentType := [] }
  let reply := env.New cfg
  (⟨[cfg],
    match reply.err with
    | some err => (none, some err)
    | none =>
      if reply.statusCode ≠ http.StatusOK then
        (none, some (errors.New
          (B "Status: " ++ strconv.Itoa reply.statusCode ++ B "\n\nResponse: " ++ reply.resp)))
      else
        match json.Unmarshal env.populateOrderResp reply.resp default with
        | Except.error err => (none, some err)
        | Except.ok r => (some r, none)⟩, a)

/-- The method `OrderService.Capture` as a step on the record behind its receiver:
the run of the call and the record after it.  The body reads fields of the receiver and has
no assignment to one, so every `return` is reached with the record as it was. -/
def OrderService.Capture_step (env : Env) (a : OrderService) (id : Bytes) :
    Run request.Config (Ptr OrderResp × Option GoError) × OrderService :=
  let cfg : request.Config :=
    { Method := http.MethodPost
      Url := a.domain ++ B "/api/1.0/orders/" ++ id ++ B "/capture"
      ApiKey := a.apiKey
      Body := request.Body.nil
      ContentType := [] }
  let reply := env.New cfg
  (⟨[cfg],
    match reply.err with
    | some err => (none, some err)
    | none =>
      if reply.statusCode ≠ http.StatusOK then
        (none, some (errors.New
          (B "Status: " ++ strconv.Itoa reply.statusCode ++ B "\n\nResponse: " ++ reply.resp)))
      else
        match json.Unmarshal env.populateOrderResp reply.resp default with
        | Except.error err => (none, some err)
        | Except.ok r => (some r, none)⟩, a)

/-- The method `OrderService.Cancel` as a step on the record behind its receiver:
the run of the call and the record after it.  The body reads fields of the receiver and has
no assignment to one, so every `return` is reached with the record as it was. -/
def OrderService.Cancel_step (env : Env) (a : OrderService) (id : Bytes) :
    Run request.Config (Ptr OrderResp × Option GoError) × OrderService :=
  let cfg : request.Config :=
    { Method := http.MethodPost
      Url := a.domain ++ B "/api/1.0/orders/" ++ id ++ B "/cancel"
      ApiKey := a.apiKey
      Body := request.Body.nil
      ContentType := [] }
  let reply := env.New cfg
  (⟨[cfg],
    match reply.err with
    | some err => (none, some err)
    | none =>
      if reply.statusCode ≠ http.StatusOK then
        (none, some (errors.New
          (B "Status: " ++ strconv.Itoa reply.statusCode ++ B "\n\nResponse: " ++ reply.resp)))
      else
        match json.Unmarshal env.populateOrderResp reply.resp default with
        | Except.error err => (none, some err)
        | Except.ok r => (some r, none)⟩, a)

/-- The method `OrderService.Refund` as a step on the record behind its receiver:
the run of the call and the record after it.  The body reads fields of the receiver and has
no assignment to one, so every `return` is reached with the record as it was. -/
def OrderService.Refund_step (env : Env) (a : OrderService) (id : Bytes) (refundReq : Ptr RefundReq) :
    Run request.Config (Ptr RefundResp × Option GoError) × OrderService :=
  let cfg : request.Config :=
    { Method := http.MethodPost
      Url := a.domain ++ B "/api/1.0/orders/" ++ id ++ B "/refund"
      ApiKey := a.apiKey
      Body := request.Body.RefundReq refundReq
      ContentType := env.ContentType_APPLICATION_JSON }
  let reply := env.New cfg
  (⟨[cfg],
    match reply.err with
    | some err => (none, some err)
    | none =>
      if reply.statusCode ≠ http.StatusOK then
        (none, some (errors.New
          (B "Status: " ++ strconv.Itoa reply.statusCode ++ B "\n\nResponse: " ++ reply.resp)))
      else
        match json.Unmarshal env.populateRefundResp reply.resp default with
        | Except.error err => (none, some err)
        | Except.ok r => (some r, none)⟩, a)

/-- The method `CustomerService.Create` as a step on the record behind its receiver:
the run of the call and the record after it.  The body reads fields of the receiver and has
no assignment to one, so every `return` is reached with the record as it was. -/
def CustomerService.Create_step (env : Env) (a : CustomerService) (req : Ptr CreateCustomerReq) :
    Run request.Config (Ptr CreateCustomerResp × Option GoError) × CustomerService :=
  let cfg : request.Config :=
    { Method := http.MethodPost
      Url := a.domain ++ B "/api/1.0/customers"
      ApiKey := a.apiKey
      Body := request.Body.CreateCustomerReq req
      ContentType := env.ContentType_APPLICATION_JSON }
  let reply := env.New cfg
  (⟨[cfg],
    match reply.err with
    | some err => (none, some err)
    | none =>
      if reply.statusCode ≠ http.StatusOK then (none, some (errors.New reply.resp))
      else
        let r : Ptr CreateCustomerResp := none
        match json.UnmarshalNil (B "*merchant.CreateCustomerResp") reply.resp with
        | some err => (none, some err)
        | none => (r, none)⟩, a)

end merchant

/-- A call as a step on the record behind its receiver pointer: the run of the method and
the record of the service after the call, each taken from the step of the method. -/
def Call.exec (w : World) : Call → Run Sent Result × Receiver
  | Call.AccountService_List a =>
    let r := business.AccountService.List_step w.business a
    (Run.ofBusiness Value.AccountRespSlice r.1, Receiver.AccountService r.2)
  | Call.AccountService_WithId a id =>
    let r := business.AccountService.WithId_step w.business a id
    (Run.ofBusiness Value.AccountResp r.1, Receiver.AccountService r.2)
  | Call.AccountService_DetailWithId a id =>
    let r := business.AccountService.DetailWithId_step w.business a id
    (Run.ofBusiness Value.AccountDetailRespSlice r.1, Receiver.AccountService r.2)
  | Call.CounterpartyService_AddRevolut c req =>
    let r := business.CounterpartyService.AddRevolut_step w.business c req
    (Run.ofBusiness Value.CounterpartyResp r.1, Receiver.CounterpartyService r.2)
  | Call.CounterpartyService_AddNonRevolut c req =>
    let r := business.CounterpartyService.AddNonRevolut_step w.business c req
    (Run.ofBusiness Value.CounterpartyResp r.1, Receiver.CounterpartyService r.2)
  | Call.CounterpartyService_Delete c id =>
    let r := business.CounterpartyService.Delete_step w.business c id
    (Run.ofBusinessErr r.1, Receiver.CounterpartyService r.2)
  | Call.CounterpartyService_WithId c id =>
    let r := business.CounterpartyService.WithId_step w.business c id
    (Run.ofBusiness Value.CounterpartyResp r.1, Receiver.CounterpartyService r.2)
  | Call.CounterpartyService_List c =>
    let r := business.CounterpartyService.List_step w.business c
    (Run.ofBusiness Value.CounterpartyRespSlice r.1, Receiver.CounterpartyService r.2)
  | Call.ExchangeService_Rate e req =>
    let r := business.ExchangeService.Rate_step w.business e req
    (⟨r.1.calls.map Sent.business,
      match r.1.ret with
      | Outcome.returned x => Outcome.returned (Value.ExchangeRateResp x.1, x.2)
      | Outcome.panic => Outcome.panic⟩, Receiver.ExchangeService r.2)
  | Call.ExchangeService_Exchange e req =>
    let r := business.ExchangeService.Exchange_step w.business e req
    (Run.ofBusiness Value.ExchangeResp r.1, Receiver.ExchangeService r.2)
  | Call.PaymentDraftService_Create e req =>
    let r := business.PaymentDraftService.Create_step w.business e req
    (Run.ofBusiness Value.PaymentDraftResp r.1, Receiver.PaymentDraftService r.2)
  | Call.PaymentDraftService_List e =>
    let r := business.PaymentDraftService.List_step w.business e
    (Run.ofBusiness Value.PaymentDrafts r.1, Receiver.PaymentDraftService r.2)
  | Call.PaymentDraftService_WithId e id =>
    let r := business.PaymentDraftService.WithId_step w.business e id
    (Run.ofBusiness Value.PaymentDraftDetailPayment r.1, Receiver.PaymentDraftService r.2)
  | Call.PaymentDraftService_Delete e id =>
    let r := business.PaymentDraftService.Delete_step w.business e id
    (Run.ofBusinessErr r.1, Receiver.PaymentDraftService r.2)
  | Call.WebhookService_Set p url =>
    let r := business.WebhookService.Set_step w.business p url
    (Run.ofBusinessErr r.1, Receiver.WebhookService r.2)
  | Call.WebhookService_Delete p =>
    let r := business.WebhookService.Delete_step w.business p
    (Run.ofBusinessErr r.1, Receiver.WebhookService r.2)
  | Call.OrderService_Create a req =>
    let r := merchant.OrderService.Create_step w.merchant a req
    (Run.ofMerchant Value.OrderResp r.1, Receiver.OrderService r.2)
  | Call.OrderService_WithId a id =>
    let r := merchant.OrderService.WithId_step w.merchant a id
    (Run.ofMerchant Value.OrderResp r.1, Receiver.OrderService r.2)
  | Call.OrderService_Capture a id =>
    let r := merchant.OrderService.Capture_step w.merchant a id
    (Run.ofMerchant Value.OrderResp r.1, Receiver.OrderService r.2)
  | Call.OrderService_Cancel a id =>
    let r := merchant.OrderService.Cancel_step w.merchant a id
    (Run.ofMerchant Value.OrderResp r.1, Receiver.OrderService r.2)
  | Call.OrderService_Refund a id req =>
    let r := merchant.OrderService.Refund_step w.merchant a id req
    (Run.ofMerchant Value.RefundResp r.1, Receiver.OrderService r.2)
  | Call.CustomerService_Create a req =>
    let r := merchant.CustomerService.Create_step w.merchant a req
    (Run.ofMerchant Value.CreateCustomerResp r.1, Receiver.CustomerService r.2)

/-! ## Calls through the receiver pointer -/

/-- The endpoint methods, by the type of the receiver and the name. -/
inductive Method
  | AccountService_List
  | AccountService_WithId
  | AccountService_DetailWithId
  | CounterpartyService_AddRevolut
  | CounterpartyService_AddNonRevolut
  | CounterpartyService_Delete
  | CounterpartyService_WithId
  | CounterpartyService_List
  | ExchangeService_Rate
  | ExchangeService_Exchange
  | PaymentDraftService_Create
  | PaymentDraftService_List
  | PaymentDraftService_WithId
  | PaymentDraftService_Delete
  | WebhookService_Set
  | WebhookService_Delete
  | OrderService_Create
  | OrderService_WithId
  | OrderService_Capture
  | OrderService_Cancel
  | OrderService_Refund
  | CustomerService_Create
deriving DecidableEq, Repr

/-- The method of a call. -/
def Call.method : Call → Method
  | Call.AccountService_List _ => Method.AccountService_List
  | Call.AccountService_WithId _ _ => Method.AccountService_WithId
  | Call.AccountService_DetailWithId _ _ => Method.AccountService_DetailWithId
  | Call.CounterpartyService_AddRevolut _ _ => Method.CounterpartyService_AddRevolut
  | Call.CounterpartyService_AddNonRevolut _ _ => Method.CounterpartyService_AddNonRevolut
  | Call.CounterpartyService_Delete _ _ => Method.CounterpartyService_Delete
  | Call.CounterpartyService_WithId _ _ => Method.CounterpartyService_WithId
  | Call.CounterpartyService_List _ => Method.CounterpartyService_List
  | Call.ExchangeService_Rate _ _ => Method.ExchangeService_Rate
  | Call.ExchangeService_Exchange _ _ => Method.ExchangeService_Exchange
  | Call.PaymentDraftService_Create _ _ => Method.PaymentDraftService_Create
  | Call.PaymentDraftService_List _ => Method.PaymentDraftService_List
  | Call.PaymentDraftService_WithId _ _ => Method.PaymentDraftService_WithId
  | Call.PaymentDraftService_Delete _ _ => Method.PaymentDraftService_Delete
  | Call.WebhookService_Set _ _ => Method.WebhookService_Set
  | Call.WebhookService_Delete _ => Method.WebhookService_Delete
  | Call.OrderService_Create _ _ => Method.OrderService_Create
  | Call.OrderService_WithId _ _ => Method.OrderService_WithId
  | Call.OrderService_Capture _ _ => Method.OrderService_Capture
  | Call.OrderService_Cancel _ _ => Method.OrderService_Cancel
  | Call.OrderService_Refund _ _ _ => Method.OrderService_Refund
  | Call.CustomerService_Create _ _ => Method.CustomerService_Create

/-- A call of an endpoint method as a program makes it.  Every endpoint method has a pointer
receiver, and a program can hold a `nil` pointer to a service (the accessor `Order` of a
client whose field `orderService` was never set returns one).  Either the receiver is `nil`,
or it points to a record and the call is a `Call` on that record. -/
inductive Invocation
  | nilReceiver (m : Method)
  | onRecord (call : Call)

/-- The method of an invocation. -/
def Invocation.method : Invocation → Method
  | Invocation.nilReceiver m => m
  | Invocation.onRecord call => call.method

/-- Running an invocation.  Every endpoint method reads a field of its receiver before it
calls `request.New`: the methods of package business begin with the test of the field `err`,
the methods of package merchant read `domain` and `apiKey` for the configuration that they
hand to `request.New`.  With a `nil` receiver that read panics: no request is made and
nothing is returned, whatever the arguments are. -/
def Invocation.run (w : World) : Invocation → Run Sent Result
  | Invocation.nilReceiver _ => ⟨[], Outcome.panic⟩
  | Invocation.onRecord call => call.invoke w

/-! ## Evaluations of the library model -/

/-- The validity scanner on some documents. -/
theorem json.checkValid_evaluations :
    json.checkValid (B "[]") = none
    ∧ json.checkValid (B " [ ] ") = none
    ∧ json.checkValid (B "\x7b\"id\":\"c1\",\"email\":\"a@b.c\"\x7d") = none
    ∧ json.checkValid (B "") = some ⟨B "unexpected end of JSON input", 0⟩
    ∧ json.checkValid (B "[1,2") = some ⟨B "unexpected end of JSON input", 4⟩
    ∧ json.checkValid (B "12 x") = some ⟨B "invalid character 'x' after top-level value", 4⟩
    ∧ json.checkValid (B "\x7b\"a\":tru\x7d")
      = some ⟨B "invalid character '\x7d' in literal true (expecting 'e')", 9⟩ := by
  decide

/-- The verbs `%d` and `%0.2f` on some values; ties are rounded to even. -/
theorem fmt.evaluations :
    strconv.Itoa 404 = B "404"
    ∧ strconv.Itoa (-7) = B "-7"
    ∧ strconv.Itoa 0 = B "0"
    ∧ fmt.Sprintf_0_2f (float64.finite false 1 0) = B "1.00"
    ∧ fmt.Sprintf_0_2f (float64.finite false 4503599627370496 (-52)) = B "1.00"
    ∧ fmt.Sprintf_0_2f (float64.finite true 1 (-3)) = B "-0.12"
    ∧ fmt.Sprintf_0_2f (float64.finite true 3 (-3)) = B "-0.38"
    ∧ fmt.Sprintf_0_2f (float64.finite false 12345 (-1)) = B "6172.50"
    ∧ fmt.Sprintf_0_2f (float64.finite false 0 0) = B "0.00"
    ∧ fmt.Sprintf_0_2f (float64.inf false) = B "+Inf" := by
  decide

/-- The query encoding sorts by key and escapes the values. -/
theorem url.Encode_evaluation :
    url.Values.Encode ((((⟨[]⟩ : url.Values).Add (B "from") (B "US D")).Add (B "to")
      (B "E&R")).Add (B "amount") (B "+Inf")) = B "amount=%2BInf&from=US+D&to=E%26R" := by
  decide

/-! ## Lemmas on the run of a call -/

/-- A call that hands a request to the transport and gets a reply without a transport error
returns, from the status it rejects, the `nil` result and the error built from the reply
(`Call.statusErrorText`); from a status it lets through, the decoded body. -/
theorem invoke_of_reply (w : World) (call : Call) (sent : Sent)
    (hcalls : (call.invoke w).calls = [sent])
    (herr : (w.reply sent).err = none) :
    (call.invoke w).ret =
      Outcome.returned
        (if (w.reply sent).statusCode ∈ call.successCodes then
          call.decoded w (w.reply sent).resp
        else
          (call.nilValue, some (errors.New
            (call.statusErrorText (w.reply sent).statusCode (w.reply sent).resp)))) := by
  cases call <;>
    simp only [Call.invoke, Call.nilValue, Run.ofBusiness, Run.ofBusinessErr, Run.ofMerchant,
      business.AccountService.List, business.AccountService.WithId,
      business.AccountService.DetailWithId, business.CounterpartyService.AddRevolut,
      business.CounterpartyService.AddNonRevolut, business.CounterpartyService.Delete,
      business.CounterpartyService.WithId, business.CounterpartyService.List,
      business.ExchangeService.Rate, business.ExchangeService.Exchange,
      business.PaymentDraftService.Create, business.PaymentDraftService.List,
      business.PaymentDraftService.WithId, business.PaymentDraftService.Delete,
      business.WebhookService.Set, business.WebhookService.Delete,
      merchant.OrderService.Create, merchant.OrderService.WithId,
      merchant.OrderService.Capture, merchant.OrderService.Cancel,
      merchant.OrderService.Refund, merchant.CustomerService.Create] at hcalls ⊢
  all_goals (try split at hcalls)
  all_goals (try simp at hcalls)
  all_goals (try split at hcalls)
  all_goals (try simp at hcalls)
  all_goals subst hcalls
  all_goals
    simp_all [World.reply, Call.successCodes, Call.decoded, Call.statusErrorText, decodedPtr,
      decodedSlice, http.StatusOK, http.StatusCreated, http.StatusNoContent]
  all_goals (repeat' split)
  all_goals simp_all [decodedPtr, decodedSlice]

/-- A call on a service with a stored configuration error returns that error with the `nil`
result and hands nothing to the transport. -/
theorem invoke_of_storedErr (w : World) (call : Call) (e : GoError)
    (h : call.storedErr = some e) :
    call.invoke w = ⟨[], Outcome.returned (call.nilValue, some e)⟩ := by
  cases call <;>
    simp_all [Call.storedErr, Call.invoke, Call.nilValue, Run.ofBusiness, Run.ofBusinessErr,
      business.AccountService.List, business.AccountService.WithId,
      business.AccountService.DetailWithId, business.CounterpartyService.AddRevolut,
      business.CounterpartyService.AddNonRevolut, business.CounterpartyService.Delete,
      business.CounterpartyService.WithId, business.CounterpartyService.List,
      business.ExchangeService.Rate, business.ExchangeService.Exchange,
      business.PaymentDraftService.Create, business.PaymentDraftService.List,
      business.PaymentDraftService.WithId, business.PaymentDraftService.Delete,
      business.WebhookService.Set, business.WebhookService.Delete]

/-- Every method other than `CounterpartyService.Delete` returns the transport error itself
when the transport reports one, whatever the status code and the body. -/
theorem invoke_of_transport_error (w : World) (call : Call) (sent : Sent) (e : GoError)
    (hcalls : (call.invoke w).calls = [sent])
    (herr : (w.reply sent).err = some e)
    (hcall : ∀ c id, call ≠ Call.CounterpartyService_Delete c id) :
    ∃ v, (call.invoke w).ret = Outcome.returned (v, some e) := by
  cases call <;>
    simp only [Call.invoke, Call.nilValue, Run.ofBusiness, Run.ofBusinessErr, Run.ofMerchant,
      business.AccountService.List, business.AccountService.WithId,
      business.AccountService.DetailWithId, business.CounterpartyService.AddRevolut,
      business.CounterpartyService.AddNonRevolut, business.CounterpartyService.Delete,
      business.CounterpartyService.WithId, business.CounterpartyService.List,
      business.ExchangeService.Rate, business.ExchangeService.Exchange,
      business.PaymentDraftService.Create, business.PaymentDraftService.List,
      business.PaymentDraftService.WithId, business.PaymentDraftService.Delete,
      business.WebhookService.Set, business.WebhookService.Delete,
      merchant.OrderService.Create, merchant.OrderService.WithId,
      merchant.OrderService.Capture, merchant.OrderService.Cancel,
      merchant.OrderService.Refund, merchant.CustomerService.Create] at hcalls ⊢
  all_goals (try split at hcalls)
  all_goals (try simp at hcalls)
  all_goals (try split at hcalls)
  all_goals (try simp at hcalls)
  all_goals subst hcalls
  all_goals simp_all [World.reply]

/-- A call on a service without a stored configuration error hands exactly one request to
the transport, unless it is `ExchangeService.Rate` with a `nil` request, which panics before
it builds the request. -/
theorem invoke_calls_of_no_storedErr (w : World) (call : Call)
    (h : call.storedErr = none)
    (hreq : ∀ e, call ≠ Call.ExchangeService_Rate e none) :
    ∃ sent, (call.invoke w).calls = [sent] := by
  cases call
  case ExchangeService_Rate e req =>
    cases req with
    | none => exact absurd rfl (hreq e)
    | some r =>
      simp only [Call.storedErr] at h
      simp [Call.invoke, business.ExchangeService.Rate, h]
  all_goals
    simp_all [Call.storedErr, Call.invoke, Run.ofBusiness, Run.ofBusinessErr, Run.ofMerchant,
      business.AccountService.List, business.AccountService.WithId,
      business.AccountService.DetailWithId, business.CounterpartyService.AddRevolut,
      business.CounterpartyService.AddNonRevolut, business.CounterpartyService.Delete,
      business.CounterpartyService.WithId, business.CounterpartyService.List,
      business.ExchangeService.Exchange,
      business.PaymentDraftService.Create, business.PaymentDraftService.List,
      business.PaymentDraftService.WithId, business.PaymentDraftService.Delete,
      business.WebhookService.Set, business.WebhookService.Delete,
      merchant.OrderService.Create, merchant.OrderService.WithId,
      merchant.OrderService.Capture, merchant.OrderService.Cancel,
      merchant.OrderService.Refund, merchant.CustomerService.Create]

/-! ## Lemmas on the formatted amount and the query string -/

theorem strconv.digits_all (fuel : Nat) : ∀ (n : Nat) (acc : Bytes),
    (∀ c ∈ acc, strconv.isDigit c = true) →
    ∀ c ∈ strconv.digits fuel n acc, strconv.isDigit c = true := by
  induction fuel with
  | zero => intro n acc h; simpa [strconv.digits] using h
  | succ k ih =>
    intro n acc h
    unfold strconv.digits
    split
    · intro c hc
      rcases List.mem_cons.mp hc with rfl | hc
      · simp [strconv.isDigit]; omega
      · exact h c hc
    · apply ih
      intro c hc
      rcases List.mem_cons.mp hc with rfl | hc
      · simp [strconv.isDigit]; omega
      · exact h c hc

theorem strconv.digits_ne_nil (fuel : Nat) : ∀ (n : Nat) (acc : Bytes),
    (0 < fuel ∨ acc ≠ []) → strconv.digits fuel n acc ≠ [] := by
  induction fuel with
  | zero => intro n acc h; rcases h with h | h; omega; simpa [strconv.digits] using h
  | succ k ih =>
    intro n acc _
    unfold strconv.digits
    split
    · simp
    · exact ih _ _ (Or.inr (by simp))

theorem strconv.FormatNat_all (n : Nat) : ∀ c ∈ strconv.FormatNat n, strconv.isDigit c = true :=
  strconv.digits_all _ _ _ (by simp)

theorem strconv.FormatNat_ne_nil (n : Nat) : strconv.FormatNat n ≠ [] :=
  strconv.digits_ne_nil _ _ _ (Or.inl (by omega))

theorem strconv.isTwoDecimals_of_shape (neg : Bool) (D : Bytes) (d1 d2 : Nat)
    (hne : D ≠ []) (hall : ∀ c ∈ D, strconv.isDigit c = true)
    (hd1 : strconv.isDigit d1 = true) (hd2 : strconv.isDigit d2 = true) :
    strconv.isTwoDecimals ((if neg then [45] else []) ++ D ++ [46, d1, d2]) = true := by
  cases D with
  | nil => exact absurd rfl hne
  | cons d ds =>
    have hd : strconv.isDigit d = true := hall d (by simp)
    have hds : ∀ c ∈ ds, strconv.isDigit c = true := fun c hc => hall c (by simp [hc])
    have hd45 : d ≠ 45 := by
      intro h; subst h; simp [strconv.isDigit] at hd
    cases neg
    · simp [strconv.isTwoDecimals, hd1, hd2]
      exact ⟨hd, hds⟩
    · simp [strconv.isTwoDecimals, hd1, hd2, hd]
      exact hds

/-- The text `%0.2f` gives for a finite value has exactly two digits after the point. -/
theorem fmt.Sprintf_0_2f_finite (neg : Bool) (mant : Nat) (exp : Int) :
    strconv.isTwoDecimals (fmt.Sprintf_0_2f (float64.finite neg mant exp)) = true := by
  have hd1 : strconv.isDigit (48 + strconv.roundCents mant exp % 100 / 10) = true := by
    simp [strconv.isDigit]; omega
  have hd2 : strconv.isDigit (48 + strconv.roundCents mant exp % 10) = true := by
    simp [strconv.isDigit]; omega
  exact strconv.isTwoDecimals_of_shape neg _ _ _ (strconv.FormatNat_ne_nil _)
    (strconv.FormatNat_all _) hd1 hd2

/-- `QueryEscape` leaves a text of unreserved bytes unchanged. -/
theorem url.QueryEscape_of_unreserved : ∀ (v : Bytes),
    (∀ c ∈ v, url.shouldEscape c = false) → url.QueryEscape v = v := by
  intro v
  induction v with
  | nil => intro _; rfl
  | cons c cs ih =>
    intro h
    have hc := h c (by simp)
    have hcs := ih (fun x hx => h x (by simp [hx]))
    have h32 : c ≠ 32 := by
      intro h0; subst h0; simp [url.shouldEscape] at hc
    simp [url.QueryEscape, hc, h32, hcs]

theorem url.shouldEscape_digit (c : Nat) (h : strconv.isDigit c = true) :
    url.shouldEscape c = false := by
  simp [strconv.isDigit] at h
  simp [url.shouldEscape]
  omega

theorem url.QueryEscape_Sprintf_0_2f_finite (neg : Bool) (mant : Nat) (exp : Int) :
    url.QueryEscape (fmt.Sprintf_0_2f (float64.finite neg mant exp))
      = fmt.Sprintf_0_2f (float64.finite neg mant exp) := by
  apply url.QueryEscape_of_unreserved
  intro c hc
  simp only [fmt.Sprintf_0_2f, List.mem_append, List.mem_cons] at hc
  rcases hc with (hc | hc) | hc
  · cases neg <;> simp at hc
    subst hc; simp [url.shouldEscape]
  · exact url.shouldEscape_digit c (strconv.FormatNat_all _ c hc)
  · rcases hc with rfl | rfl | rfl | hc
    · simp [url.shouldEscape]
    · apply url.shouldEscape_digit; simp [strconv.isDigit]; omega
    · apply url.shouldEscape_digit; simp [strconv.isDigit]; omega
    · simp at hc

/-- The query string of the three parameters of the exchange-rate lookup. -/
theorem url.Encode_from_to_amount (f t a : Bytes) :
    ((((⟨[]⟩ : url.Values).Add (B "from") f).Add (B "to") t).Add (B "amount") a).Encode
      = B "amount=" ++ url.QueryEscape a ++ B "&from=" ++ url.QueryEscape f
        ++ B "&to=" ++ url.QueryEscape t := by
  have h1 : (B "from" = B "to") = False := by decide
  have h2 : (B "from" = B "amount") = False := by decide
  have h3 : (B "to" = B "amount") = False := by decide
  have e1 : url.QueryEscape (B "from") = B "from" := by decide
  have e2 : url.QueryEscape (B "to") = B "to" := by decide
  have e3 : url.QueryEscape (B "amount") = B "amount" := by decide
  have l1 : url.bytesLt (B "amount") (B "from") = true := by decide
  have l2 : url.bytesLt (B "from") (B "to") = true := by decide
  have l3 : url.bytesLt (B "from") (B "amount") = false := by decide
  have l4 : url.bytesLt (B "to") (B "amount") = false := by decide
  have l5 : url.bytesLt (B "amount") (B "to") = true := by decide
  have l6 : url.bytesLt (B "to") (B "from") = false := by decide
  have a1 : B "amount=" = B "amount" ++ [61] := by decide
  have a2 : B "&from=" = 38 :: (B "from" ++ [61]) := by decide
  have a3 : B "&to=" = 38 :: (B "to" ++ [61]) := by decide
  simp [url.Values.Encode, url.Values.Add, url.addEntry, url.sortByKey, url.insertByKey,
    url.encodeAll, url.encodeKey, h1, h2, h3, e1, e2, e3, l1, l2, l3, l4, l5, l6, a1, a2, a3]

/-! ## Lemmas on the messages of the scanner -/

namespace json

theorem scanner.error_inv (s : scanner) (c : Nat) (context : Bytes)
    (h : goodContext context = true) : (s.error c context).1.Inv := by
  intro e he
  simp only [scanner.error, Option.some.injEq] at he
  subst he
  have h1 : (B "invalid character " ++ quoteChar c ++ B " " ++ context).head? = some 105 := by
    rfl
  have h2 : (B "invalid character " ++ quoteChar c ++ B " " ++ context).getLast?
      = context.getLast? := by
    rw [List.getLast?_append]
    cases hc : context.getLast? with
    | none => simp [goodContext, hc] at h
    | some x => simp
  simp only [goodMsg, h1, h2]
  cases hc : context.getLast? with
  | none => simp [goodContext, hc] at h
  | some x => simpa [goodContext, hc] using h

theorem scanner.pushParseState_inv (s : scanner) (c : Nat) (ps : ParseState) (op : Op)
    (h : s.Inv) : (s.pushParseState c ps op).1.Inv := by
  unfold scanner.pushParseState
  simp only
  split
  · exact h
  · exact scanner.error_inv _ _ _ (by decide)

theorem scanner.popParseState_inv (s : scanner) (h : s.Inv) : s.popParseState.Inv := by
  unfold scanner.popParseState
  simp only
  split
  · exact h
  · exact h

theorem stateEndTop_inv (s : scanner) (c : Nat) (h : s.Inv) : (stateEndTop s c).1.Inv := by
  unfold stateEndTop
  split
  · exact scanner.error_inv _ _ _ (by decide)
  · exact h

theorem stateEndValue_inv (s : scanner) (c : Nat) (h : s.Inv) : (stateEndValue s c).1.Inv := by
  unfold stateEndValue
  repeat' split
  all_goals
    first
    | exact h
    | exact scanner.error_inv _ _ _ (by decide)
    | exact scanner.popParseState_inv _ h
    | exact stateEndTop_inv _ _ h

theorem stateBeginValue_inv (s : scanner) (c : Nat) (h : s.Inv) :
    (stateBeginValue s c).1.Inv := by
  unfold stateBeginValue
  repeat' split
  all_goals
    first
    | exact h
    | exact scanner.error_inv _ _ _ (by decide)
    | exact scanner.pushParseState_inv _ _ _ _ h

theorem stateBeginString_inv (s : scanner) (c : Nat) (h : s.Inv) :
    (stateBeginString s c).1.Inv := by
  unfold stateBeginString
  repeat' split
  all_goals
    first
    | exact h
    | exact scanner.error_inv _ _ _ (by decide)

theorem state0_inv (s : scanner) (c : Nat) (h : s.Inv) : (state0 s c).1.Inv := by
  unfold state0
  repeat' split
  all_goals
    first
    | exact h
    | exact stateEndValue_inv _ _ h

theorem stateESign_inv (s : scanner) (c : Nat) (h : s.Inv) : (stateESign s c).1.Inv := by
  unfold stateESign
  repeat' split
  all_goals
    first
    | exact h
    | exact scanner.error_inv _ _ _ (by decide)

theorem stateLit_inv (want : Nat) (next : Step) (context : Bytes) (s : scanner) (c : Nat)
    (hc : goodContext context = true) (h : s.Inv) : (stateLit want next context s c).1.Inv := by
  unfold stateLit
  split
  · exact h
  · exact scanner.error_inv _ _ _ hc

theorem stepRun_inv (step : Step) (s : scanner) (c : Nat) (h : s.Inv) :
    (step.run s c).1.Inv := by
  cases step
  case stateBeginValueOrEmpty =>
    simp only [Step.run, stateBeginValueOrEmpty]
    repeat' split
    · exact h
    · exact stateEndValue_inv _ _ h
    · exact stateBeginValue_inv _ _ h
  case stateBeginValue => exact stateBeginValue_inv _ _ h
  case stateBeginStringOrEmpty =>
    simp only [Step.run, stateBeginStringOrEmpty]
    repeat' split
    · exact h
    · exact stateEndValue_inv _ _ h
    · exact stateBeginString_inv _ _ h
  case stateBeginString => exact stateBeginString_inv _ _ h
  case stateEndValue => exact stateEndValue_inv _ _ h
  case stateEndTop => exact stateEndTop_inv _ _ h
  case stateInString =>
    simp only [Step.run, stateInString]
    repeat' split
    all_goals first | exact h | exact scanner.error_inv _ _ _ (by decide)
  case stateInStringEsc =>
    simp only [Step.run, stateInStringEsc]
    repeat' split
    all_goals first | exact h | exact scanner.error_inv _ _ _ (by decide)
  case stateInStringEscU =>
    simp only [Step.run, stateInStringEscUn]
    repeat' split
    all_goals first | exact h | exact scanner.error_inv _ _ _ (by decide)
  case stateInStringEscU1 =>
    simp only [Step.run, stateInStringEscUn]
    repeat' split
    all_goals first | exact h | exact scanner.error_inv _ _ _ (by decide)
  case stateInStringEscU12 =>
    simp only [Step.run, stateInStringEscUn]
    repeat' split
    all_goals first | exact h | exact scanner.error_inv _ _ _ (by decide)
  case stateInStringEscU123 =>
    simp only [Step.run, stateInStringEscUn]
    repeat' split
    all_goals first | exact h | exact scanner.error_inv _ _ _ (by decide)
  case stateNeg =>
    simp only [Step.run, stateNeg]
    repeat' split
    all_goals first | exact h | exact scanner.error_inv _ _ _ (by decide)
  case state1 =>
    simp only [Step.run, state1]
    repeat' split
    all_goals first | exact h | exact state0_inv _ _ h
  case state0 => exact state0_inv _ _ h
  case stateDot =>
    simp only [Step.run, stateDot]
    repeat' split
    all_goals first | exact h | exact scanner.error_inv _ _ _ (by decide)
  case stateDot0 =>
    simp only [Step.run, stateDot0]
    repeat' split
    all_goals first | exact h | exact stateEndValue_inv _ _ h
  case stateE =>
    simp only [Step.run, stateE]
    repeat' split
    all_goals first | exact h | exact stateESign_inv _ _ h
  case stateESign => exact stateESign_inv _ _ h
  case stateE0 =>
    simp only [Step.run, stateE0]
    repeat' split
    all_goals first | exact h | exact stateEndValue_inv _ _ h
  case stateError => exact h
  all_goals exact stateLit_inv _ _ _ _ _ (by decide) h

theorem checkValidFrom_inv (data : Bytes) : ∀ (s : scanner), s.Inv →
    ∀ e, checkValidFrom data s = some e → goodMsg e.msg = true := by
  induction data with
  | nil =>
    intro s h e he
    simp only [checkValidFrom, scanner.eof] at he
    have h1 := stepRun_inv s.step s 32 h
    repeat' split at he
    all_goals simp at he
    all_goals first
      | exact h e he
      | exact h1 e he
      | (subst he
         exact (by decide : goodMsg (B "unexpected end of JSON input") = true))
  | cons c cs ih =>
    intro s h e he
    simp only [checkValidFrom] at he
    have h1 : scanner.Inv { s with bytes := s.bytes + 1 } := h
    have h2 := stepRun_inv s.step { s with bytes := s.bytes + 1 } c h1
    split at he
    · exact h2 e he
    · exact ih _ h2 e he

/-- Every syntax error of `checkValid` has a message that starts with `i` or `u` and does
not end in `]`. -/
theorem checkValid_goodMsg (data : Bytes) (e : SyntaxError) (h : checkValid data = some e) :
    goodMsg e.msg = true :=
  checkValidFrom_inv data scanner.reset (by intro e he; simp [scanner.reset] at he) e h

end json

/-! ## The claims -/

/-- C1 (counterexample): `OrderService.WithId` answered with status 404 and the body
`not found`, without a transport error, returns an error whose text is not the raw body: the
text carries the status code in front of the body. -/
theorem C1_counterexample :
    (Call.invoke (World.const ⟨B "not found", 404, none⟩)
        (Call.OrderService_WithId ⟨B "sk_test", B "https://merchant.revolut.com"⟩
          (B "ord1"))).ret
      = Outcome.returned (Value.OrderResp none,
          some (errors.New (B "Status: 404\n\nResponse: not found")))
    ∧ (errors.New (B "Status: 404\n\nResponse: not found")).Error ≠ B "not found"
    ∧ (404 : Int) ∉ Call.successCodes
        (Call.OrderService_WithId ⟨B "sk_test", B "https://merchant.revolut.com"⟩ (B "ord1")) := by
  refine ⟨rfl, by decide, by decide⟩

/-- C1 (amended): for every endpoint method and every reply without a transport error whose
status `s` is not a documented success code of the endpoint, the method returns the `nil`
result and an error; for every method outside `OrderService` the text of the error is the raw
response body `b`, byte for byte; for `OrderService.Create` the text is `b` followed by
` [status: `, the decimal of `s` and `]`, and for `OrderService.WithId`, `Capture`, `Cancel`
and `Refund` it is `Status: `, the decimal of `s`, `\n\nResponse: ` and then `b`: the raw body
unchanged, at the start or at the end, together with the status code, and so never the raw
body alone. -/
theorem C1_error_text_of_rejected_status (w : World) (call : Call) (sent : Sent)
    (hcalls : (call.invoke w).calls = [sent])
    (herr : (w.reply sent).err = none)
    (hstatus : (w.reply sent).statusCode ∉ call.successCodes) :
    ∃ e, (call.invoke w).ret = Outcome.returned (call.nilValue, some e) ∧
      (call.isOrder = false → e.Error = (w.reply sent).resp) ∧
      (call.isOrder = true →
        e.Error ≠ (w.reply sent).resp ∧
        ((∃ a req, call = Call.OrderService_Create a req) →
          e.Error = (w.reply sent).resp ++ B " [status: "
            ++ strconv.Itoa (w.reply sent).statusCode ++ B "]") ∧
        ((∀ a req, call ≠ Call.OrderService_Create a req) →
          e.Error = B "Status: " ++ strconv.Itoa (w.reply sent).statusCode
            ++ B "\n\nResponse: " ++ (w.reply sent).resp)) := by
  refine ⟨errors.New (call.statusErrorText (w.reply sent).statusCode (w.reply sent).resp),
    ?_, ?_, ?_⟩
  · rw [invoke_of_reply w call sent hcalls herr, if_neg hstatus]
  · intro h
    cases call <;> simp_all [Call.isOrder, Call.statusErrorText, errors.New, GoError.Error]
  · intro h
    have hne1 : ∀ (x y : Bytes), y ≠ [] → x ++ y ≠ x := by
      intro x y hy hxy
      have := congrArg List.length hxy
      simp at this
      exact hy this
    have hne2 : ∀ (x y : Bytes), y ≠ [] → y ++ x ≠ x := by
      intro x y hy hxy
      have := congrArg List.length hxy
      simp at this
      exact hy this
    cases call
    all_goals (first | (simp [Call.isOrder] at h; done) | skip)
    all_goals simp only [Call.statusErrorText, errors.New, GoError.Error, List.append_assoc]
    · refine ⟨hne1 _ _ (List.append_ne_nil_of_left_ne_nil (by decide) _),
        fun _ => by first | rfl | trivial, ?_⟩
      intro hno
      exact absurd rfl (hno _ _)
    all_goals
      refine ⟨?_, ?_, fun _ => by first | rfl | trivial⟩
      · have := hne2 (w.reply sent).resp
          (B "Status: " ++ (strconv.Itoa (w.reply sent).statusCode ++ B "\n\nResponse: "))
          (List.append_ne_nil_of_left_ne_nil (by decide) _)
        simpa using this
      · rintro ⟨a, req, hc⟩
        cases hc

/-- C1 (witness): `OrderService.Create` answered with status 400 and the body `bad`
returns the text `bad [status: 400]`. -/
theorem C1_error_text_of_rejected_status_witness :
    ((Call.invoke (World.const ⟨B "bad", 400, none⟩)
        (Call.OrderService_Create ⟨B "sk_test", B "https://merchant.revolut.com"⟩ none)).calls
      = [Sent.merchant
          { Method := http.MethodPost, Url := B "https://merchant.revolut.com/api/1.0/orders",
            ApiKey := B "sk_test", Body := merchant.request.Body.OrderReq none,
            ContentType := B "application/json" }]
      ∧ (400 : Int) ∉ (Call.OrderService_Create
          ⟨B "sk_test", B "https://merchant.revolut.com"⟩ none).successCodes)
    ∧ ∃ e, (Call.invoke (World.const ⟨B "bad", 400, none⟩)
        (Call.OrderService_Create ⟨B "sk_test", B "https://merchant.revolut.com"⟩ none)).ret
          = Outcome.returned (Value.OrderResp none, some e) ∧
        e.Error ≠ B "bad" ∧ e.Error = B "bad [status: 400]" := by
  obtain ⟨e, hret, _, horder⟩ := C1_error_text_of_rejected_status
    (World.const ⟨B "bad", 400, none⟩)
    (Call.OrderService_Create ⟨B "sk_test", B "https://merchant.revolut.com"⟩ none)
    (Sent.merchant
      { Method := http.MethodPost, Url := B "https://merchant.revolut.com/api/1.0/orders",
        ApiKey := B "sk_test", Body := merchant.request.Body.OrderReq none,
        ContentType := B "application/json" })
    rfl rfl (by decide)
  refine ⟨⟨rfl, by decide⟩, e, hret, (horder rfl).1, ?_⟩
  rw [(horder rfl).2.1 ⟨_, _, rfl⟩]
  decide

/-- C2: on a reply without a transport error whose status `s` is not a documented success
code, with body `b`, `OrderService.Create` returns the error text
`b ++ " [status: " ++ decimal(s) ++ "]"`, `OrderService.WithId`, `Capture`, `Cancel` and
`Refund` return `"Status: " ++ decimal(s) ++ "\n\nResponse: " ++ b`, and every method of
the business services and `CustomerService.Create` return exactly `b`; the result is `nil`
in every case. -/
theorem C2_status_in_error_text (w : World) (call : Call) (sent : Sent)
    (hcalls : (call.invoke w).calls = [sent])
    (herr : (w.reply sent).err = none)
    (hstatus : (w.reply sent).statusCode ∉ call.successCodes) :
    (call.invoke w).ret = Outcome.returned (call.nilValue, some (errors.New
      (match call with
       | Call.OrderService_Create _ _ =>
         (w.reply sent).resp ++ B " [status: " ++ strconv.Itoa (w.reply sent).statusCode ++ B "]"
       | Call.OrderService_WithId _ _ | Call.OrderService_Capture _ _
       | Call.OrderService_Cancel _ _ | Call.OrderService_Refund _ _ _ =>
         B "Status: " ++ strconv.Itoa (w.reply sent).statusCode ++ B "\n\nResponse: "
           ++ (w.reply sent).resp
       | _ => (w.reply sent).resp))) := by
  rw [invoke_of_reply w call sent hcalls herr, if_neg hstatus]
  cases call <;> rfl

/-- C2 (witness): `OrderService.Create` answered with status 400 and the body `bad`. -/
theorem C2_status_in_error_text_witness :
    ((Call.invoke (World.const ⟨B "bad", 400, none⟩)
        (Call.OrderService_Create ⟨B "sk_test", B "https://merchant.revolut.com"⟩ none)).calls
      = [Sent.merchant
          { Method := http.MethodPost, Url := B "https://merchant.revolut.com/api/1.0/orders",
            ApiKey := B "sk_test", Body := merchant.request.Body.OrderReq none,
            ContentType := B "application/json" }]
      ∧ (400 : Int) ∉
        (Call.OrderService_Create ⟨B "sk_test", B "https://merchant.revolut.com"⟩
          none).successCodes)
    ∧ (Call.invoke (World.const ⟨B "bad", 400, none⟩)
        (Call.OrderService_Create ⟨B "sk_test", B "https://merchant.revolut.com"⟩ none)).ret
      = Outcome.returned (Value.OrderResp none, some (errors.New (B "bad [status: 400]"))) :=
  ⟨⟨rfl, by decide⟩,
    C2_status_in_error_text (World.const ⟨B "bad", 400, none⟩)
      (Call.OrderService_Create ⟨B "sk_test", B "https://merchant.revolut.com"⟩ none)
      (Sent.merchant
        { Method := http.MethodPost, Url := B "https://merchant.revolut.com/api/1.0/orders",
          ApiKey := B "sk_test", Body := merchant.request.Body.OrderReq none,
          ContentType := B "application/json" })
      rfl rfl (by decide)⟩

/-- C3 (the code at the failing input): `CustomerService.Create` answered with status 200
and the well-formed body `{"id":"c1","email":"a@b.c"}`, without a transport error, returns
the `nil` result and the error of `json.Unmarshal` about its `nil` target, not the decoded
customer. -/
theorem C3_customer_create_returns_no_customer :
    (merchant.CustomerService.Create
        (merchant.Env.const ⟨B "\x7b\"id\":\"c1\",\"email\":\"a@b.c\"\x7d", 200, none⟩)
        ⟨B "sk_test", B "https://merchant.revolut.com"⟩
        (some ⟨B "Ann", B "", B "a@b.c", B ""⟩)).ret
      = (none, some (GoError.jsonInvalidUnmarshal (B "*merchant.CreateCustomerResp")))
    ∧ json.checkValid (B "\x7b\"id\":\"c1\",\"email\":\"a@b.c\"\x7d") = none := by
  refine ⟨?_, by decide⟩
  simp [merchant.CustomerService.Create, merchant.Env.const, json.UnmarshalNil,
    http.StatusOK]

/-- Every method, on a reply without a transport error that carries a documented success
code and a body that `json.Unmarshal` decodes into the value `v` without error, returns `v`
and no error.  For `CustomerService.Create` the decoding never ends without error
(`json.UnmarshalNil`), so the statement says nothing about it. -/
theorem invoke_of_decoded_body (w : World) (call : Call) (sent : Sent) (v : Value)
    (hcalls : (call.invoke w).calls = [sent])
    (herr : (w.reply sent).err = none)
    (hstatus : (w.reply sent).statusCode ∈ call.successCodes)
    (hdec : call.decoded w (w.reply sent).resp = (v, none)) :
    (call.invoke w).ret = Outcome.returned (v, none) := by
  rw [invoke_of_reply w call sent hcalls herr, if_pos hstatus, hdec]

/-- C4: for each deletion endpoint (`CounterpartyService.Delete`,
`PaymentDraftService.Delete`, `WebhookService.Delete`) with no configuration error (the
request reaches the transport) and no transport error, the method returns `nil` if and only
if the status code is 204; with every other status code it returns the error built from the
response body. -/
theorem C4_delete_succeeds_iff_204 (w : World) (call : Call) (sent : Sent)
    (hdel : call.isDelete = true)
    (hcalls : (call.invoke w).calls = [sent])
    (herr : (w.reply sent).err = none) :
    ((call.invoke w).ret = Outcome.returned (Value.unit, none)
        ↔ (w.reply sent).statusCode = 204) ∧
    ((w.reply sent).statusCode ≠ 204 →
      (call.invoke w).ret
        = Outcome.returned (Value.unit, some (errors.New (w.reply sent).resp))) := by
  rw [invoke_of_reply w call sent hcalls herr]
  cases call
  all_goals (first | (simp [Call.isDelete] at hdel; done) | skip)
  all_goals
    by_cases hs : (w.reply sent).statusCode = 204 <;>
      simp [Call.successCodes, Call.decoded, Call.nilValue, Call.statusErrorText, hs]

/-- C4 (witness): `PaymentDraftService.Delete` answered with status 200 and a non-empty
body returns an error. -/
theorem C4_delete_succeeds_iff_204_witness :
    ((Call.PaymentDraftService_Delete ⟨B "tok", false, none⟩ (B "d1")).isDelete = true
      ∧ (Call.invoke (World.const ⟨B "\x7b\"ok\":true\x7d", 200, none⟩)
          (Call.PaymentDraftService_Delete ⟨B "tok", false, none⟩ (B "d1"))).calls
        = [Sent.business
            { Method := http.MethodDelete,
              Url := B "https://b2b.revolut.com/api/1.0/payment-drafts/d1",
              AccessToken := B "tok", Sandbox := false, Body := business.request.Body.nil,
              ContentType := [] }])
    ∧ (((Call.invoke (World.const ⟨B "\x7b\"ok\":true\x7d", 200, none⟩)
          (Call.PaymentDraftService_Delete ⟨B "tok", false, none⟩ (B "d1"))).ret
        = Outcome.returned (Value.unit, none) ↔ (200 : Int) = 204) ∧
      ((200 : Int) ≠ 204 →
        (Call.invoke (World.const ⟨B "\x7b\"ok\":true\x7d", 200, none⟩)
          (Call.PaymentDraftService_Delete ⟨B "tok", false, none⟩ (B "d1"))).ret
        = Outcome.returned (Value.unit, some (errors.New (B "\x7b\"ok\":true\x7d"))))) :=
  ⟨⟨rfl, rfl⟩,
    C4_delete_succeeds_iff_204 (World.const ⟨B "\x7b\"ok\":true\x7d", 200, none⟩)
      (Call.PaymentDraftService_Delete ⟨B "tok", false, none⟩ (B "d1"))
      (Sent.business
        { Method := http.MethodDelete,
          Url := B "https://b2b.revolut.com/api/1.0/payment-drafts/d1",
          AccessToken := B "tok", Sandbox := false, Body := business.request.Body.nil,
          ContentType := [] })
      rfl rfl rfl⟩

/-- C5: with no transport error, `OrderService.Create` lets the reply through its status
check exactly when the status code is 200 or 201, and `OrderService.Capture`, `Cancel` and
`Refund` (as `WithId`) exactly when it is 200: a reply that passes is decoded into the
declared response type, every other reply is returned as the status error. -/
theorem C5_order_status_check (w : World) (call : Call) (sent : Sent)
    (horder : call.isOrder = true)
    (hcalls : (call.invoke w).calls = [sent])
    (herr : (w.reply sent).err = none) :
    ((match call with
      | Call.OrderService_Create _ _ =>
        (w.reply sent).statusCode = 200 ∨ (w.reply sent).statusCode = 201
      | _ => (w.reply sent).statusCode = 200) →
      (call.invoke w).ret = Outcome.returned
        (match call with
         | Call.OrderService_Refund _ _ _ =>
           decodedPtr Value.RefundResp
             (json.Unmarshal w.merchant.populateRefundResp (w.reply sent).resp default)
         | _ =>
           decodedPtr Value.OrderResp
             (json.Unmarshal w.merchant.populateOrderResp (w.reply sent).resp default))) ∧
    (¬ (match call with
        | Call.OrderService_Create _ _ =>
          (w.reply sent).statusCode = 200 ∨ (w.reply sent).statusCode = 201
        | _ => (w.reply sent).statusCode = 200) →
      (call.invoke w).ret = Outcome.returned
        (call.nilValue, some (errors.New
          (call.statusErrorText (w.reply sent).statusCode (w.reply sent).resp)))) := by
  rw [invoke_of_reply w call sent hcalls herr]
  cases call
  all_goals (first | (simp [Call.isOrder] at horder; done) | skip)
  all_goals
    simp only [Call.successCodes, Call.decoded, List.mem_cons, List.mem_singleton,
      List.not_mem_nil, or_false]
    constructor
    · intro h
      rw [if_pos h]
    · intro h
      rw [if_neg h]

/-- C5 (witness): a 201 reply to `OrderService.Create` is decoded as an order, and a 201
reply to `OrderService.Capture` is returned as an error. -/
theorem C5_order_status_check_witness :
    ((Call.OrderService_Create ⟨B "sk_test", B "https://merchant.revolut.com"⟩ none).isOrder
        = true
      ∧ (Call.OrderService_Capture ⟨B "sk_test", B "https://merchant.revolut.com"⟩
          (B "o1")).isOrder = true)
    ∧ (Call.invoke (World.const ⟨B "\x7b\"id\":\"o1\"\x7d", 201, none⟩)
        (Call.OrderService_Create ⟨B "sk_test", B "https://merchant.revolut.com"⟩ none)).ret
      = Outcome.returned (Value.OrderResp (some default), none)
    ∧ (Call.invoke (World.const ⟨B "\x7b\"id\":\"o1\"\x7d", 201, none⟩)
        (Call.OrderService_Capture ⟨B "sk_test", B "https://merchant.revolut.com"⟩
          (B "o1"))).ret
      = Outcome.returned (Value.OrderResp none,
          some (errors.New (B "Status: 201\n\nResponse: \x7b\"id\":\"o1\"\x7d"))) := by
  have h1 := (C5_order_status_check (World.const ⟨B "\x7b\"id\":\"o1\"\x7d", 201, none⟩)
      (Call.OrderService_Create ⟨B "sk_test", B "https://merchant.revolut.com"⟩ none)
      (Sent.merchant
        { Method := http.MethodPost, Url := B "https://merchant.revolut.com/api/1.0/orders",
          ApiKey := B "sk_test", Body := merchant.request.Body.OrderReq none,
          ContentType := B "application/json" })
      rfl rfl rfl).1 (Or.inr rfl)
  have h2 := (C5_order_status_check (World.const ⟨B "\x7b\"id\":\"o1\"\x7d", 201, none⟩)
      (Call.OrderService_Capture ⟨B "sk_test", B "https://merchant.revolut.com"⟩ (B "o1"))
      (Sent.merchant
        { Method := http.MethodPost,
          Url := B "https://merchant.revolut.com/api/1.0/orders/o1/capture",
          ApiKey := B "sk_test", Body := merchant.request.Body.nil, ContentType := [] })
      rfl rfl rfl).2 (by decide)
  have hv : json.checkValid (B "\x7b\"id\":\"o1\"\x7d") = none := by decide
  refine ⟨⟨rfl, rfl⟩, h1.trans ?_, h2.trans rfl⟩
  simp [decodedPtr, json.Unmarshal, hv, merchant.Env.const, World.const, World.reply]

/-- C6: for every method of the business services (`AccountService`,
`CounterpartyService`, `ExchangeService`, `PaymentDraftService`, `WebhookService`) and every
argument value: if the stored configuration error of the service is not `nil`, the method
returns exactly that error, with the `nil` result where it has a result, and hands no
request to the transport. -/
theorem C6_stored_error_short_circuits (w : World) (call : Call) (e : GoError)
    (h : call.storedErr = some e) :
    call.isBusiness = true ∧
    (call.invoke w).calls = [] ∧
    (call.invoke w).ret = Outcome.returned (call.nilValue, some e) := by
  rw [invoke_of_storedErr w call e h]
  refine ⟨?_, rfl, rfl⟩
  cases call <;> simp_all [Call.storedErr, Call.isBusiness]

/-- C6 (witness): `ExchangeService.Rate` on a service with a stored error, called with a
`nil` request. -/
theorem C6_stored_error_short_circuits_witness :
    (Call.ExchangeService_Rate ⟨B "", false, some (errors.New (B "missing access token"))⟩
        none).storedErr = some (errors.New (B "missing access token"))
    ∧ (Call.ExchangeService_Rate ⟨B "", false, some (errors.New (B "missing access token"))⟩
        none).isBusiness = true
    ∧ (Call.invoke (World.const ⟨B "\x7b\x7d", 200, none⟩)
        (Call.ExchangeService_Rate
          ⟨B "", false, some (errors.New (B "missing access token"))⟩ none)).calls = []
    ∧ (Call.invoke (World.const ⟨B "\x7b\x7d", 200, none⟩)
        (Call.ExchangeService_Rate
          ⟨B "", false, some (errors.New (B "missing access token"))⟩ none)).ret
      = Outcome.returned
          (Value.ExchangeRateResp none, some (errors.New (B "missing access token"))) :=
  ⟨rfl,
    C6_stored_error_short_circuits (World.const ⟨B "\x7b\x7d", 200, none⟩)
      (Call.ExchangeService_Rate ⟨B "", false, some (errors.New (B "missing access token"))⟩
        none)
      (errors.New (B "missing access token")) rfl⟩

/-- C7 (the code at the failing input): `CounterpartyService.Delete` on a transport that
fails with the error `dial tcp: connection refused` (no body, status 0) returns a new error
with the empty text, not the transport error. -/
theorem C7_counterparty_delete_drops_transport_error :
    (business.CounterpartyService.Delete
        (business.Env.const ⟨[], 0, some (GoError.other 1 (B "dial tcp: connection refused"))⟩)
        ⟨B "tok", false, none⟩ (B "cp1")).ret
      = some (errors.New [])
    ∧ errors.New [] ≠ GoError.other 1 (B "dial tcp: connection refused")
    ∧ (errors.New []).Error ≠ (GoError.other 1 (B "dial tcp: connection refused")).Error := by
  refine ⟨rfl, by decide, by decide⟩

/-- C8 (counterexample): for a request whose `Amount` is a NaN, the URL that
`ExchangeService.Rate` requests is `.../rate?amount=NaN&from=USD&to=EUR`; its amount
parameter is no decimal number with two digits after the point. -/
theorem C8_counterexample :
    (business.ExchangeService.Rate (business.Env.const ⟨B "\x7b\x7d", 200, none⟩)
        ⟨B "tok", false, none⟩ (some ⟨B "USD", B "EUR", float64.nan⟩)).calls.map
          (fun cfg => cfg.Url)
      = [B "https://b2b.revolut.com/api/1.0/rate?amount=NaN&from=USD&to=EUR"]
    ∧ ¬ ∃ v, strconv.isTwoDecimals v = true ∧
        (business.ExchangeService.Rate (business.Env.const ⟨B "\x7b\x7d", 200, none⟩)
          ⟨B "tok", false, none⟩ (some ⟨B "USD", B "EUR", float64.nan⟩)).calls.map
            (fun cfg => cfg.Url)
        = [B "https://b2b.revolut.com/api/1.0/rate?amount=" ++ v ++ B "&from=USD&to=EUR"] := by
  have hurl : (business.ExchangeService.Rate (business.Env.const ⟨B "\x7b\x7d", 200, none⟩)
        ⟨B "tok", false, none⟩ (some ⟨B "USD", B "EUR", float64.nan⟩)).calls.map
          (fun cfg => cfg.Url)
      = [B "https://b2b.revolut.com/api/1.0/rate?amount=" ++ B "NaN" ++ B "&from=USD&to=EUR"] := by
    decide
  refine ⟨by decide, ?_⟩
  rintro ⟨v, hv, h⟩
  rw [hurl] at h
  have h1 := List.cons.inj h
  have h2 := List.append_cancel_right h1.1
  have h3 := List.append_cancel_left h2
  rw [← h3] at hv
  exact absurd hv (by decide)

/-- C8 (amended): for every `ExchangeRateReq` whose `Amount` is a finite number, with no
configuration error, `ExchangeService.Rate` hands the transport exactly one request, whose
URL is `https://b2b.revolut.com/api/1.0/rate?` followed by `amount=`, the `Amount` rounded
to the nearest hundredth and written with exactly two digits after the decimal point,
`&from=` and `&to=` with the escaped `From` and `To`. -/
theorem C8_amount_has_two_decimals (env : business.Env) (e : business.ExchangeService)
    (req : business.ExchangeRateReq) (neg : Bool) (mant : Nat) (exp : Int)
    (herr : e.err = none)
    (hfinite : req.Amount = float64.finite neg mant exp) :
    (business.ExchangeService.Rate env e (some req)).calls.map (fun cfg => cfg.Url)
      = [B "https://b2b.revolut.com/api/1.0/rate?" ++ B "amount="
          ++ fmt.Sprintf_0_2f req.Amount
          ++ B "&from=" ++ url.QueryEscape req.From ++ B "&to=" ++ url.QueryEscape req.To]
    ∧ strconv.isTwoDecimals (fmt.Sprintf_0_2f req.Amount) = true
    ∧ fmt.Sprintf_0_2f req.Amount
        = (if neg then [45] else []) ++ strconv.FormatNat (strconv.roundCents mant exp / 100)
          ++ [46, 48 + strconv.roundCents mant exp % 100 / 10,
              48 + strconv.roundCents mant exp % 10] := by
  refine ⟨?_, ?_, ?_⟩
  · simp only [business.ExchangeService.Rate, herr, List.map, url.Encode_from_to_amount]
    rw [hfinite, url.QueryEscape_Sprintf_0_2f_finite]
    simp
  · rw [hfinite]; exact fmt.Sprintf_0_2f_finite neg mant exp
  · rw [hfinite]; rfl

/-- C8 (witness): for `Amount = 1` (the double `2^52 * 2^-52`) the query string contains
`amount=1.00`. -/
theorem C8_amount_has_two_decimals_witness :
    (business.ExchangeService.Rate (business.Env.const ⟨B "\x7b\x7d", 200, none⟩)
        ⟨B "tok", false, none⟩
        (some ⟨B "USD", B "EUR", float64.finite false 4503599627370496 (-52)⟩)).calls.map
          (fun cfg => cfg.Url)
      = [B "https://b2b.revolut.com/api/1.0/rate?amount=1.00&from=USD&to=EUR"]
    ∧ strconv.isTwoDecimals (B "1.00") = true
    ∧ B "1.00" = B "1" ++ [46, 48, 48] := by
  have h := C8_amount_has_two_decimals (business.Env.const ⟨B "\x7b\x7d", 200, none⟩)
    ⟨B "tok", false, none⟩
    ⟨B "USD", B "EUR", float64.finite false 4503599627370496 (-52)⟩ false 4503599627370496
    (-52) rfl rfl
  have hf : fmt.Sprintf_0_2f (float64.finite false 4503599627370496 (-52)) = B "1.00" := by
    decide
  have hu : B "https://b2b.revolut.com/api/1.0/rate?" ++ B "amount=" ++ B "1.00"
      ++ B "&from=" ++ url.QueryEscape (B "USD") ++ B "&to=" ++ url.QueryEscape (B "EUR")
      = B "https://b2b.revolut.com/api/1.0/rate?amount=1.00&from=USD&to=EUR" := by decide
  simp only [hf] at h
  rw [hu] at h
  exact ⟨h.1, h.2.1, by decide⟩

/-- C9: each of the list endpoints `AccountService.List` and `CounterpartyService.List`, on
its own: with no configuration error the method hands its one request to the transport, and
when the reply to that request has status 200, no transport error and as its body the array
without elements (`[]`, with or without white space), the method returns no error and an
empty collection, of length 0, whatever the decoder does on other documents. -/
theorem C9_empty_array_decodes_to_empty_list (env : business.Env) :
    (json.checkValid (B "[]") = none ∧ json.isEmptyArray (B "[]") = true) ∧
    (∀ (a : business.AccountService), a.err = none →
      (business.AccountService.List env a).calls
        = [{ Method := http.MethodGet, Url := B "https://b2b.revolut.com/api/1.0/accounts",
             AccessToken := a.accessToken, Sandbox := a.sandbox,
             Body := business.request.Body.nil, ContentType := [] }] ∧
      (∀ body, json.checkValid body = none → json.isEmptyArray body = true →
        env.New { Method := http.MethodGet,
                  Url := B "https://b2b.revolut.com/api/1.0/accounts",
                  AccessToken := a.accessToken, Sandbox := a.sandbox,
                  Body := business.request.Body.nil, ContentType := [] }
          = ⟨body, 200, none⟩ →
        (business.AccountService.List env a).ret = (some [], none) ∧
        (business.AccountService.List env a).ret.2 = none ∧
        Slice.len (business.AccountService.List env a).ret.1 = 0)) ∧
    (∀ (c : business.CounterpartyService), c.err = none →
      (business.CounterpartyService.List env c).calls
        = [{ Method := http.MethodGet,
             Url := B "https://b2b.revolut.com/api/1.0/counterparties",
             AccessToken := c.accessToken, Sandbox := c.sandbox,
             Body := business.request.Body.nil, ContentType := [] }] ∧
      (∀ body, json.checkValid body = none → json.isEmptyArray body = true →
        env.New { Method := http.MethodGet,
                  Url := B "https://b2b.revolut.com/api/1.0/counterparties",
                  AccessToken := c.accessToken, Sandbox := c.sandbox,
                  Body := business.request.Body.nil, ContentType := [] }
          = ⟨body, 200, none⟩ →
        (business.CounterpartyService.List env c).ret = (some [], none) ∧
        (business.CounterpartyService.List env c).ret.2 = none ∧
        Slice.len (business.CounterpartyService.List env c).ret.1 = 0)) := by
  refine ⟨⟨by decide, by decide⟩, ?_, ?_⟩
  · intro a ha
    refine ⟨by simp [business.AccountService.List, ha], ?_⟩
    intro body hv he hreply
    have h1 : (business.AccountService.List env a).ret = (some [], none) := by
      simp [business.AccountService.List, ha, hreply, http.StatusOK, json.Unmarshal,
        json.populateSlice, hv, he]
    refine ⟨h1, ?_, ?_⟩
    · rw [h1]
    · rw [h1]; rfl
  · intro c hc
    refine ⟨by simp [business.CounterpartyService.List, hc], ?_⟩
    intro body hv he hreply
    have h2 : (business.CounterpartyService.List env c).ret = (some [], none) := by
      simp [business.CounterpartyService.List, hc, hreply, http.StatusOK, json.Unmarshal,
        json.populateSlice, hv, he]
    refine ⟨h2, ?_, ?_⟩
    · rw [h2]
    · rw [h2]; rfl

/-- C9 (witness): `CounterpartyService.List` alone on a transport that answers `[]` with
status 200. -/
theorem C9_empty_array_decodes_to_empty_list_witness :
    (business.CounterpartyService.List (business.Env.const ⟨B "[]", 200, none⟩)
        ⟨B "tok", true, none⟩).ret = (some [], none) ∧
    Slice.len (business.CounterpartyService.List (business.Env.const ⟨B "[]", 200, none⟩)
        ⟨B "tok", true, none⟩).ret.1 = 0 := by
  have h := ((C9_empty_array_decodes_to_empty_list
    (business.Env.const ⟨B "[]", 200, none⟩)).2.2 ⟨B "tok", true, none⟩ rfl).2
      (B "[]") (by decide) (by decide) rfl
  exact ⟨h.1, h.2.2⟩

/-- C10 (counterexample): `AccountService.WithId` answered with status 200 and the body
`invalid character 'i' looking for beginning of value`, which is not well-formed JSON,
returns the decoder's syntax error, and the text of that error is the raw body: the very
text of the error that the same body gives with the rejected status 500. -/
theorem C10_counterexample :
    json.checkValid (B "invalid character 'i' looking for beginning of value")
      = some ⟨B "invalid character 'i' looking for beginning of value", 1⟩
    ∧ (business.AccountService.WithId
        (business.Env.const ⟨B "invalid character 'i' looking for beginning of value", 200, none⟩)
        ⟨B "tok", false, none⟩ (B "acc1")).ret
      = (none, some (GoError.jsonSyntax
          ⟨B "invalid character 'i' looking for beginning of value", 1⟩))
    ∧ (business.AccountService.WithId
        (business.Env.const ⟨B "invalid character 'i' looking for beginning of value", 500, none⟩)
        ⟨B "tok", false, none⟩ (B "acc1")).ret
      = (none, some (errors.New (B "invalid character 'i' looking for beginning of value")))
    ∧ (GoError.jsonSyntax ⟨B "invalid character 'i' looking for beginning of value", 1⟩).Error
      = (errors.New (B "invalid character 'i' looking for beginning of value")).Error := by
  have h : json.checkValid (B "invalid character 'i' looking for beginning of value")
      = some ⟨B "invalid character 'i' looking for beginning of value", 1⟩ := by decide
  refine ⟨h, ?_, rfl, rfl⟩
  simp [business.AccountService.WithId, business.Env.const, json.Unmarshal, h, http.StatusOK]

/-- C10 (amended): for every endpoint method that decodes a response, when the reply has no
transport error and a documented success status code but a body that is not well-formed
JSON, the method returns the `nil` result and the decoder's error: what `json.Unmarshal`
gives for that body, a syntax error, or for `CustomerService.Create`, whose target is a `nil`
pointer, the invalid-unmarshal error.  That error is a different error value from every
API-status error (which is built by `errors.New`), and for the methods of `OrderService` its
text differs from the status-and-body text of every status code; for the other methods its
text can be the raw body itself. -/
theorem C10_malformed_body_gives_decoder_error (w : World) (call : Call) (sent : Sent)
    (hdec : call.decodes = true)
    (hcalls : (call.invoke w).calls = [sent])
    (herr : (w.reply sent).err = none)
    (hstatus : (w.reply sent).statusCode ∈ call.successCodes)
    (hbad : json.checkValid (w.reply sent).resp ≠ none) :
    ∃ e, (call.invoke w).ret = Outcome.returned (call.nilValue, some e) ∧
      call.decoded w (w.reply sent).resp = (call.nilValue, some e) ∧
      ((∃ se, e = GoError.jsonSyntax se) ∨ (∃ typ, e = GoError.jsonInvalidUnmarshal typ)) ∧
      (∀ text, e ≠ errors.New text) ∧
      (call.isOrder = true →
        ∀ s, e.Error ≠ call.statusErrorText s (w.reply sent).resp) := by
  cases hse : json.checkValid (w.reply sent).resp with
  | none => exact absurd hse hbad
  | some se =>
    have hgood := json.checkValid_goodMsg _ se hse
    have hd : ∃ e, call.decoded w (w.reply sent).resp = (call.nilValue, some e) ∧
        ((e = GoError.jsonSyntax se) ∨ (∃ typ, e = GoError.jsonInvalidUnmarshal typ)) ∧
        (call.isOrder = true → e = GoError.jsonSyntax se) := by
      cases call
      all_goals (first | (simp [Call.decodes] at hdec; done) | skip)
      all_goals
        simp [Call.decoded, Call.nilValue, Call.isOrder, decodedPtr, decodedSlice,
          json.Unmarshal, json.UnmarshalNil, hse]
    obtain ⟨e, hde, hkind, horder⟩ := hd
    refine ⟨e, ?_, hde, ?_, ?_, ?_⟩
    · rw [invoke_of_reply w call sent hcalls herr, if_pos hstatus, hde]
    · rcases hkind with h | ⟨typ, h⟩
      · exact Or.inl ⟨se, h⟩
      · exact Or.inr ⟨typ, h⟩
    · intro text h
      rcases hkind with hk | ⟨typ, hk⟩ <;> rw [hk] at h <;> simp [errors.New] at h
    · intro hord s h
      rw [horder hord] at h
      simp only [GoError.Error] at h
      rw [h] at hgood
      cases call
      all_goals (first | (simp [Call.isOrder] at hord; done) | skip)
      · have hl : ((w.reply sent).resp ++ B " [status: " ++ strconv.Itoa s ++ B "]").getLast?
            = some 93 := by
          rw [List.getLast?_append]
          rfl
        have hf : json.goodMsg ((w.reply sent).resp ++ B " [status: " ++ strconv.Itoa s ++ B "]")
            = false := by
          unfold json.goodMsg
          rw [hl]
          simp
        rw [show (Call.OrderService_Create _ _).statusErrorText s (w.reply sent).resp
          = (w.reply sent).resp ++ B " [status: " ++ strconv.Itoa s ++ B "]" from rfl, hf]
          at hgood
        exact absurd hgood (by decide)
      all_goals
        have hh : (B "Status: " ++ strconv.Itoa s ++ B "\n\nResponse: "
            ++ (w.reply sent).resp).head? = some 83 := rfl
        have hf : json.goodMsg (B "Status: " ++ strconv.Itoa s ++ B "\n\nResponse: "
            ++ (w.reply sent).resp) = false := by
          unfold json.goodMsg
          rw [hh]
          rfl
        first
          | rw [show (Call.OrderService_WithId _ _).statusErrorText s (w.reply sent).resp
              = B "Status: " ++ strconv.Itoa s ++ B "\n\nResponse: " ++ (w.reply sent).resp
              from rfl, hf] at hgood
          | rw [show (Call.OrderService_Capture _ _).statusErrorText s (w.reply sent).resp
              = B "Status: " ++ strconv.Itoa s ++ B "\n\nResponse: " ++ (w.reply sent).resp
              from rfl, hf] at hgood
          | rw [show (Call.OrderService_Cancel _ _).statusErrorText s (w.reply sent).resp
              = B "Status: " ++ strconv.Itoa s ++ B "\n\nResponse: " ++ (w.reply sent).resp
              from rfl, hf] at hgood
          | rw [show (Call.OrderService_Refund _ _ _).statusErrorText s (w.reply sent).resp
              = B "Status: " ++ strconv.Itoa s ++ B "\n\nResponse: " ++ (w.reply sent).resp
              from rfl, hf] at hgood
        exact absurd hgood (by decide)

/-- C10 (witness): `CustomerService.Create` answered with status 200 and the body `<html>`
returns the `nil` result and the invalid-unmarshal error of its `nil` target. -/
theorem C10_malformed_body_gives_decoder_error_witness :
    ((Call.CustomerService_Create ⟨B "sk_test", B "https://merchant.revolut.com"⟩
        none).decodes = true
      ∧ json.checkValid (B "<html>") ≠ none)
    ∧ ∃ e, (Call.invoke (World.const ⟨B "<html>", 200, none⟩)
        (Call.CustomerService_Create ⟨B "sk_test", B "https://merchant.revolut.com"⟩ none)).ret
          = Outcome.returned (Value.CreateCustomerResp none, some e) ∧
        e = GoError.jsonInvalidUnmarshal (B "*merchant.CreateCustomerResp") ∧
        (∀ text, e ≠ errors.New text) := by
  obtain ⟨e, hret, hd, _, hne, _⟩ := C10_malformed_body_gives_decoder_error
    (World.const ⟨B "<html>", 200, none⟩)
    (Call.CustomerService_Create ⟨B "sk_test", B "https://merchant.revolut.com"⟩ none)
    (Sent.merchant
      { Method := http.MethodPost, Url := B "https://merchant.revolut.com/api/1.0/customers",
        ApiKey := B "sk_test", Body := merchant.request.Body.CreateCustomerReq none,
        ContentType := B "application/json" })
    rfl rfl rfl (by decide) (by decide)
  refine ⟨⟨rfl, by decide⟩, e, hret, ?_, hne⟩
  have h2 : (Value.CreateCustomerResp none,
      some (GoError.jsonInvalidUnmarshal (B "*merchant.CreateCustomerResp")))
      = (Value.CreateCustomerResp none, some e) := hd
  injection h2 with _ h3
  injection h3 with h4
  exact h4.symm

/-! ## Lemmas on the requests of a call -/

/-- Every request of a call on a merchant service goes to the service's `domain` followed
by `/api/1.0/` and carries the service's `apiKey`. -/
theorem merchant_request_of_receiver (w : World) (call : Call) (sent : Sent)
    (k base : Bytes)
    (hrecv : call.receiver = Receiver.OrderService ⟨k, base⟩ ∨
      call.receiver = Receiver.CustomerService ⟨k, base⟩)
    (hsent : sent ∈ (call.invoke w).calls) :
    ∃ cfg rest, sent = Sent.merchant cfg ∧ cfg.Url = base ++ B "/api/1.0/" ++ rest ∧
      cfg.ApiKey = k := by
  have e1 : B "/api/1.0/orders" = B "/api/1.0/" ++ B "orders" := by decide
  have e2 : B "/api/1.0/orders/" = B "/api/1.0/" ++ B "orders/" := by decide
  have e3 : B "/api/1.0/customers" = B "/api/1.0/" ++ B "customers" := by decide
  cases call
  all_goals (first | (simp [Call.receiver] at hrecv; done) | skip)
  all_goals
    simp only [Call.receiver, Receiver.OrderService.injEq, Receiver.CustomerService.injEq,
      false_or, or_false, reduceCtorEq] at hrecv
    subst hrecv
    simp only [Call.invoke, Run.ofMerchant, merchant.OrderService.Create,
      merchant.OrderService.WithId, merchant.OrderService.Capture,
      merchant.OrderService.Cancel, merchant.OrderService.Refund,
      merchant.CustomerService.Create, List.map, List.mem_singleton] at hsent
    subst hsent
    simp only [e1, e2, e3, List.append_assoc]
    exact ⟨_, _, rfl, rfl, rfl⟩

/-! ## Lemmas on decoding a query string -/

/-- The decoder of query strings on some texts. -/
theorem url.decode_evaluations :
    url.QueryUnescape (B "US+D%26%2b") = Except.ok (B "US D&+")
    ∧ url.QueryUnescape (B "a%2") = Except.error (B "%2")
    ∧ url.QueryUnescape (B "a%zz1") = Except.error (B "%zz")
    ∧ url.ParseQuery (B "amount=1.00&from=US+D&to=E%26R")
      = (⟨[(B "amount", [B "1.00"]), (B "from", [B "US D"]), (B "to", [B "E&R"])]⟩, none)
    ∧ url.ParseQuery (B "a=1&&a=2;b=3&c")
      = (⟨[(B "a", [B "1"]), (B "c", [B ""])]⟩, some url.ParseError.semicolon) := by
  refine ⟨rfl, rfl, rfl, rfl, rfl⟩

theorem url.unhex_upperhex (n : Nat) : url.unhex (url.upperhex n) = n % 16 := by
  unfold url.upperhex url.unhex
  split_ifs <;> omega

theorem url.ishex_upperhex (n : Nat) : url.ishex (url.upperhex n) = true := by
  unfold url.upperhex url.ishex
  split <;> simp <;> omega

theorem url.QueryUnescape_cons_of_ne (c : Nat) (rest : Bytes) (h : c ≠ 37) :
    url.QueryUnescape (c :: rest) =
      match url.QueryUnescape rest with
      | Except.ok t => Except.ok ((if c = 43 then 32 else c) :: t)
      | Except.error e => Except.error e := by
  cases rest with
  | nil => simp [url.QueryUnescape, h]
  | cons d ds =>
    cases ds with
    | nil => simp [url.QueryUnescape, h]
    | cons d2 ds2 => simp [url.QueryUnescape, h]

theorem url.QueryUnescape_percent (h1 h2 : Nat) (rest : Bytes)
    (hh1 : url.ishex h1 = true) (hh2 : url.ishex h2 = true) :
    url.QueryUnescape (37 :: h1 :: h2 :: rest) =
      match url.QueryUnescape rest with
      | Except.ok t => Except.ok ((url.unhex h1 * 16 + url.unhex h2) :: t)
      | Except.error e => Except.error e := by
  simp [url.QueryUnescape, hh1, hh2]

/-- Decoding an escaped text gives the text back. -/
theorem url.QueryUnescape_QueryEscape : ∀ (s : Bytes), (∀ c ∈ s, c < 256) →
    url.QueryUnescape (url.QueryEscape s) = Except.ok s := by
  intro s
  induction s with
  | nil => intro _; rfl
  | cons c cs ih =>
    intro h
    have hc : c < 256 := h c (by simp)
    have hcs := ih (fun x hx => h x (by simp [hx]))
    unfold url.QueryEscape
    by_cases h32 : c = 32
    · subst h32
      rw [if_pos rfl, url.QueryUnescape_cons_of_ne 43 _ (by decide), hcs]
      rfl
    · rw [if_neg h32]
      by_cases hesc : url.shouldEscape c = true
      · rw [if_pos hesc]
        have hv : url.unhex (url.upperhex (c / 16)) * 16 + url.unhex (url.upperhex c) = c := by
          rw [url.unhex_upperhex, url.unhex_upperhex]; omega
        rw [url.QueryUnescape_percent _ _ _ (url.ishex_upperhex _) (url.ishex_upperhex _),
          hcs, hv]
      · rw [if_neg hesc]
        have h37 : c ≠ 37 := by
          intro h0; subst h0; exact hesc (by decide)
        have h43 : c ≠ 43 := by
          intro h0; subst h0; exact hesc (by decide)
        rw [url.QueryUnescape_cons_of_ne c _ h37, hcs]
        simp [h43]

/-- An escaped text holds none of the separators `&`, `;` and `=`. -/
theorem url.QueryEscape_no_separator : ∀ (s : Bytes) (c : Nat), c ∈ url.QueryEscape s →
    c ≠ 38 ∧ c ≠ 59 ∧ c ≠ 61 := by
  intro s
  induction s with
  | nil => intro c hc; simp [url.QueryEscape] at hc
  | cons a as ih =>
    intro c hc
    have hup : ∀ n, url.upperhex n ≠ 38 ∧ url.upperhex n ≠ 59 ∧ url.upperhex n ≠ 61 := by
      intro n
      unfold url.upperhex
      split <;> omega
    unfold url.QueryEscape at hc
    by_cases h32 : a = 32
    · rw [if_pos h32] at hc
      rcases List.mem_cons.mp hc with rfl | hc
      · decide
      · exact ih c hc
    · rw [if_neg h32] at hc
      by_cases hesc : url.shouldEscape a = true
      · rw [if_pos hesc] at hc
        rcases List.mem_cons.mp hc with rfl | hc
        · decide
        · rcases List.mem_cons.mp hc with rfl | hc
          · exact hup _
          · rcases List.mem_cons.mp hc with rfl | hc
            · exact hup _
            · exact ih c hc
      · rw [if_neg hesc] at hc
        rcases List.mem_cons.mp hc with rfl | hc
        · refine ⟨?_, ?_, ?_⟩ <;> (intro h0; subst h0; exact hesc (by decide))
        · exact ih c hc

theorem strings.Cut_of_not_mem (sep : Nat) : ∀ (p rest : Bytes), sep ∉ p →
    strings.Cut sep (p ++ sep :: rest) = (p, rest, true) := by
  intro p
  induction p with
  | nil => intro rest _; simp [strings.Cut]
  | cons c cs ih =>
    intro rest h
    have hc : c ≠ sep := fun h0 => h (by simp [h0])
    have hcs : sep ∉ cs := fun h0 => h (by simp [h0])
    simp [strings.Cut, hc, ih rest hcs]

theorem strings.Cut_of_not_mem_end (sep : Nat) : ∀ (p : Bytes), sep ∉ p →
    strings.Cut sep p = (p, [], false) := by
  intro p
  induction p with
  | nil => intro _; rfl
  | cons c cs ih =>
    intro h
    have hc : c ≠ sep := fun h0 => h (by simp [h0])
    have hcs : sep ∉ cs := fun h0 => h (by simp [h0])
    simp [strings.Cut, hc, ih hcs]

theorem url.parseQuery_nil (fuel : Nat) (m : url.Values) (err : Option url.ParseError) :
    url.parseQuery fuel m err [] = (m, err) := by
  cases fuel <;> simp [url.parseQuery]

/-- One round of `parseQuery` on a pair `key=value` whose key holds no separator and whose
value holds neither `&` nor `;`. -/
theorem url.parseQuery_pair (fuel : Nat) (m : url.Values) (err : Option url.ParseError)
    (key value k v : Bytes)
    (hk : ∀ c ∈ key, c ≠ 38 ∧ c ≠ 59 ∧ c ≠ 61)
    (hv : ∀ c ∈ value, c ≠ 38 ∧ c ≠ 59)
    (huk : url.QueryUnescape key = Except.ok k)
    (huv : url.QueryUnescape value = Except.ok v) :
    (∀ rest, url.parseQuery (fuel + 1) m err (key ++ 61 :: value ++ 38 :: rest)
      = url.parseQuery fuel (m.Add k v) err rest) ∧
    url.parseQuery (fuel + 1) m err (key ++ 61 :: value) = (m.Add k v, err) := by
  have h38 : 38 ∉ key ++ 61 :: value := by
    intro h
    rcases List.mem_append.mp h with h | h
    · exact (hk 38 h).1 rfl
    · rcases List.mem_cons.mp h with h | h
      · omega
      · exact (hv 38 h).1 rfl
  have h59 : 59 ∉ key ++ 61 :: value := by
    intro h
    rcases List.mem_append.mp h with h | h
    · exact (hk 59 h).2.1 rfl
    · rcases List.mem_cons.mp h with h | h
      · omega
      · exact (hv 59 h).2 rfl
  have h61 : 61 ∉ key := fun h => (hk 61 h).2.2 rfl
  have hne : key ++ 61 :: value ≠ [] := by simp
  have hcut : strings.Cut 61 (key ++ 61 :: value) = (key, value, true) :=
    strings.Cut_of_not_mem 61 key value h61
  constructor
  · intro rest
    have hc := strings.Cut_of_not_mem 38 (key ++ 61 :: value) rest h38
    have hne2 : key ++ 61 :: value ++ 38 :: rest ≠ [] := by simp
    rw [url.parseQuery]
    simp only [hne2, if_false, hc, h59, hne, hcut, huk, huv]
  · have hc := strings.Cut_of_not_mem_end 38 (key ++ 61 :: value) h38
    rw [url.parseQuery]
    simp only [hne, if_false, hc, h59, hcut, huk, huv, url.parseQuery_nil]

/-- Every byte of the text of `%0.2f` is below 256. -/
theorem fmt.Sprintf_0_2f_bytes (x : float64) : ∀ c ∈ fmt.Sprintf_0_2f x, c < 256 := by
  intro c hc
  cases x with
  | nan => revert c; decide
  | inf neg => cases neg <;> (revert c; decide)
  | finite neg mant exp =>
    simp only [fmt.Sprintf_0_2f, List.mem_append, List.mem_cons] at hc
    rcases hc with (hc | hc) | hc
    · cases neg <;> simp at hc
      omega
    · have := strconv.FormatNat_all _ c hc
      simp [strconv.isDigit] at this
      omega
    · rcases hc with rfl | rfl | rfl | hc
      · omega
      · omega
      · omega
      · simp at hc

/-! ## Lemmas on the struct encoder -/

/-- The struct encoder on some records. -/
theorem json.encode_evaluations :
    json.parseTag (B "account_id,optional,omitempty") = (B "account_id", B "optional,omitempty")
    ∧ json.tagContains (B "optional,omitempty") (B "omitempty") = true
    ∧ json.tagContains (B "omitempty,omitempty") (B "omitempty") = true
    ∧ json.tagContains (B "") (B "omitempty") = false
    ∧ json.tagContains (B "omitemptyx") (B "omitempty") = false
    ∧ RequestDTO.Marshal (RequestDTO.RefundReq ⟨0, B "", B "late", B ""⟩)
      = Except.ok (json.Value.object [(B "description", json.Value.string (B "late"))])
    ∧ RequestDTO.Marshal (RequestDTO.OrderReq ⟨0, B "", B "", B "", B "", B "", B "", B ""⟩)
      = Except.ok (json.Value.object [(B "amount", json.Value.int 0)])
    ∧ RequestDTO.Marshal
        (RequestDTO.ExchangeReq ⟨⟨B "", default, B ""⟩, ⟨B "", default, B ""⟩, B "", B "r1"⟩)
      = Except.ok (json.Value.object
          [(B "from", json.Value.object []), (B "to", json.Value.object []),
           (B "request_id", json.Value.string (B "r1"))])
    ∧ RequestDTO.Marshal
        (RequestDTO.ExchangeReq ⟨⟨B "", float64.nan, B ""⟩, ⟨B "", default, B ""⟩, B "", B ""⟩)
      = Except.error (GoError.other 3 (B "json: unsupported value: NaN"))
    ∧ RequestDTO.Marshal (RequestDTO.PaymentDraftReq ⟨B "", B "", some []⟩)
      = Except.ok (json.Value.object []) := by
  refine ⟨rfl, rfl, rfl, rfl, rfl, rfl, rfl, rfl, rfl, rfl⟩

/-- The keys that the struct encoder writes are the keys of the fields that it does not
skip, in order. -/
theorem json.encodeFields_keys (fs : List json.Field) :
    ∀ ms, json.encodeFields fs = Except.ok ms →
      ms.map Prod.fst
        = (fs.filter (fun f => !(f.omitEmpty && f.isEmpty))).map json.Field.jsonName := by
  induction fs with
  | nil => intro ms h; simp [json.encodeFields] at h; subst h; rfl
  | cons f rest ih =>
    intro ms h
    simp only [json.encodeFields] at h
    by_cases hskip : (f.omitEmpty && f.isEmpty) = true
    · simp only [hskip, if_true] at h
      simp [List.filter, hskip, ih ms h]
    · simp only [hskip] at h
      cases hv : f.encoded with
      | error e => simp [hv] at h
      | ok v =>
        cases hr : json.encodeFields rest with
        | error e => simp [hv, hr] at h
        | ok ms1 =>
          simp [hv, hr] at h
          subst h
          have hskip1 : (f.omitEmpty && f.isEmpty) = false := by simpa using hskip
          simp [List.filter, hskip1, ih ms1 hr]

/-- The struct encoder succeeds when the encoder of every field that it does not skip
succeeds. -/
theorem json.encodeFields_ok (fs : List json.Field)
    (h : ∀ f ∈ fs, ∃ v, f.encoded = Except.ok v) :
    ∃ ms, json.encodeFields fs = Except.ok ms := by
  induction fs with
  | nil => exact ⟨[], rfl⟩
  | cons f rest ih =>
    obtain ⟨ms, hms⟩ := ih (fun g hg => h g (List.mem_cons_of_mem _ hg))
    obtain ⟨v, hv⟩ := h f (List.mem_cons_self _ _)
    by_cases hskip : (f.omitEmpty && f.isEmpty) = true
    · exact ⟨ms, by simp [json.encodeFields, hskip, hms]⟩
    · exact ⟨(f.jsonName, v) :: ms, by simp [json.encodeFields, hskip, hms, hv]⟩

/-- The encoding of a struct succeeds when the encoder of every field succeeds. -/
theorem json.encodeStruct_ok (fs : List json.Field)
    (h : ∀ f ∈ fs, ∃ v, f.encoded = Except.ok v) :
    ∃ v, json.encodeStruct fs = Except.ok v := by
  obtain ⟨ms, hms⟩ := json.encodeFields_ok fs h
  exact ⟨json.Value.object ms, by simp [json.encodeStruct, hms]⟩

/-- The encoding of the elements of a slice succeeds when every element is encoded. -/
theorem json.encodeElems_ok (xs : List (Except GoError json.Value))
    (h : ∀ x ∈ xs, ∃ v, x = Except.ok v) : ∃ vs, json.encodeElems xs = Except.ok vs := by
  induction xs with
  | nil => exact ⟨[], rfl⟩
  | cons x rest ih =>
    obtain ⟨vs, hvs⟩ := ih (fun g hg => h g (List.mem_cons_of_mem _ hg))
    obtain ⟨v, hv⟩ := h x (List.mem_cons_self _ _)
    exact ⟨v :: vs, by simp [json.encodeElems, hv, hvs]⟩

/-- A field is written exactly when the encoder does not skip it, the keys of the fields
being distinct. -/
theorem json.encodeFields_mem_keys (fs : List json.Field) (ms : List (Bytes × json.Value))
    (hnd : (fs.map json.Field.jsonName).Nodup) (h : json.encodeFields fs = Except.ok ms)
    (f : json.Field) (hf : f ∈ fs) :
    f.jsonName ∈ ms.map Prod.fst ↔ ¬ (f.omitEmpty = true ∧ f.isEmpty = true) := by
  rw [json.encodeFields_keys fs ms h]
  constructor
  · intro hmem
    obtain ⟨g, hg, hname⟩ := List.mem_map.mp hmem
    have hgfs : g ∈ fs := (List.mem_filter.mp hg).1
    have hgf : g = f := List.inj_on_of_nodup_map hnd hgfs hf hname
    subst hgf
    have := (List.mem_filter.mp hg).2
    revert this
    cases g.omitEmpty <;> cases g.isEmpty <;> simp
  · intro hkeep
    refine List.mem_map.mpr ⟨f, List.mem_filter.mpr ⟨hf, ?_⟩, rfl⟩
    revert hkeep
    cases f.omitEmpty <;> cases f.isEmpty <;> simp

/-- The keys of the fields of a request record are distinct. -/
theorem RequestDTO.keys_nodup (d : RequestDTO) : (d.fields.map json.Field.jsonName).Nodup := by
  cases d <;>
    simp only [RequestDTO.fields, merchant.OrderReq.jsonFields, merchant.RefundReq.jsonFields,
      merchant.CreateCustomerReq.jsonFields, business.RevolutCounterpartyReq.jsonFields,
      business.NonRevolutCounterpartyReq.jsonFields, business.ExchangeReq.jsonFields,
      business.PaymentDraftReq.jsonFields,
      business.NonRevolutCounterpartyReqInvidualName.jsonFields,
      business.NonRevolutCounterpartyReqAddress.jsonFields, business.ExchangeAmount.jsonFields,
      business.PaymentDraftPayment.jsonFields, business.PaymentDraftPaymentReceiver.jsonFields,
      List.map, json.Field.jsonName, json.Field.ofString, json.Field.ofInt, json.Field.ofFloat,
      json.Field.ofStruct, json.Field.ofStructSlice] <;>
    decide

/-- The encoding of a `NonRevolutCounterpartyReqInvidualName` succeeds. -/
theorem encodeStruct_InvidualName_ok
    (r : business.NonRevolutCounterpartyReqInvidualName) :
    ∃ v, json.encodeStruct r.jsonFields = Except.ok v := by
  apply json.encodeStruct_ok
  simp [business.NonRevolutCounterpartyReqInvidualName.jsonFields, json.Field.ofString]

/-- The encoding of a `NonRevolutCounterpartyReqAddress` succeeds. -/
theorem encodeStruct_Address_ok
    (r : business.NonRevolutCounterpartyReqAddress) :
    ∃ v, json.encodeStruct r.jsonFields = Except.ok v := by
  apply json.encodeStruct_ok
  simp [business.NonRevolutCounterpartyReqAddress.jsonFields, json.Field.ofString]

/-- The encoder of `float64` succeeds on a finite number. -/
theorem json.floatEncoder_ok (f : float64) (h : f.isFinite = true) :
    ∃ v, json.floatEncoder f = Except.ok v := by
  cases f with
  | finite neg mant exp => exact ⟨_, rfl⟩
  | inf neg => simp [float64.isFinite] at h
  | nan => simp [float64.isFinite] at h

/-- The encoding of an `ExchangeAmount` with a finite amount succeeds. -/
theorem encodeStruct_ExchangeAmount_ok (r : business.ExchangeAmount)
    (h : r.Amount.isFinite = true) : ∃ v, json.encodeStruct r.jsonFields = Except.ok v := by
  apply json.encodeStruct_ok
  have hf := json.floatEncoder_ok r.Amount h
  simp [business.ExchangeAmount.jsonFields, json.Field.ofString, json.Field.ofFloat, hf]

/-- The encoding of a `PaymentDraftPaymentReceiver` succeeds. -/
theorem encodeStruct_Receiver_ok
    (r : business.PaymentDraftPaymentReceiver) :
    ∃ v, json.encodeStruct r.jsonFields = Except.ok v := by
  apply json.encodeStruct_ok
  simp [business.PaymentDraftPaymentReceiver.jsonFields, json.Field.ofString]

/-- The encoding of a `PaymentDraftPayment` succeeds. -/
theorem encodeStruct_Payment_ok (r : business.PaymentDraftPayment) :
    ∃ v, json.encodeStruct r.jsonFields = Except.ok v := by
  apply json.encodeStruct_ok
  have hr := encodeStruct_Receiver_ok r.Receiver
  simp [business.PaymentDraftPayment.jsonFields, json.Field.ofString, json.Field.ofInt,
    json.Field.ofStruct, hr]

/-- The encoder of a slice of `PaymentDraftPayment` succeeds. -/
theorem encodeStruct_Payments_ok
    (ps : Slice business.PaymentDraftPayment) :
    ∃ v, (json.Field.ofStructSlice (B "Payments") (B "payments,omitempty")
      (ps.map (fun xs => xs.map business.PaymentDraftPayment.jsonFields))).encoded
        = Except.ok v := by
  cases ps with
  | none => exact ⟨_, rfl⟩
  | some xs =>
    have h : ∃ vs, json.encodeElems
        ((xs.map business.PaymentDraftPayment.jsonFields).map json.encodeStruct)
          = Except.ok vs := by
      apply json.encodeElems_ok
      intro x hx
      obtain ⟨fs, hfs, rfl⟩ := List.mem_map.mp hx
      obtain ⟨p, _, rfl⟩ := List.mem_map.mp hfs
      exact encodeStruct_Payment_ok p
    obtain ⟨vs, hvs⟩ := h
    exact ⟨json.Value.array vs, by simp only [json.Field.ofStructSlice, Option.map, hvs]⟩

/-- The encoding of a request record whose floats are finite succeeds and is a JSON
object. -/
theorem RequestDTO.Marshal_ok (d : RequestDTO) (hfin : d.floatsFinite = true) :
    ∃ ms, json.encodeFields d.fields = Except.ok ms
      ∧ d.Marshal = Except.ok (json.Value.object ms) := by
  have h : ∃ ms, json.encodeFields d.fields = Except.ok ms := by
    apply json.encodeFields_ok
    cases d with
    | OrderReq r => simp [RequestDTO.fields, merchant.OrderReq.jsonFields, json.Field.ofString,
        json.Field.ofInt]
    | RefundReq r => simp [RequestDTO.fields, merchant.RefundReq.jsonFields,
        json.Field.ofString, json.Field.ofInt]
    | CreateCustomerReq r => simp [RequestDTO.fields, merchant.CreateCustomerReq.jsonFields,
        json.Field.ofString]
    | RevolutCounterpartyReq r => simp [RequestDTO.fields,
        business.RevolutCounterpartyReq.jsonFields, json.Field.ofString]
    | NonRevolutCounterpartyReq r =>
      have h1 := encodeStruct_InvidualName_ok r.InvidualName
      have h2 := encodeStruct_Address_ok r.Address
      simp [RequestDTO.fields, business.NonRevolutCounterpartyReq.jsonFields,
        json.Field.ofString, json.Field.ofStruct, h1, h2]
    | ExchangeReq r =>
      simp only [RequestDTO.floatsFinite, Bool.and_eq_true] at hfin
      have h1 := encodeStruct_ExchangeAmount_ok r.From hfin.1
      have h2 := encodeStruct_ExchangeAmount_ok r.To hfin.2
      simp [RequestDTO.fields, business.ExchangeReq.jsonFields, json.Field.ofString,
        json.Field.ofStruct, h1, h2]
    | PaymentDraftReq r =>
      have h1 := encodeStruct_Payments_ok r.Payments
      simp [RequestDTO.fields, business.PaymentDraftReq.jsonFields, json.Field.ofString, h1]
    | NonRevolutCounterpartyReqInvidualName r =>
      simp [RequestDTO.fields, business.NonRevolutCounterpartyReqInvidualName.jsonFields,
        json.Field.ofString]
    | NonRevolutCounterpartyReqAddress r =>
      simp [RequestDTO.fields, business.NonRevolutCounterpartyReqAddress.jsonFields,
        json.Field.ofString]
    | ExchangeAmount r =>
      have hf := json.floatEncoder_ok r.Amount hfin
      simp [RequestDTO.fields, business.ExchangeAmount.jsonFields, json.Field.ofString,
        json.Field.ofFloat, hf]
    | PaymentDraftPayment r =>
      have hr := encodeStruct_Receiver_ok r.Receiver
      simp [RequestDTO.fields, business.PaymentDraftPayment.jsonFields, json.Field.ofString,
        json.Field.ofInt, json.Field.ofStruct, hr]
    | PaymentDraftPaymentReceiver r =>
      simp [RequestDTO.fields, business.PaymentDraftPaymentReceiver.jsonFields,
        json.Field.ofString]
  obtain ⟨ms, hms⟩ := h
  exact ⟨ms, hms, by simp [RequestDTO.Marshal, json.encodeStruct, hms]⟩

/-- The fields of the request records that carry no `omitempty`: the four fields of
`CreateCustomerReq` and the amount of `OrderReq`. -/
theorem RequestDTO.omitEmpty_false_iff (d : RequestDTO) :
    ∀ f ∈ d.fields,
      (f.omitEmpty = false ↔
        match d with
        | RequestDTO.CreateCustomerReq _ => True
        | RequestDTO.OrderReq _ => f.Name = B "Amount"
        | _ => False) := by
  cases d <;>
    simp only [RequestDTO.fields, merchant.OrderReq.jsonFields, merchant.RefundReq.jsonFields,
      merchant.CreateCustomerReq.jsonFields, business.RevolutCounterpartyReq.jsonFields,
      business.NonRevolutCounterpartyReq.jsonFields, business.ExchangeReq.jsonFields,
      business.PaymentDraftReq.jsonFields,
      business.NonRevolutCounterpartyReqInvidualName.jsonFields,
      business.NonRevolutCounterpartyReqAddress.jsonFields, business.ExchangeAmount.jsonFields,
      business.PaymentDraftPayment.jsonFields, business.PaymentDraftPaymentReceiver.jsonFields,
      List.forall_mem_cons, List.not_mem_nil, false_implies, implies_true, and_true,
      json.Field.omitEmpty, json.Field.ofString,
      json.Field.ofInt, json.Field.ofFloat, json.Field.ofStruct, json.Field.ofStructSlice] <;>
    decide

/-- The length of a slice of records is the length of the slice of their fields. -/
theorem Slice.len_map_fields {α β : Type} (f : α → β) (ps : Slice α) :
    Slice.len (ps.map (fun xs => xs.map f)) = Slice.len ps := by
  cases ps with
  | none => rfl
  | some xs => simp [Slice.len]

/-- The description of the amended claim is what the encoder does on the fields that hold
no nested record: the key of each, and that it is kept unless its tag carries `omitempty`
and its value is empty. -/
theorem RequestDTO.specPresent_eq (d : RequestDTO) :
    d.specPresent
      = (d.fields.filter (fun f => f.kind != json.Kind.struct)).map
          (fun f => (f.jsonName, !(f.omitEmpty && f.isEmpty))) := by
  cases d with
  | PaymentDraftReq r =>
    have h := Slice.len_map_fields business.PaymentDraftPayment.jsonFields r.Payments
    simp only [RequestDTO.specPresent, RequestDTO.fields, business.PaymentDraftReq.jsonFields,
      json.Field.ofStructSlice, h]
    rfl
  | _ => rfl

/-! ## The claims C11 to C20 -/

/-- C11: for every heap and every API key `k`, `NewProductionClient(k)` allocates one order,
one webhook and one customer service, each holding `k` and `https://merchant.revolut.com`,
and `NewSandboxClient(k)` does so with `https://sandbox-merchant.revolut.com`; the accessors
`Order`, `Webhook` and `Customer` return the addresses of these records, and in every
sequence of accessor calls each call returns that same address and leaves the client and the
heap as they are: the same single instance on every call.  Every request built by a method
of the exposed order or customer service has a URL that starts with the base URL followed by
`/api/1.0/` and carries `ApiKey` `k`. -/
theorem C11_client_wires_services (w : World) (h : merchant.heap.Heap) (k : Bytes) :
    (∃ o wb cu,
      merchant.heap.Client.Order (some (merchant.heap.NewProductionClient h k).1)
        = Outcome.returned (some o) ∧
      merchant.heap.Client.Webhook (some (merchant.heap.NewProductionClient h k).1)
        = Outcome.returned (some wb) ∧
      merchant.heap.Client.Customer (some (merchant.heap.NewProductionClient h k).1)
        = Outcome.returned (some cu) ∧
      (merchant.heap.NewProductionClient h k).2.order (some o)
        = some ⟨k, B "https://merchant.revolut.com"⟩ ∧
      (merchant.heap.NewProductionClient h k).2.webhook (some wb)
        = some ⟨k, B "https://merchant.revolut.com"⟩ ∧
      (merchant.heap.NewProductionClient h k).2.customer (some cu)
        = some ⟨k, B "https://merchant.revolut.com"⟩ ∧
      (∀ accesses : List merchant.heap.Accessor,
        merchant.heap.accessAll (merchant.heap.NewProductionClient h k) accesses
          = (accesses.map (fun a =>
              match a with
              | merchant.heap.Accessor.Order => Outcome.returned (some o)
              | merchant.heap.Accessor.Webhook => Outcome.returned (some wb)
              | merchant.heap.Accessor.Customer => Outcome.returned (some cu)),
             merchant.heap.NewProductionClient h k)))
    ∧ (∃ o wb cu,
      merchant.heap.Client.Order (some (merchant.heap.NewSandboxClient h k).1)
        = Outcome.returned (some o) ∧
      merchant.heap.Client.Webhook (some (merchant.heap.NewSandboxClient h k).1)
        = Outcome.returned (some wb) ∧
      merchant.heap.Client.Customer (some (merchant.heap.NewSandboxClient h k).1)
        = Outcome.returned (some cu) ∧
      (merchant.heap.NewSandboxClient h k).2.order (some o)
        = some ⟨k, B "https://sandbox-merchant.revolut.com"⟩ ∧
      (merchant.heap.NewSandboxClient h k).2.webhook (some wb)
        = some ⟨k, B "https://sandbox-merchant.revolut.com"⟩ ∧
      (merchant.heap.NewSandboxClient h k).2.customer (some cu)
        = some ⟨k, B "https://sandbox-merchant.revolut.com"⟩ ∧
      (∀ accesses : List merchant.heap.Accessor,
        merchant.heap.accessAll (merchant.heap.NewSandboxClient h k) accesses
          = (accesses.map (fun a =>
              match a with
              | merchant.heap.Accessor.Order => Outcome.returned (some o)
              | merchant.heap.Accessor.Webhook => Outcome.returned (some wb)
              | merchant.heap.Accessor.Customer => Outcome.returned (some cu)),
             merchant.heap.NewSandboxClient h k)))
    ∧ (merchant.heap.view (merchant.heap.NewProductionClient h k)
        = merchant.NewProductionClient k
      ∧ merchant.heap.view (merchant.heap.NewSandboxClient h k) = merchant.NewSandboxClient k)
    ∧ (∀ (call : Call) (sent : Sent) (base : Bytes),
        (base = B "https://merchant.revolut.com" ∨
          base = B "https://sandbox-merchant.revolut.com") →
        (call.receiver = Receiver.OrderService ⟨k, base⟩ ∨
          call.receiver = Receiver.CustomerService ⟨k, base⟩) →
        sent ∈ (call.invoke w).calls →
        ∃ cfg rest, sent = Sent.merchant cfg ∧ cfg.Url = base ++ B "/api/1.0/" ++ rest ∧
          cfg.ApiKey = k) := by
  have hall : ∀ (st : merchant.heap.Client × merchant.heap.Heap)
      (accesses : List merchant.heap.Accessor),
      merchant.heap.accessAll st accesses
        = (accesses.map (fun a =>
            match a with
            | merchant.heap.Accessor.Order => Outcome.returned st.1.orderService
            | merchant.heap.Accessor.Webhook => Outcome.returned st.1.webhookService
            | merchant.heap.Accessor.Customer => Outcome.returned st.1.customerService),
           st) := by
    intro st accesses
    induction accesses with
    | nil => rfl
    | cons a rest ih =>
      cases a <;>
        simp [merchant.heap.accessAll, merchant.heap.access, merchant.heap.Client.Order,
          merchant.heap.Client.Webhook, merchant.heap.Client.Customer, ih]
  refine ⟨⟨h.orderServices.length, h.webhookServices.length, h.customerServices.length,
      rfl, rfl, rfl, ?_, ?_, ?_, fun accesses => hall _ accesses⟩,
    ⟨h.orderServices.length, h.webhookServices.length, h.customerServices.length,
      rfl, rfl, rfl, ?_, ?_, ?_, fun accesses => hall _ accesses⟩, ⟨?_, ?_⟩, ?_⟩
  all_goals
    first
    | (intro call sent base _ hrecv hsent
       exact merchant_request_of_receiver w call sent k base hrecv hsent)
    | simp [merchant.heap.NewProductionClient, merchant.heap.NewSandboxClient,
        merchant.heap.newClient, merchant.heap.Heap.order, merchant.heap.Heap.webhook,
        merchant.heap.Heap.customer, merchant.heap.view, merchant.NewProductionClient,
        merchant.NewSandboxClient, merchant.newClient]

/-- C11 (witness): on the empty heap, the order service of `NewSandboxClient("sk_test")` is
the record at address 0 on every call, and asked to capture the order `o1` it requests the
sandbox URL. -/
theorem C11_client_wires_services_witness :
    merchant.heap.accessAll (merchant.heap.NewSandboxClient ⟨[], [], []⟩ (B "sk_test"))
        [merchant.heap.Accessor.Order, merchant.heap.Accessor.Customer,
          merchant.heap.Accessor.Order]
      = ([Outcome.returned (some 0), Outcome.returned (some 0), Outcome.returned (some 0)],
          merchant.heap.NewSandboxClient ⟨[], [], []⟩ (B "sk_test"))
    ∧ (merchant.heap.NewSandboxClient ⟨[], [], []⟩ (B "sk_test")).2.order (some 0)
      = some ⟨B "sk_test", B "https://sandbox-merchant.revolut.com"⟩
    ∧ ∃ cfg rest,
        Sent.merchant
          { Method := http.MethodPost,
            Url := B "https://sandbox-merchant.revolut.com/api/1.0/orders/o1/capture",
            ApiKey := B "sk_test", Body := merchant.request.Body.nil, ContentType := [] }
          = Sent.merchant cfg
        ∧ cfg.Url = B "https://sandbox-merchant.revolut.com" ++ B "/api/1.0/" ++ rest
        ∧ cfg.ApiKey = B "sk_test" := by
  have h := C11_client_wires_services (World.const ⟨B "", 200, none⟩) ⟨[], [], []⟩
    (B "sk_test")
  refine ⟨rfl, rfl, ?_⟩
  exact h.2.2.2
    (Call.OrderService_Capture ⟨B "sk_test", B "https://sandbox-merchant.revolut.com"⟩
      (B "o1"))
    _ (B "https://sandbox-merchant.revolut.com") (Or.inr rfl) (Or.inl rfl)
    (List.mem_singleton.mpr rfl)

/-- C12: `WebhookService.Set`, with no configuration error (the request reaches the
transport) and no transport error, returns `nil` if and only if the status code is 204;
with every other status code, and so with 200, it returns the error whose text is the
response body. -/
theorem C12_webhook_set_succeeds_iff_204 (env : business.Env) (p : business.WebhookService)
    (url : Bytes) (cfg : business.request.Config)
    (hcalls : (business.WebhookService.Set env p url).calls = [cfg])
    (herr : (env.New cfg).err = none) :
    ((business.WebhookService.Set env p url).ret = none ↔ (env.New cfg).statusCode = 204) ∧
    ((env.New cfg).statusCode ≠ 204 →
      (business.WebhookService.Set env p url).ret = some (errors.New (env.New cfg).resp)) ∧
    ((env.New cfg).statusCode = 200 →
      (business.WebhookService.Set env p url).ret = some (errors.New (env.New cfg).resp) ∧
      (errors.New (env.New cfg).resp).Error = (env.New cfg).resp) := by
  simp only [business.WebhookService.Set] at hcalls ⊢
  split at hcalls
  · simp at hcalls
  · simp only [List.cons.injEq, and_true] at hcalls
    rw [hcalls]
    simp only [herr, http.StatusNoContent]
    by_cases hs : (env.New cfg).statusCode = 204
    · simp [hs]
    · simp [hs, errors.New, GoError.Error]

/-- C12 (witness): `WebhookService.Set` answered with status 200 and the body `ok`. -/
theorem C12_webhook_set_succeeds_iff_204_witness :
    (business.WebhookService.Set (business.Env.const ⟨B "ok", 200, none⟩)
        ⟨B "tok", false, none⟩ (B "https://example.com/hook")).calls
      = [{ Method := http.MethodPost, Url := B "https://b2b.revolut.com/api/1.0/webhook",
           AccessToken := B "tok", Sandbox := false,
           Body := business.request.Body.WebhookUrl (B "https://example.com/hook"),
           ContentType := B "application/json" }]
    ∧ (business.WebhookService.Set (business.Env.const ⟨B "ok", 200, none⟩)
        ⟨B "tok", false, none⟩ (B "https://example.com/hook")).ret
      = some (errors.New (B "ok"))
    ∧ (errors.New (B "ok")).Error = B "ok" := by
  have h := C12_webhook_set_succeeds_iff_204 (business.Env.const ⟨B "ok", 200, none⟩)
    ⟨B "tok", false, none⟩ (B "https://example.com/hook")
    { Method := http.MethodPost, Url := B "https://b2b.revolut.com/api/1.0/webhook",
      AccessToken := B "tok", Sandbox := false,
      Body := business.request.Body.WebhookUrl (B "https://example.com/hook"),
      ContentType := B "application/json" } rfl rfl
  exact ⟨rfl, (h.2.2 rfl).1, (h.2.2 rfl).2⟩

/-- C13: every request of a GET or DELETE endpoint method has no body; every endpoint method
that takes a request record (DTO) is a POST and hands the transport exactly the caller's
record as the body, with the JSON content type; in particular the request of
`ExchangeService.Exchange` carries the caller's `RequestId` unchanged. -/
theorem C13_request_bodies (w : World) (call : Call) (sent : Sent)
    (hsent : sent ∈ (call.invoke w).calls) :
    ((sent.Method = http.MethodGet ∨ sent.Method = http.MethodDelete) →
      sent.Body.isNil = true) ∧
    (∀ dto, call.requestDTO = some dto →
      sent.Method = http.MethodPost ∧ sent.Body = dto ∧
      sent.ContentType = w.jsonContentType sent) ∧
    (∀ e req, call = Call.ExchangeService_Exchange e (some req) →
      ∃ r, sent.Body = SentBody.business (business.request.Body.ExchangeReq (some r)) ∧
        r.RequestId = req.RequestId) := by
  have h1 : (http.MethodPost = http.MethodGet) = False := by decide
  have h2 : (http.MethodPost = http.MethodDelete) = False := by decide
  cases call <;>
    simp only [Call.invoke, Run.ofBusiness, Run.ofBusinessErr, Run.ofMerchant,
      business.AccountService.List, business.AccountService.WithId,
      business.AccountService.DetailWithId, business.CounterpartyService.AddRevolut,
      business.CounterpartyService.AddNonRevolut, business.CounterpartyService.Delete,
      business.CounterpartyService.WithId, business.CounterpartyService.List,
      business.ExchangeService.Rate, business.ExchangeService.Exchange,
      business.PaymentDraftService.Create, business.PaymentDraftService.List,
      business.PaymentDraftService.WithId, business.PaymentDraftService.Delete,
      business.WebhookService.Set, business.WebhookService.Delete,
      merchant.OrderService.Create, merchant.OrderService.WithId,
      merchant.OrderService.Capture, merchant.OrderService.Cancel,
      merchant.OrderService.Refund, merchant.CustomerService.Create] at hsent
  all_goals (try split at hsent)
  all_goals (try simp at hsent)
  all_goals (try split at hsent)
  all_goals (try simp at hsent)
  all_goals subst hsent
  all_goals
    simp [Sent.Method, Sent.Body, Sent.ContentType, SentBody.isNil, Call.requestDTO,
      World.jsonContentType, h1, h2]
  intro e req _ hreq
  exact ⟨req, hreq, rfl⟩

/-- C13 (witness): `ExchangeService.Exchange` with a request whose `RequestId` is `req-1`. -/
theorem C13_request_bodies_witness :
    (Call.invoke (World.const ⟨B "", 200, none⟩)
        (Call.ExchangeService_Exchange ⟨B "tok", false, none⟩
          (some ⟨⟨B "a1", float64.finite false 1 0, B "USD"⟩, ⟨B "a2", default, B "EUR"⟩,
            B "ref", B "req-1"⟩))).calls
      = [Sent.business
          { Method := http.MethodPost, Url := B "https://b2b.revolut.com/api/1.0/exchange",
            AccessToken := B "tok", Sandbox := false,
            Body := business.request.Body.ExchangeReq
              (some ⟨⟨B "a1", float64.finite false 1 0, B "USD"⟩, ⟨B "a2", default, B "EUR"⟩,
                B "ref", B "req-1"⟩),
            ContentType := B "application/json" }]
    ∧ ∃ r, (Sent.business
          { Method := http.MethodPost, Url := B "https://b2b.revolut.com/api/1.0/exchange",
            AccessToken := B "tok", Sandbox := false,
            Body := business.request.Body.ExchangeReq
              (some ⟨⟨B "a1", float64.finite false 1 0, B "USD"⟩, ⟨B "a2", default, B "EUR"⟩,
                B "ref", B "req-1"⟩),
            ContentType := B "application/json" }).Body
        = SentBody.business (business.request.Body.ExchangeReq (some r))
      ∧ r.RequestId = B "req-1" := by
  have h := C13_request_bodies (World.const ⟨B "", 200, none⟩)
    (Call.ExchangeService_Exchange ⟨B "tok", false, none⟩
      (some ⟨⟨B "a1", float64.finite false 1 0, B "USD"⟩, ⟨B "a2", default, B "EUR"⟩,
        B "ref", B "req-1"⟩))
    (Sent.business
      { Method := http.MethodPost, Url := B "https://b2b.revolut.com/api/1.0/exchange",
        AccessToken := B "tok", Sandbox := false,
        Body := business.request.Body.ExchangeReq
          (some ⟨⟨B "a1", float64.finite false 1 0, B "USD"⟩, ⟨B "a2", default, B "EUR"⟩,
            B "ref", B "req-1"⟩),
        ContentType := B "application/json" })
    (List.mem_singleton.mpr rfl)
  exact ⟨rfl, h.2.2 _ _ rfl⟩

/-- C14 (counterexample): `ExchangeService.Rate` on a service without configuration error,
called with a `nil` request, reads the request before it builds the URL: the call panics
and the transport is invoked zero times, not once. -/
theorem C14_counterexample :
    (Call.ExchangeService_Rate ⟨B "tok", false, none⟩ none).storedErr = none
    ∧ (Call.invoke (World.const ⟨B "\x7b\x7d", 200, none⟩)
        (Call.ExchangeService_Rate ⟨B "tok", false, none⟩ none)).calls = []
    ∧ (Call.invoke (World.const ⟨B "\x7b\x7d", 200, none⟩)
        (Call.ExchangeService_Rate ⟨B "tok", false, none⟩ none)).calls.length ≠ 1 := by
  refine ⟨rfl, rfl, by decide⟩

/-- C14 (amended): every endpoint method invokes the transport at most once per call,
whatever the transport replies and whatever the decoder does: zero times when the receiver
is a `nil` pointer (the call panics when it reads the first field of the receiver), zero
times when the service has a stored configuration error, zero times when
`ExchangeService.Rate` is called with a `nil` request on a service without configuration
error (the call panics before the request is built), and exactly once in every other
case. -/
theorem C14_at_most_one_transport_call (w : World) (inv : Invocation) :
    (inv.run w).calls.length ≤ 1 ∧
    (∀ m, inv = Invocation.nilReceiver m →
      (inv.run w).calls.length = 0 ∧ (inv.run w).ret = Outcome.panic) ∧
    (∀ call, inv = Invocation.onRecord call → call.storedErr ≠ none →
      (inv.run w).calls.length = 0) ∧
    (∀ e, inv = Invocation.onRecord (Call.ExchangeService_Rate e none) →
      (inv.run w).calls.length = 0) ∧
    (∀ call, inv = Invocation.onRecord call → call.storedErr = none →
      (∀ e, call ≠ Call.ExchangeService_Rate e none) →
      (inv.run w).calls.length = 1) := by
  have hzero : ∀ call : Call, call.storedErr ≠ none → (call.invoke w).calls.length = 0 := by
    intro call h
    cases hs : call.storedErr with
    | none => exact absurd hs h
    | some e => rw [invoke_of_storedErr w call e hs]; rfl
  have hone : ∀ call : Call, call.storedErr = none →
      (∀ e, call ≠ Call.ExchangeService_Rate e none) →
      (call.invoke w).calls.length = 1 := by
    intro call h hreq
    obtain ⟨sent, hsent⟩ := invoke_calls_of_no_storedErr w call h hreq
    rw [hsent]; rfl
  have hnil : ∀ e, (Call.invoke w (Call.ExchangeService_Rate e none)).calls.length = 0 := by
    intro e
    simp only [Call.invoke, business.ExchangeService.Rate]
    split <;> rfl
  refine ⟨?_, ?_, ?_, ?_, ?_⟩
  · cases inv with
    | nilReceiver m => exact Nat.zero_le 1
    | onRecord call =>
      show (call.invoke w).calls.length ≤ 1
      by_cases h : call.storedErr = none
      · by_cases hreq : ∃ e, call = Call.ExchangeService_Rate e none
        · obtain ⟨e, rfl⟩ := hreq
          rw [hnil e]; omega
        · rw [hone call h (fun e he => hreq ⟨e, he⟩)]
      · rw [hzero call h]; omega
  · rintro m rfl
    exact ⟨rfl, rfl⟩
  · rintro call rfl h
    exact hzero call h
  · rintro e rfl
    exact hnil e
  · rintro call rfl h hreq
    exact hone call h hreq

/-- C14 (witness): `PaymentDraftService.Create` answered with status 500 invokes the
transport once; `OrderService.Create` through a `nil` receiver invokes it zero times. -/
theorem C14_at_most_one_transport_call_witness :
    (Call.PaymentDraftService_Create ⟨B "tok", false, none⟩ none).storedErr = none
    ∧ (Invocation.run (World.const ⟨B "oops", 500, none⟩)
        (Invocation.onRecord
          (Call.PaymentDraftService_Create ⟨B "tok", false, none⟩ none))).calls.length = 1
    ∧ (Invocation.run (World.const ⟨B "oops", 500, none⟩)
        (Invocation.nilReceiver Method.OrderService_Create)).calls.length = 0 := by
  have h := C14_at_most_one_transport_call (World.const ⟨B "oops", 500, none⟩)
    (Invocation.onRecord (Call.PaymentDraftService_Create ⟨B "tok", false, none⟩ none))
  exact ⟨rfl, h.2.2.2.2 _ rfl rfl (by intro e he; cases he), rfl⟩

/-- C15: for every identifier `id`, each single-resource operation requests the URL made of
the fixed base, the fixed path and `id` as it is: `AccountService.WithId` uses
`https://b2b.revolut.com/api/1.0/accounts/` followed by `id`, `DetailWithId` appends
`/bank-details`, `CounterpartyService.WithId` and `Delete` use `.../counterparty/` and `id`,
`PaymentDraftService.WithId` and `Delete` use `.../payment-drafts/` and `id`, and
`OrderService.WithId`, `Capture`, `Cancel` and `Refund` use the service's `domain`,
`/api/1.0/orders/`, `id` and then nothing, `/capture`, `/cancel` or `/refund`; without a
configuration error that one request is made. -/
theorem C15_resource_url (w : World) (call : Call) :
    (∀ sent ∈ (call.invoke w).calls,
      sent.Url =
        match call with
        | Call.AccountService_WithId _ id => B "https://b2b.revolut.com/api/1.0/accounts/" ++ id
        | Call.AccountService_DetailWithId _ id =>
          B "https://b2b.revolut.com/api/1.0/accounts/" ++ id ++ B "/bank-details"
        | Call.CounterpartyService_WithId _ id =>
          B "https://b2b.revolut.com/api/1.0/counterparty/" ++ id
        | Call.CounterpartyService_Delete _ id =>
          B "https://b2b.revolut.com/api/1.0/counterparty/" ++ id
        | Call.PaymentDraftService_WithId _ id =>
          B "https://b2b.revolut.com/api/1.0/payment-drafts/" ++ id
        | Call.PaymentDraftService_Delete _ id =>
          B "https://b2b.revolut.com/api/1.0/payment-drafts/" ++ id
        | Call.OrderService_WithId a id => a.domain ++ B "/api/1.0/orders/" ++ id
        | Call.OrderService_Capture a id =>
          a.domain ++ B "/api/1.0/orders/" ++ id ++ B "/capture"
        | Call.OrderService_Cancel a id => a.domain ++ B "/api/1.0/orders/" ++ id ++ B "/cancel"
        | Call.OrderService_Refund a id _ =>
          a.domain ++ B "/api/1.0/orders/" ++ id ++ B "/refund"
        | _ => sent.Url) ∧
    (call.storedErr = none → (∀ e, call ≠ Call.ExchangeService_Rate e none) →
      ∃ sent, (call.invoke w).calls = [sent]) := by
  refine ⟨?_, invoke_calls_of_no_storedErr w call⟩
  intro sent hsent
  cases call <;>
    simp only [Call.invoke, Run.ofBusiness, Run.ofBusinessErr, Run.ofMerchant,
      business.AccountService.List, business.AccountService.WithId,
      business.AccountService.DetailWithId, business.CounterpartyService.AddRevolut,
      business.CounterpartyService.AddNonRevolut, business.CounterpartyService.Delete,
      business.CounterpartyService.WithId, business.CounterpartyService.List,
      business.ExchangeService.Rate, business.ExchangeService.Exchange,
      business.PaymentDraftService.Create, business.PaymentDraftService.List,
      business.PaymentDraftService.WithId, business.PaymentDraftService.Delete,
      business.WebhookService.Set, business.WebhookService.Delete,
      merchant.OrderService.Create, merchant.OrderService.WithId,
      merchant.OrderService.Capture, merchant.OrderService.Cancel,
      merchant.OrderService.Refund, merchant.CustomerService.Create] at hsent
  all_goals (try split at hsent)
  all_goals (try simp at hsent)
  all_goals (try split at hsent)
  all_goals (try simp at hsent)
  all_goals subst hsent
  all_goals simp [Sent.Url]

/-- C15 (witness): `OrderService.Refund` for the identifier `a/b?c` on the sandbox
domain. -/
theorem C15_resource_url_witness :
    (Call.invoke (World.const ⟨B "", 200, none⟩)
        (Call.OrderService_Refund ⟨B "sk_test", B "https://sandbox-merchant.revolut.com"⟩
          (B "a/b?c") none)).calls.map Sent.Url
      = [B "https://sandbox-merchant.revolut.com/api/1.0/orders/a/b?c/refund"]
    ∧ ∀ sent ∈ (Call.invoke (World.const ⟨B "", 200, none⟩)
        (Call.OrderService_Refund ⟨B "sk_test", B "https://sandbox-merchant.revolut.com"⟩
          (B "a/b?c") none)).calls,
        sent.Url = B "https://sandbox-merchant.revolut.com" ++ B "/api/1.0/orders/"
          ++ B "a/b?c" ++ B "/refund" := by
  have h := C15_resource_url (World.const ⟨B "", 200, none⟩)
    (Call.OrderService_Refund ⟨B "sk_test", B "https://sandbox-merchant.revolut.com"⟩
      (B "a/b?c") none)
  exact ⟨by decide, h.1⟩

/-- C16: for every `ExchangeRateReq`, every request of `ExchangeService.Rate` has the URL
`https://b2b.revolut.com/api/1.0/rate?` followed by exactly three query parameters, `amount`,
`from` and `to`, in that order, joined by `&`, where the values of `from` and `to` are the
query-escaped `From` and `To` of the request, and with no configuration error that one
request is made; decoding the query string (`url.ParseQuery`) gives these three parameters
and no other, with `From` and `To` exactly as they were in the request.  (The strings of the
request are Go strings: each of their bytes is below 256.) -/
theorem C16_rate_query_roundtrip (env : business.Env) (e : business.ExchangeService)
    (req : business.ExchangeRateReq)
    (hFrom : ∀ c ∈ req.From, c < 256)
    (hTo : ∀ c ∈ req.To, c < 256) :
    (∀ cfg ∈ (business.ExchangeService.Rate env e (some req)).calls,
      cfg.Url = B "https://b2b.revolut.com/api/1.0/rate?"
          ++ (B "amount=" ++ url.QueryEscape (fmt.Sprintf_0_2f req.Amount)
            ++ B "&from=" ++ url.QueryEscape req.From
            ++ B "&to=" ++ url.QueryEscape req.To))
    ∧ (e.err = none →
      (business.ExchangeService.Rate env e (some req)).calls.map (fun cfg => cfg.Url)
        = [B "https://b2b.revolut.com/api/1.0/rate?"
            ++ (B "amount=" ++ url.QueryEscape (fmt.Sprintf_0_2f req.Amount)
              ++ B "&from=" ++ url.QueryEscape req.From
              ++ B "&to=" ++ url.QueryEscape req.To)])
    ∧ url.ParseQuery
        (B "amount=" ++ url.QueryEscape (fmt.Sprintf_0_2f req.Amount)
          ++ B "&from=" ++ url.QueryEscape req.From
          ++ B "&to=" ++ url.QueryEscape req.To)
      = (⟨[(B "amount", [fmt.Sprintf_0_2f req.Amount]), (B "from", [req.From]),
          (B "to", [req.To])]⟩, none)
    ∧ url.QueryUnescape (url.QueryEscape req.From) = Except.ok req.From
    ∧ url.QueryUnescape (url.QueryEscape req.To) = Except.ok req.To := by
  refine ⟨?_, ?_, ?_, url.QueryUnescape_QueryEscape _ hFrom,
    url.QueryUnescape_QueryEscape _ hTo⟩
  · intro cfg hcfg
    cases herr : e.err with
    | none =>
      simp only [business.ExchangeService.Rate, herr, List.mem_singleton] at hcfg
      subst hcfg
      simp only [url.Encode_from_to_amount]
    | some err => simp [business.ExchangeService.Rate, herr] at hcfg
  · intro herr
    simp only [business.ExchangeService.Rate, herr, List.map, url.Encode_from_to_amount]
  · have hq : B "amount=" ++ url.QueryEscape (fmt.Sprintf_0_2f req.Amount)
          ++ B "&from=" ++ url.QueryEscape req.From ++ B "&to=" ++ url.QueryEscape req.To
        = B "amount" ++ 61 :: url.QueryEscape (fmt.Sprintf_0_2f req.Amount) ++ 38 ::
            (B "from" ++ 61 :: url.QueryEscape req.From ++ 38 ::
              (B "to" ++ 61 :: url.QueryEscape req.To)) := by
      have a1 : B "amount=" = B "amount" ++ [61] := by decide
      have a2 : B "&from=" = 38 :: (B "from" ++ [61]) := by decide
      have a3 : B "&to=" = 38 :: (B "to" ++ [61]) := by decide
      rw [a1, a2, a3]
      simp
    have hlen : ∃ f, (B "amount=" ++ url.QueryEscape (fmt.Sprintf_0_2f req.Amount)
          ++ B "&from=" ++ url.QueryEscape req.From ++ B "&to=" ++ url.QueryEscape req.To).length
          + 1 = f + 1 + 1 + 1 := by
      have a1 : (B "amount=").length = 7 := by decide
      refine ⟨(B "amount=" ++ url.QueryEscape (fmt.Sprintf_0_2f req.Amount)
          ++ B "&from=" ++ url.QueryEscape req.From ++ B "&to="
          ++ url.QueryEscape req.To).length - 2, ?_⟩
      simp only [List.length_append, a1]
      omega
    obtain ⟨f, hf⟩ := hlen
    have hsep : ∀ (s : Bytes), ∀ c ∈ url.QueryEscape s, c ≠ 38 ∧ c ≠ 59 := by
      intro s c hc
      exact ⟨(url.QueryEscape_no_separator s c hc).1, (url.QueryEscape_no_separator s c hc).2.1⟩
    have p1 := url.parseQuery_pair (f + 1 + 1) ⟨[]⟩ none (B "amount")
      (url.QueryEscape (fmt.Sprintf_0_2f req.Amount)) (B "amount") (fmt.Sprintf_0_2f req.Amount)
      (by decide) (hsep _) rfl
      (url.QueryUnescape_QueryEscape _ (fmt.Sprintf_0_2f_bytes req.Amount))
    have p2 := url.parseQuery_pair (f + 1)
      ((⟨[]⟩ : url.Values).Add (B "amount") (fmt.Sprintf_0_2f req.Amount)) none (B "from")
      (url.QueryEscape req.From) (B "from") req.From
      (by decide) (hsep _) rfl (url.QueryUnescape_QueryEscape _ hFrom)
    have p3 := url.parseQuery_pair f
      (((⟨[]⟩ : url.Values).Add (B "amount") (fmt.Sprintf_0_2f req.Amount)).Add (B "from")
        req.From) none (B "to")
      (url.QueryEscape req.To) (B "to") req.To
      (by decide) (hsep _) rfl (url.QueryUnescape_QueryEscape _ hTo)
    unfold url.ParseQuery
    rw [hf, hq, p1.1, p2.1, p3.2]
    have k1 : (B "amount" = B "from") = False := by decide
    have k2 : (B "amount" = B "to") = False := by decide
    have k3 : (B "from" = B "to") = False := by decide
    simp [url.Values.Add, url.addEntry, k1, k2, k3]

/-- C16 (witness): the request `From = "US D"`, `To = "E&R"`, `Amount = 1`. -/
theorem C16_rate_query_roundtrip_witness :
    (business.ExchangeService.Rate (business.Env.const ⟨B "", 200, none⟩)
        ⟨B "tok", false, none⟩
        (some ⟨B "US D", B "E&R", float64.finite false 1 0⟩)).calls.map (fun cfg => cfg.Url)
      = [B "https://b2b.revolut.com/api/1.0/rate?amount=1.00&from=US+D&to=E%26R"]
    ∧ url.ParseQuery (B "amount=1.00&from=US+D&to=E%26R")
      = (⟨[(B "amount", [B "1.00"]), (B "from", [B "US D"]), (B "to", [B "E&R"])]⟩, none) := by
  have h := C16_rate_query_roundtrip (business.Env.const ⟨B "", 200, none⟩)
    ⟨B "tok", false, none⟩ ⟨B "US D", B "E&R", float64.finite false 1 0⟩
    (by decide) (by decide)
  have hu : B "https://b2b.revolut.com/api/1.0/rate?"
      ++ (B "amount=" ++ url.QueryEscape (fmt.Sprintf_0_2f (float64.finite false 1 0))
        ++ B "&from=" ++ url.QueryEscape (B "US D") ++ B "&to=" ++ url.QueryEscape (B "E&R"))
      = B "https://b2b.revolut.com/api/1.0/rate?amount=1.00&from=US+D&to=E%26R" := by decide
  have hq : B "amount=" ++ url.QueryEscape (fmt.Sprintf_0_2f (float64.finite false 1 0))
        ++ B "&from=" ++ url.QueryEscape (B "US D") ++ B "&to=" ++ url.QueryEscape (B "E&R")
      = B "amount=1.00&from=US+D&to=E%26R" := by decide
  have hf : fmt.Sprintf_0_2f (float64.finite false 1 0) = B "1.00" := by decide
  have h1 := h.2.1 rfl
  have h2 := h.2.2.1
  rw [hu] at h1
  rw [hq, hf] at h2
  exact ⟨h1, h2⟩

/-- C17: no endpoint method modifies the configuration of the service it is called on: for
every method, every receiver record, every argument and every reply of the transport, the
record of the service after the call, as the body of the method leaves it, is the record
before the call, so its credential (`accessToken` or `apiKey`), its `sandbox` flag or
`domain` and its stored error are the values before the call; and the run of the step is the
run of the method. -/
theorem C17_service_configuration_unchanged (w : World) (call : Call) :
    (call.exec w).2 = call.receiver ∧
    (call.exec w).2.credential = call.receiver.credential ∧
    (call.exec w).2.sandbox = call.receiver.sandbox ∧
    (call.exec w).2.domain = call.receiver.domain ∧
    (call.exec w).2.err = call.receiver.err ∧
    (call.exec w).1 = call.invoke w := by
  have h : (call.exec w).2 = call.receiver ∧ (call.exec w).1 = call.invoke w := by
    cases call
    case ExchangeService_Rate e req =>
      rcases e with ⟨tok, sb, err⟩
      cases err <;> cases req <;> exact ⟨rfl, rfl⟩
    all_goals
      simp only [Call.exec, Call.invoke, Call.receiver, Run.ofBusiness, Run.ofBusinessErr,
        Run.ofMerchant,
        business.AccountService.List_step, business.AccountService.List,
        business.AccountService.WithId_step, business.AccountService.WithId,
        business.AccountService.DetailWithId_step, business.AccountService.DetailWithId,
        business.CounterpartyService.AddRevolut_step, business.CounterpartyService.AddRevolut,
        business.CounterpartyService.AddNonRevolut_step,
        business.CounterpartyService.AddNonRevolut, business.CounterpartyService.Delete_step,
        business.CounterpartyService.Delete, business.CounterpartyService.WithId_step,
        business.CounterpartyService.WithId, business.CounterpartyService.List_step,
        business.CounterpartyService.List, business.ExchangeService.Rate_step,
        business.ExchangeService.Rate, business.ExchangeService.Exchange_step,
        business.ExchangeService.Exchange, business.PaymentDraftService.Create_step,
        business.PaymentDraftService.Create, business.PaymentDraftService.List_step,
        business.PaymentDraftService.List, business.PaymentDraftService.WithId_step,
        business.PaymentDraftService.WithId, business.PaymentDraftService.Delete_step,
        business.PaymentDraftService.Delete, business.WebhookService.Set_step,
        business.WebhookService.Set, business.WebhookService.Delete_step,
        business.WebhookService.Delete, merchant.OrderService.Create_step,
        merchant.OrderService.Create, merchant.OrderService.WithId_step,
        merchant.OrderService.WithId, merchant.OrderService.Capture_step,
        merchant.OrderService.Capture, merchant.OrderService.Cancel_step,
        merchant.OrderService.Cancel, merchant.OrderService.Refund_step,
        merchant.OrderService.Refund, merchant.CustomerService.Create_step,
        merchant.CustomerService.Create]
    all_goals (try split)
    all_goals (try split)
    all_goals (first | exact ⟨rfl, rfl⟩ | simp)
  rw [h.1]
  exact ⟨rfl, rfl, rfl, rfl, rfl, h.2⟩

/-- C18 (counterexample): a `CreateCustomerReq` whose four fields are the empty string is
serialized with all four keys present, each with the empty string as its value: the fields
of this record carry no `omitempty`. -/
theorem C18_counterexample :
    RequestDTO.Marshal (RequestDTO.CreateCustomerReq ⟨B "", B "", B "", B ""⟩)
      = Except.ok (json.Value.object
          [(B "full_name", json.Value.string (B "")),
           (B "business_name", json.Value.string (B "")),
           (B "email", json.Value.string (B "")),
           (B "phone", json.Value.string (B ""))]) :=
  rfl

/-- C18 (amended): for every request record type, and every record type nested in one, the
serialization of a value whose `float64` fields are finite numbers is a JSON object in which
every key occurs once, and each field of a string, number or list type is present or absent
as `RequestDTO.specPresent` says: the four fields of `CreateCustomerReq` and `Amount` of
`OrderReq` are always present, and every other such field is absent exactly when its value
is the empty string, the number zero or a list of length 0.  The fields that hold a nested
record are left out of the statement. -/
theorem C18_fields_omitted_when_empty (d : RequestDTO) (hfin : d.floatsFinite = true) :
    ∃ ms, d.Marshal = Except.ok (json.Value.object ms) ∧
      (ms.map Prod.fst).Nodup ∧
      ∀ kp ∈ d.specPresent, (kp.1 ∈ ms.map Prod.fst ↔ kp.2 = true) := by
  obtain ⟨ms, hms, hm⟩ := RequestDTO.Marshal_ok d hfin
  refine ⟨ms, hm, ?_, ?_⟩
  · rw [json.encodeFields_keys d.fields ms hms]
    exact (List.Sublist.map _ (List.filter_sublist _)).nodup (RequestDTO.keys_nodup d)
  · intro kp hkp
    rw [RequestDTO.specPresent_eq d] at hkp
    obtain ⟨f, hf, rfl⟩ := List.mem_map.mp hkp
    have hfd : f ∈ d.fields := (List.mem_filter.mp hf).1
    rw [json.encodeFields_mem_keys d.fields ms (RequestDTO.keys_nodup d) hms f hfd]
    cases f.omitEmpty <;> cases f.isEmpty <;> simp

/-- C18 (witness): a `RefundReq` with only a description is serialized with the one key
`description`; its zero amount and its empty currency are omitted. -/
theorem C18_fields_omitted_when_empty_witness :
    RequestDTO.floatsFinite (RequestDTO.RefundReq ⟨0, B "", B "late", B ""⟩) = true
    ∧ RequestDTO.Marshal (RequestDTO.RefundReq ⟨0, B "", B "late", B ""⟩)
      = Except.ok (json.Value.object [(B "description", json.Value.string (B "late"))])
    ∧ RequestDTO.specPresent (RequestDTO.RefundReq ⟨0, B "", B "late", B ""⟩)
      = [(B "amount", false), (B "merchant_order_id", false), (B "description", true),
         (B "currency", false)]
    ∧ ∃ ms, RequestDTO.Marshal (RequestDTO.RefundReq ⟨0, B "", B "late", B ""⟩)
        = Except.ok (json.Value.object ms)
      ∧ (ms.map Prod.fst).Nodup
      ∧ ∀ kp ∈ RequestDTO.specPresent (RequestDTO.RefundReq ⟨0, B "", B "late", B ""⟩),
          (kp.1 ∈ ms.map Prod.fst ↔ kp.2 = true) :=
  ⟨rfl, rfl, rfl,
    C18_fields_omitted_when_empty (RequestDTO.RefundReq ⟨0, B "", B "late", B ""⟩) rfl⟩

/-- C19 (the code at the failing input): the client record built by
`NewProductionClient("sk_live")` holds the API key in its field `apiKey`, and holds the API
key again, not the base URL `https://merchant.revolut.com`, in its field `domain`; the same
for `NewSandboxClient`. -/
theorem C19_client_domain_holds_api_key :
    (merchant.NewProductionClient (B "sk_live")).apiKey = B "sk_live"
    ∧ (merchant.NewProductionClient (B "sk_live")).domain = B "sk_live"
    ∧ (merchant.NewProductionClient (B "sk_live")).domain ≠ B "https://merchant.revolut.com"
    ∧ (merchant.NewSandboxClient (B "sk_test")).domain = B "sk_test"
    ∧ (merchant.NewSandboxClient (B "sk_test")).domain
      ≠ B "https://sandbox-merchant.revolut.com" := by
  refine ⟨rfl, rfl, by decide, rfl, by decide⟩

/-- C20: `CustomerService.Create` never returns a response: for every request and every
reply of the transport (a transport error, any status code, any body) it returns the `nil`
result and an error that is not `nil`; on status 200 without a transport error the error is
the one `json.Unmarshal` gives for its `nil` target, which for a well-formed body is the
invalid-unmarshal error. -/
theorem C20_customer_create_never_returns_a_response (env : merchant.Env)
    (a : merchant.CustomerService) (req : Ptr merchant.CreateCustomerReq) :
    (merchant.CustomerService.Create env a req).ret.1 = none ∧
    (∃ e, (merchant.CustomerService.Create env a req).ret.2 = some e) ∧
    (∀ cfg, (merchant.CustomerService.Create env a req).calls = [cfg] →
      (env.New cfg).err = none → (env.New cfg).statusCode = 200 →
      (merchant.CustomerService.Create env a req).ret.2
          = json.UnmarshalNil (B "*merchant.CreateCustomerResp") (env.New cfg).resp ∧
      (json.checkValid (env.New cfg).resp = none →
        (merchant.CustomerService.Create env a req).ret
          = (none, some (GoError.jsonInvalidUnmarshal (B "*merchant.CreateCustomerResp"))))) := by
  refine ⟨?_, ?_, ?_⟩
  · simp only [merchant.CustomerService.Create]
    repeat' split
    all_goals rfl
  · have hnil : ∀ data, ∃ e, json.UnmarshalNil (B "*merchant.CreateCustomerResp") data
        = some e := by
      intro data
      exact ⟨_, rfl⟩
    simp only [merchant.CustomerService.Create]
    split
    · exact ⟨_, rfl⟩
    · split
      · exact ⟨_, rfl⟩
      · obtain ⟨e, he⟩ := hnil (env.New
          { Method := http.MethodPost, Url := a.domain ++ B "/api/1.0/customers",
            ApiKey := a.apiKey, Body := merchant.request.Body.CreateCustomerReq req,
            ContentType := env.ContentType_APPLICATION_JSON }).resp
        simp only [he]
        exact ⟨_, rfl⟩
  · intro cfg hcalls herr hstatus
    simp only [merchant.CustomerService.Create, List.cons.injEq, and_true] at hcalls
    simp only [merchant.CustomerService.Create]
    rw [hcalls]
    simp only [herr, hstatus, http.StatusOK, ne_eq, not_true_eq_false, if_false]
    constructor
    · cases h : json.UnmarshalNil (B "*merchant.CreateCustomerResp") (env.New cfg).resp with
      | none => simp [json.UnmarshalNil] at h
      | some e => rfl
    · intro _
      simp [json.UnmarshalNil]

/-- C20 (witness): status 200 with the well-formed customer `{"id":"c1","email":"a@b.c"}`. -/
theorem C20_customer_create_never_returns_a_response_witness :
    json.checkValid (B "\x7b\"id\":\"c1\",\"email\":\"a@b.c\"\x7d") = none
    ∧ (merchant.CustomerService.Create
        (merchant.Env.const ⟨B "\x7b\"id\":\"c1\",\"email\":\"a@b.c\"\x7d", 200, none⟩)
        ⟨B "sk_test", B "https://merchant.revolut.com"⟩ none).ret
      = (none, some (GoError.jsonInvalidUnmarshal (B "*merchant.CreateCustomerResp"))) := by
  have hv : json.checkValid (B "\x7b\"id\":\"c1\",\"email\":\"a@b.c\"\x7d") = none := by decide
  have h := (C20_customer_create_never_returns_a_response
    (merchant.Env.const ⟨B "\x7b\"id\":\"c1\",\"email\":\"a@b.c\"\x7d", 200, none⟩)
    ⟨B "sk_test", B "https://merchant.revolut.com"⟩ none).2.2
      { Method := http.MethodPost, Url := B "https://merchant.revolut.com/api/1.0/customers",
        ApiKey := B "sk_test", Body := merchant.request.Body.CreateCustomerReq none,
        ContentType := B "application/json" } rfl rfl rfl
  exact ⟨hv, h.2 hv⟩

/-! ## The claims C21 to C23 -/

/-- C21: `CounterpartyService.Delete` checks the status code before the transport error: with
no configuration error (the request reaches the transport) it returns `nil` exactly when the
status is 204 and the transport error is `nil`; when the status is not 204 it returns the
error whose text is the response body, the empty text when there is no body, whether or not
the transport also reported an error, which is then dropped; when the status is 204 and the
transport error is not `nil` it returns the transport error. -/
theorem C21_counterparty_delete_checks_status_first (env : business.Env)
    (c : business.CounterpartyService) (id : Bytes) (cfg : business.request.Config)
    (hcalls : (business.CounterpartyService.Delete env c id).calls = [cfg]) :
    ((business.CounterpartyService.Delete env c id).ret = none ↔
      ((env.New cfg).statusCode = 204 ∧ (env.New cfg).err = none)) ∧
    ((env.New cfg).statusCode ≠ 204 →
      (business.CounterpartyService.Delete env c id).ret = some (errors.New (env.New cfg).resp) ∧
      (errors.New (env.New cfg).resp).Error = (env.New cfg).resp ∧
      ((env.New cfg).resp = [] →
        (business.CounterpartyService.Delete env c id).ret = some (errors.New []) ∧
        (errors.New []).Error = [])) ∧
    ((env.New cfg).statusCode = 204 → ∀ e, (env.New cfg).err = some e →
      (business.CounterpartyService.Delete env c id).ret = some e) := by
  simp only [business.CounterpartyService.Delete] at hcalls ⊢
  split at hcalls
  · simp at hcalls
  · simp only [List.cons.injEq, and_true] at hcalls
    rw [hcalls]
    simp only [http.StatusNoContent]
    by_cases hs : (env.New cfg).statusCode = 204
    · cases he : (env.New cfg).err <;> simp [hs]
    · simp [hs, errors.New, GoError.Error]

/-- C21 (witness): a transport that fails with `dial tcp: connection refused`, no body and
status 0: the method returns the error with the empty text. -/
theorem C21_counterparty_delete_checks_status_first_witness :
    (business.CounterpartyService.Delete
        (business.Env.const ⟨[], 0, some (GoError.other 1 (B "dial tcp: connection refused"))⟩)
        ⟨B "tok", false, none⟩ (B "cp1")).calls
      = [{ Method := http.MethodDelete,
           Url := B "https://b2b.revolut.com/api/1.0/counterparty/cp1",
           AccessToken := B "tok", Sandbox := false, Body := business.request.Body.nil,
           ContentType := [] }]
    ∧ (business.CounterpartyService.Delete
        (business.Env.const ⟨[], 0, some (GoError.other 1 (B "dial tcp: connection refused"))⟩)
        ⟨B "tok", false, none⟩ (B "cp1")).ret
      = some (errors.New [])
    ∧ (errors.New []).Error = [] := by
  have h := C21_counterparty_delete_checks_status_first
    (business.Env.const ⟨[], 0, some (GoError.other 1 (B "dial tcp: connection refused"))⟩)
    ⟨B "tok", false, none⟩ (B "cp1")
    { Method := http.MethodDelete, Url := B "https://b2b.revolut.com/api/1.0/counterparty/cp1",
      AccessToken := B "tok", Sandbox := false, Body := business.request.Body.nil,
      ContentType := [] } rfl
  exact ⟨rfl, (h.2.1 (by decide)).2.2 rfl⟩

/-- C22: every endpoint method returns (only `ExchangeService.Rate` called with a `nil` request
on a service without configuration error does not); when a method returns an error that is
not `nil`, its result is the `nil` of its declared type, or else the call is
`AccountService.DetailWithId` with no configuration error, the transport has reported this
error, and the result is the empty list that is not `nil`; and `DetailWithId` does return
the empty list with the error on every transport error.  So no method returns a record that
is partly filled together with an error. -/
theorem C22_error_comes_with_nil_result (w : World) (call : Call) :
    ((∀ e, e.err = none → call ≠ Call.ExchangeService_Rate e none) →
      ∃ v err, (call.invoke w).ret = Outcome.returned (v, err)) ∧
    (∀ v e, (call.invoke w).ret = Outcome.returned (v, some e) →
      v = call.nilValue ∨
      (∃ a id sent, call = Call.AccountService_DetailWithId a id ∧ a.err = none ∧
        (call.invoke w).calls = [sent] ∧ (w.reply sent).err = some e ∧
        v = Value.AccountDetailRespSlice (some []))) ∧
    (∀ a id sent e, call = Call.AccountService_DetailWithId a id →
      (call.invoke w).calls = [sent] → (w.reply sent).err = some e →
      (call.invoke w).ret = Outcome.returned (Value.AccountDetailRespSlice (some []), some e) ∧
      Value.AccountDetailRespSlice (some []) ≠ call.nilValue) := by
  refine ⟨?_, ?_, ?_⟩
  · intro hreq
    cases call
    case ExchangeService_Rate e req =>
      cases he : e.err with
      | some err =>
        simp only [Call.invoke, business.ExchangeService.Rate, he]
        exact ⟨_, _, rfl⟩
      | none =>
        cases req with
        | none => exact absurd rfl (hreq e he)
        | some r =>
          simp only [Call.invoke, business.ExchangeService.Rate, he]
          exact ⟨_, _, rfl⟩
    all_goals exact ⟨_, _, rfl⟩
  · intro v e hret
    cases call
    case ExchangeService_Rate x req =>
      left
      simp only [Call.invoke, Call.nilValue, business.ExchangeService.Rate] at hret ⊢
      cases hx : x.err with
      | some err =>
        simp only [hx, Outcome.returned.injEq, Prod.mk.injEq] at hret
        exact hret.1.symm
      | none =>
        cases req with
        | none => simp [hx] at hret
        | some r =>
          simp only [hx, Outcome.returned.injEq, Prod.mk.injEq] at hret
          obtain ⟨hv, he⟩ := hret
          subst hv
          split at he
          · simp_all
          · split at he
            · simp_all
            · split at he
              · simp_all
              · simp at he
    all_goals
      simp only [Call.invoke, Call.nilValue, Run.ofBusiness, Run.ofBusinessErr, Run.ofMerchant,
        business.AccountService.List, business.AccountService.WithId,
        business.AccountService.DetailWithId, business.CounterpartyService.AddRevolut,
        business.CounterpartyService.AddNonRevolut, business.CounterpartyService.Delete,
        business.CounterpartyService.WithId, business.CounterpartyService.List,
        business.ExchangeService.Rate, business.ExchangeService.Exchange,
        business.PaymentDraftService.Create, business.PaymentDraftService.List,
        business.PaymentDraftService.WithId, business.PaymentDraftService.Delete,
        business.WebhookService.Set, business.WebhookService.Delete,
        merchant.OrderService.Create, merchant.OrderService.WithId,
        merchant.OrderService.Capture, merchant.OrderService.Cancel,
        merchant.OrderService.Refund, merchant.CustomerService.Create] at hret ⊢
    all_goals (try split at hret)
    all_goals (try split at hret)
    all_goals (try split at hret)
    all_goals (try split at hret)
    all_goals (try simp at hret)
    all_goals
      first
      | exact Or.inl hret.1.symm
      | (obtain ⟨hv, he⟩ := hret
         subst hv
         subst he
         exact Or.inr ⟨_, _, _, rfl, by assumption, rfl, by assumption, rfl⟩)
  · intro a id sent e hcall hcalls herr
    subst hcall
    simp only [Call.invoke, Call.nilValue, Run.ofBusiness,
      business.AccountService.DetailWithId] at hcalls ⊢
    split at hcalls
    · simp at hcalls
    · simp only [List.map, List.cons.injEq, and_true] at hcalls
      subst hcalls
      simp only [World.reply] at herr
      simp only [heq_iff_eq, herr]
      simp

/-- C22 (witness): `AccountService.DetailWithId` on a transport that fails with
`dial tcp: connection refused` returns the empty list, which is not `nil`, with that
error. -/
theorem C22_error_comes_with_nil_result_witness :
    (Call.invoke
        (World.const ⟨[], 0, some (GoError.other 1 (B "dial tcp: connection refused"))⟩)
        (Call.AccountService_DetailWithId ⟨B "tok", false, none⟩ (B "acc1"))).ret
      = Outcome.returned (Value.AccountDetailRespSlice (some []),
          some (GoError.other 1 (B "dial tcp: connection refused")))
    ∧ Value.AccountDetailRespSlice (some [])
      ≠ (Call.AccountService_DetailWithId ⟨B "tok", false, none⟩ (B "acc1")).nilValue := by
  have h := (C22_error_comes_with_nil_result
    (World.const ⟨[], 0, some (GoError.other 1 (B "dial tcp: connection refused"))⟩)
    (Call.AccountService_DetailWithId ⟨B "tok", false, none⟩ (B "acc1"))).2.2
      ⟨B "tok", false, none⟩ (B "acc1")
      (Sent.business
        { Method := http.MethodGet,
          Url := B "https://b2b.revolut.com/api/1.0/accounts/acc1/bank-details",
          AccessToken := B "tok", Sandbox := false, Body := business.request.Body.nil,
          ContentType := [] })
      (GoError.other 1 (B "dial tcp: connection refused")) rfl rfl rfl
  exact h

/-- C23: for every method of a business service and both values of the service's `sandbox`
flag, every request handed to the transport has a URL that starts with the production base
`https://b2b.revolut.com/api/1.0/`, carries the flag of the service in `Sandbox` and its
access token in `AccessToken`; the requests of the call on the service with the flag set to
`b` are the requests of the call as it was with only the field `Sandbox` set to `b`, so the
URLs with the flag `true` and with the flag `false` are the same and nothing else in the
request depends on the flag; and with no configuration error that one request is made. -/
theorem C23_business_url_ignores_sandbox (w : World) (call : Call) (b : Bool)
    (hb : call.isBusiness = true) :
    (∀ sent ∈ (call.invoke w).calls, ∃ cfg rest, sent = Sent.business cfg ∧
      cfg.Url = B "https://b2b.revolut.com/api/1.0/" ++ rest ∧
      some cfg.Sandbox = call.receiver.sandbox ∧
      cfg.AccessToken = call.receiver.credential) ∧
    ((call.withSandbox b).receiver.sandbox = some b ∧
      (call.withSandbox b).receiver.credential = call.receiver.credential ∧
      (call.withSandbox b).receiver.err = call.receiver.err) ∧
    ((call.withSandbox b).invoke w).calls = (call.invoke w).calls.map (Sent.withSandbox b) ∧
    ((call.withSandbox true).invoke w).calls.map Sent.Url
      = ((call.withSandbox false).invoke w).calls.map Sent.Url ∧
    (call.storedErr = none → (∀ e, call ≠ Call.ExchangeService_Rate e none) →
      ∃ sent, (call.invoke w).calls = [sent]) := by
  have e1 : B "https://b2b.revolut.com/api/1.0/accounts"
      = B "https://b2b.revolut.com/api/1.0/" ++ B "accounts" := by decide
  have e2 : B "https://b2b.revolut.com/api/1.0/accounts/"
      = B "https://b2b.revolut.com/api/1.0/" ++ B "accounts/" := by decide
  have e3 : B "https://b2b.revolut.com/api/1.0/counterparty"
      = B "https://b2b.revolut.com/api/1.0/" ++ B "counterparty" := by decide
  have e4 : B "https://b2b.revolut.com/api/1.0/counterparty/"
      = B "https://b2b.revolut.com/api/1.0/" ++ B "counterparty/" := by decide
  have e5 : B "https://b2b.revolut.com/api/1.0/counterparties"
      = B "https://b2b.revolut.com/api/1.0/" ++ B "counterparties" := by decide
  have e6 : B "https://b2b.revolut.com/api/1.0/rate?"
      = B "https://b2b.revolut.com/api/1.0/" ++ B "rate?" := by decide
  have e7 : B "https://b2b.revolut.com/api/1.0/exchange"
      = B "https://b2b.revolut.com/api/1.0/" ++ B "exchange" := by decide
  have e8 : B "https://b2b.revolut.com/api/1.0/payment-drafts"
      = B "https://b2b.revolut.com/api/1.0/" ++ B "payment-drafts" := by decide
  have e9 : B "https://b2b.revolut.com/api/1.0/payment-drafts/"
      = B "https://b2b.revolut.com/api/1.0/" ++ B "payment-drafts/" := by decide
  have e10 : B "https://b2b.revolut.com/api/1.0/webhook"
      = B "https://b2b.revolut.com/api/1.0/" ++ B "webhook" := by decide
  have h3 : ∀ b : Bool,
      ((call.withSandbox b).invoke w).calls = (call.invoke w).calls.map (Sent.withSandbox b) := by
    intro b
    cases call
    all_goals (first | (simp [Call.isBusiness] at hb; done) | skip)
    all_goals
      simp only [Call.withSandbox, Call.invoke, Run.ofBusiness, Run.ofBusinessErr,
        business.AccountService.List, business.AccountService.WithId,
        business.AccountService.DetailWithId, business.CounterpartyService.AddRevolut,
        business.CounterpartyService.AddNonRevolut, business.CounterpartyService.Delete,
        business.CounterpartyService.WithId, business.CounterpartyService.List,
        business.ExchangeService.Rate, business.ExchangeService.Exchange,
        business.PaymentDraftService.Create, business.PaymentDraftService.List,
        business.PaymentDraftService.WithId, business.PaymentDraftService.Delete,
        business.WebhookService.Set, business.WebhookService.Delete]
    all_goals (split <;> try split)
    all_goals simp [Sent.withSandbox]
  have hurl : ∀ b : Bool, Sent.Url ∘ Sent.withSandbox b = Sent.Url := by
    intro b
    funext s
    cases s <;> rfl
  refine ⟨?_, ?_, h3 b, ?_, invoke_calls_of_no_storedErr w call⟩
  · intro sent hsent
    cases call
    all_goals (first | (simp [Call.isBusiness] at hb; done) | skip)
    all_goals
      simp only [Call.invoke, Run.ofBusiness, Run.ofBusinessErr,
        business.AccountService.List, business.AccountService.WithId,
        business.AccountService.DetailWithId, business.CounterpartyService.AddRevolut,
        business.CounterpartyService.AddNonRevolut, business.CounterpartyService.Delete,
        business.CounterpartyService.WithId, business.CounterpartyService.List,
        business.ExchangeService.Rate, business.ExchangeService.Exchange,
        business.PaymentDraftService.Create, business.PaymentDraftService.List,
        business.PaymentDraftService.WithId, business.PaymentDraftService.Delete,
        business.WebhookService.Set, business.WebhookService.Delete] at hsent
    all_goals (try split at hsent)
    all_goals (try simp at hsent)
    all_goals (try split at hsent)
    all_goals (try simp at hsent)
    all_goals subst hsent
    all_goals simp only [e1, e2, e3, e4, e5, e6, e7, e8, e9, e10, List.append_assoc]
    all_goals exact ⟨_, _, rfl, rfl, rfl, rfl⟩
  · cases call
    all_goals (first | (simp [Call.isBusiness] at hb; done) | skip)
    all_goals exact ⟨rfl, rfl, rfl⟩
  · rw [h3 true, h3 false, List.map_map, List.map_map, hurl true, hurl false]

/-- C23 (witness): `PaymentDraftService.Delete` of the draft `d1` on a service whose flag is
`true` requests the production URL, with `Sandbox` `true` in the request. -/
theorem C23_business_url_ignores_sandbox_witness :
    (Call.PaymentDraftService_Delete ⟨B "tok", true, none⟩ (B "d1")).isBusiness = true
    ∧ (Call.invoke (World.const ⟨B "", 204, none⟩)
        (Call.PaymentDraftService_Delete ⟨B "tok", true, none⟩ (B "d1"))).calls
      = [Sent.business
          { Method := http.MethodDelete,
            Url := B "https://b2b.revolut.com/api/1.0/payment-drafts/d1",
            AccessToken := B "tok", Sandbox := true, Body := business.request.Body.nil,
            ContentType := [] }]
    ∧ (Call.invoke (World.const ⟨B "", 204, none⟩)
        (Call.withSandbox true
          (Call.PaymentDraftService_Delete ⟨B "tok", true, none⟩ (B "d1")))).calls.map Sent.Url
      = (Call.invoke (World.const ⟨B "", 204, none⟩)
        (Call.withSandbox false
          (Call.PaymentDraftService_Delete ⟨B "tok", true, none⟩ (B "d1")))).calls.map
            Sent.Url := by
  have h := C23_business_url_ignores_sandbox (World.const ⟨B "", 204, none⟩)
    (Call.PaymentDraftService_Delete ⟨B "tok", true, none⟩ (B "d1")) true rfl
  exact ⟨rfl, rfl, h.2.2.2.1⟩
